import Mathlib

/-!
Stack reflection of the Ren-C interpreter.

A shallow embedding of `src/core/d-stack.c` (Collapsify_Array,
Make_Where_For_Frame, the BACKTRACE native, Frame_For_Stack_Level) and of
the part of `src/include/sys-eval.h` it calls
(Reify_Va_To_Array_In_Frame), followed by theorems about them.

Conventions of the embedding

* The frame stack is a `List Reb_Frame` whose head is `FS_TOP`; the tail of
  a list is what `frame->prior` reaches.  A `struct Reb_Frame *` is the
  position of the frame in that list (0 is `FS_TOP`), `NULL` is `none`.
* An array is the `List Value` of its cells before the terminator, so
  `ARR_LEN` is `List.length`.  The terminator itself is `Value.END`.
* `REBCNT` is a 32-bit unsigned integer: arithmetic that can wrap is
  written with an explicit `% 2 ^ 32`.
* An integer cell holds any integer; `VAL_INT32` narrows it to the 32-bit
  `REBINT`, its low 32 bits read as a signed number.
-/

namespace RenC

/-! ## Values -/

/-- Symbols (`REBSYM`): the ones d-stack.c and sys-eval.h name, and all the others. -/
inductive REBSYM where
  | SYM_ELLIPSIS
  | SYM_PLUS
  | SYM_ASTERISK
  | SYM___OPTIMIZED_OUT__
  | other (n : Nat)
  deriving DecidableEq

/-- Kinds of value for which `ANY_ARRAY` holds. -/
inductive REB_ARRAY_KIND where
  | REB_BLOCK
  | REB_GROUP
  | REB_PATH
  | REB_SET_PATH
  | REB_GET_PATH
  | REB_LIT_PATH
  deriving DecidableEq

/-- Native dispatchers (`FUNC_CODE`): the two that d-stack.c compares
against, and all the others. -/
inductive REBNAT where
  | N_pause
  | N_breakpoint
  | other (n : Nat)
  deriving DecidableEq

/-- A function (`REBFUN *`).  `id` is the identity of the object, `native`
is `IS_FUNCTION_AND(FUNC_VALUE(func), FUNC_CLASS_NATIVE)`, `code` is
`FUNC_CODE(func)`. -/
structure REBFUN where
  id : Nat
  native : Bool
  code : REBNAT
  deriving DecidableEq

/-- A value cell (`REBVAL`).  Every cell but the terminator and void carries
the `VALUE_FLAG_LINE` bit as its first field.  An `array` cell is any
`ANY_ARRAY` value: its kind, the cells of its array and its `VAL_INDEX`. -/
inductive Value where
  | END
  | void
  | blank (line : Bool)
  | integer (line : Bool) (n : Int)
  | word (line : Bool) (sym : REBSYM)
  | function (line : Bool) (func : REBFUN)
  | frame (line : Bool) (context : Nat)
  | array (line : Bool) (kind : REB_ARRAY_KIND) (items : List Value) (index : Nat)

namespace Value

/-- The macro `NOT_END(v)`. -/
def NOT_END : Value → Bool
  | END => false
  | _ => true

/-- The macro `IS_END(v)`. -/
def IS_END (v : Value) : Bool := !v.NOT_END

/-- The macro `IS_VOID(v)`. -/
def IS_VOID : Value → Bool
  | void => true
  | _ => false

/-- The macro `IS_BLANK(v)`. -/
def IS_BLANK : Value → Bool
  | blank _ => true
  | _ => false

/-- The macro `IS_INTEGER(v)`. -/
def IS_INTEGER : Value → Bool
  | integer _ _ => true
  | _ => false

/-- The macro `IS_FRAME(v)`. -/
def IS_FRAME : Value → Bool
  | frame _ _ => true
  | _ => false

/-- The macro `IS_FUNCTION(v)`. -/
def IS_FUNCTION : Value → Bool
  | function _ _ => true
  | _ => false

/-- The macro `ANY_ARRAY(v)`. -/
def ANY_ARRAY : Value → Bool
  | array _ _ _ _ => true
  | _ => false

/-- The macro `VAL_INT32(v)` of an integer cell: the integer of the cell
narrowed to the 32-bit `REBINT`, that is its low 32 bits read as a signed
number, from -2 ^ 31 up to 2 ^ 31 - 1 (0 for any other cell, which the code
never asks). -/
def VAL_INT32 : Value → Int
  | integer _ n => (n + 2147483648) % 4294967296 - 2147483648
  | _ => 0

/-- The macro `VAL_FUNC(v)` of a function cell; no function for any other cell. -/
def VAL_FUNC : Value → Option REBFUN
  | function _ func => some func
  | _ => none

/-- The macro `VAL_ARRAY(v)` of an array cell. -/
def VAL_ARRAY : Value → List Value
  | array _ _ items _ => items
  | _ => []

/-- The macro `VAL_INDEX(v)` of an array cell. -/
def VAL_INDEX : Value → Nat
  | array _ _ _ index => index
  | _ => 0

/-- The macro `VAL_TYPE(v)` of an array cell. -/
def VAL_TYPE : Value → REB_ARRAY_KIND
  | array _ kind _ _ => kind
  | _ => REB_ARRAY_KIND.REB_BLOCK

/-- Modelled from the spec: the macro `VAL_LEN_AT` is not among the sources.
The spec speaks of the length of a nested sequence value; a value has its
index, so this is the number of cells from the index to the tail, 0 when the
index is past the tail. -/
def VAL_LEN_AT (v : Value) : Nat := v.VAL_ARRAY.length - v.VAL_INDEX

/-- The macro `GET_VAL_FLAG(v, VALUE_FLAG_LINE)`. -/
def LINE : Value → Bool
  | END => false
  | void => false
  | blank l => l
  | integer l _ => l
  | word l _ => l
  | function l _ => l
  | frame l _ => l
  | array l _ _ _ => l

/-- The macro `CLEAR_VAL_FLAG(v, VALUE_FLAG_LINE)`. -/
def CLEAR_LINE : Value → Value
  | END => END
  | void => void
  | blank _ => blank false
  | integer _ n => integer false n
  | word _ s => word false s
  | function _ f => function false f
  | frame _ c => frame false c
  | array _ k items i => array false k items i

/-- The macro `SET_VAL_FLAG(v, VALUE_FLAG_LINE)`. -/
def SET_LINE : Value → Value
  | END => END
  | void => void
  | blank _ => blank true
  | integer _ n => integer true n
  | word _ s => word true s
  | function _ f => function true f
  | frame _ c => frame true c
  | array _ k items i => array true k items i

end Value

/-- The function `Val_Init_Word(out, REB_WORD, sym)`: a fresh word cell, no line flag. -/
def Val_Init_Word (sym : REBSYM) : Value := Value.word false sym

/-- The macro `SET_INTEGER(out, n)`: a fresh integer cell, no line flag. -/
def SET_INTEGER (n : Int) : Value := Value.integer false n

/-- The function `Val_Init_Array_Index(out, kind, array, index)`: a fresh array
cell, no line flag. -/
def Val_Init_Array_Index (kind : REB_ARRAY_KIND) (array : List Value) (index : Nat) : Value :=
  Value.array false kind array index

/-- The function `Val_Init_Block(out, array)`: a block at index 0. -/
def Val_Init_Block (array : List Value) : Value :=
  Val_Init_Array_Index REB_ARRAY_KIND.REB_BLOCK array 0

/-- The macro `ARR_AT(array, n)`: the cell at position `n`.  Position `ARR_LEN` is the
terminator.  C gives no meaning to a read beyond the terminator; the
embedding reads `END` there as well. -/
def ARR_AT (array : List Value) (n : Nat) : Value := array.getD n Value.END

/-! ## Frames -/

/-- The mode of a frame (`enum Reb_Call_Mode`). -/
inductive Reb_Call_Mode where
  | CALL_MODE_GUARD_ARRAY_ONLY
  | CALL_MODE_ARGS
  | CALL_MODE_REFINEMENT_PICKUP
  | CALL_MODE_FUNCTION
  deriving DecidableEq

/-- What `feed->pending` holds: `END_NODE`, a trashed pointer, or the
address of the cell at a position of the feed's array. -/
inductive Reb_Pending where
  | END_NODE
  | TRASH
  | AT (n : Nat)
  deriving DecidableEq

/-- The classes of a parameter (`VAL_PARAM_CLASS`): the soft quote that
Did_Inert_Optimization asks about, and the others. -/
inductive Reb_Param_Class where
  | REB_P_NORMAL
  | REB_P_HARD_QUOTE
  | REB_P_SOFT_QUOTE
  | other (n : Nat)
  deriving DecidableEq

/-- The kinds of value (`KIND_BYTE`): `REB_0` is the kind of the terminator. -/
inductive REB_KIND where
  | REB_0
  | REB_NULLED
  | REB_BLANK
  | REB_INTEGER
  | REB_WORD
  | REB_ACTION
  | REB_FRAME
  | array (kind : REB_ARRAY_KIND)
  deriving DecidableEq

/-- The macro `KIND_BYTE(v)`. -/
def Value.KIND_BYTE : Value → REB_KIND
  | Value.END => REB_KIND.REB_0
  | Value.void => REB_KIND.REB_NULLED
  | Value.blank _ => REB_KIND.REB_BLANK
  | Value.integer _ _ => REB_KIND.REB_INTEGER
  | Value.word _ _ => REB_KIND.REB_WORD
  | Value.function _ _ => REB_KIND.REB_ACTION
  | Value.frame _ _ => REB_KIND.REB_FRAME
  | Value.array _ kind _ _ => REB_KIND.array kind

/-- An action (`REBACT *`) as Did_Inert_Optimization sees it: its flags
`ACTION_FLAG_QUOTES_FIRST` and `ACTION_FLAG_SKIPPABLE_FIRST`, and of its first
unspecialized parameter (`First_Unspecialized_Param`) the class and the
kinds that pass `TYPE_CHECK`. -/
structure REBACT where
  id : Nat
  quotes_first : Bool
  skippable_first : Bool
  first_param_class : Reb_Param_Class
  first_param_types : List REB_KIND
  deriving DecidableEq

/-- The cell of a variable, as `feed->gotten` points to it: its
`CELL_FLAG_ENFIXED` bit and, read only when that bit is set, its
`VAL_ACTION`. -/
structure Reb_Gotten where
  enfixed : Bool
  action : REBACT
  deriving DecidableEq

/-- The feed of a frame (`struct Reb_Feed`), with the fields the two source
files touch.  `value` is the lookahead cell (`END` at the end).  `vaptr` is
`some rest` while the feed reads a C `va_list` whose values not yet fetched
are `rest`, and `none` (a null pointer) otherwise.  `hold` is the
`SERIES_INFO_HOLD` bit of `array`, `managed` its managed bit, `took_hold` is
`FEED_FLAG_TOOK_HOLD`, `no_lookahead` is `FEED_FLAG_NO_LOOKAHEAD`,
`gotten` is `none` for a null pointer, and `const_flag` is `FEED_FLAG_CONST`. -/
structure Reb_Feed where
  value : Value
  vaptr : Option (List Value)
  pending : Reb_Pending
  array : List Value
  index : Nat
  took_hold : Bool
  hold : Bool
  managed : Bool
  no_lookahead : Bool := false
  gotten : Option Reb_Gotten := none
  const_flag : Bool := false

/-- A frame (`struct Reb_Frame`), with the fields d-stack.c reads.
`frame_context` is `frame->flags & DO_FLAG_FRAME_CONTEXT` and `context` is
`frame->data.context`. -/
structure Reb_Frame where
  mode : Reb_Call_Mode
  func : REBFUN
  label : REBSYM
  frame_context : Bool
  context : Nat
  expr_index : Nat
  feed : Reb_Feed

open Reb_Call_Mode

/-- The macro `FRM_IS_VALIST(f)`: the feed still reads a `va_list`. -/
def FRM_IS_VALIST (f : Reb_Frame) : Bool := f.feed.vaptr.isSome

/-- The macro `FRM_ARRAY(f)`. -/
def FRM_ARRAY (f : Reb_Frame) : List Value := f.feed.array

/-- Modelled from the spec: the macro `FRM_INDEX` is not among the sources.
The spec calls what Make_Where_For_Frame reads "the Frame's current index",
and its data model gives the Feed "an index into a backing sequence". -/
def FRM_INDEX (f : Reb_Frame) : Nat := f.feed.index

/-- The macro `FRM_LABEL(f)`. -/
def FRM_LABEL (f : Reb_Frame) : REBSYM := f.label

/-- The test both walks make of a function-executing frame: a native whose
code is `N_pause` or `N_breakpoint`. -/
def Is_Pause_Or_Breakpoint (frame : Reb_Frame) : Bool :=
  frame.func.native
    && (frame.func.code == REBNAT.N_pause || frame.func.code == REBNAT.N_breakpoint)

/-! ## Frame_For_Stack_Level -/

/-- The loop of Frame_For_Stack_Level, `for (; frame != NULL; frame = frame->prior)`,
run on the frames from `frame` down to the base.  `pos` is the position of
`frame` in the stack, `first` and `num` are the locals of that name.  The
result is the frame returned and the `num` written to `number_out`, or `none`
for `NULL`. -/
def Frame_For_Stack_Level_loop (level : Value) :
    List Reb_Frame → Nat → Bool → Int → Option (Nat × Int)
  | [], _, _, _ => none
  | frame :: prior, pos, first, num =>
    if frame.mode ≠ CALL_MODE_FUNCTION then
      -- pending calls, groups, non-invoked functions are no candidates
      Frame_For_Stack_Level_loop level prior (pos + 1) first num
    else if first && Is_Pause_Or_Breakpoint frame then
      -- this is considered the "0"
      if level.IS_INTEGER && num == level.VAL_INT32 then
        some (pos, num)
      else
        Frame_For_Stack_Level_loop level prior (pos + 1) false num
    else
      let num := if first then num + 1 else num -- bump up from 0
      if level.IS_INTEGER && num == level.VAL_INT32 then
        some (pos, num)
      else
        -- first = FALSE; the second test of mode is never taken here
        if level.IS_VOID || level.IS_BLANK then
          some (pos, num)
        else if level.IS_INTEGER then
          let num := num + 1
          if num == level.VAL_INT32 then
            some (pos, num)
          else
            Frame_For_Stack_Level_loop level prior (pos + 1) false num
        else if level.IS_FRAME then
          match level with
          | Value.frame _ context =>
            if frame.frame_context && frame.context == context then
              some (pos, num)
            else
              Frame_For_Stack_Level_loop level prior (pos + 1) false num
          | _ => Frame_For_Stack_Level_loop level prior (pos + 1) false num
        else
          match level with
          | Value.function _ func =>
            if func == frame.func then
              some (pos, num)
            else
              Frame_For_Stack_Level_loop level prior (pos + 1) false num
          | _ => Frame_For_Stack_Level_loop level prior (pos + 1) false num

/-- The function `Frame_For_Stack_Level(number_out, level, skip_current)` on
the frame stack `stack` (head `FS_TOP`): the position of the frame returned together
with the number written to `number_out`, or `none` for `NULL`. -/
def Frame_For_Stack_Level (stack : List Reb_Frame) (level : Value) (skip_current : Bool) :
    Option (Nat × Int) :=
  if level.IS_INTEGER && decide (level.VAL_INT32 < 0) then
    none
  else if skip_current then
    Frame_For_Stack_Level_loop level (stack.drop 1) 1 true 0
  else
    Frame_For_Stack_Level_loop level stack 0 true 0

/-! ## Collapsify_Array -/

/-- Modelled from the spec: `Copy_Array_At_Max_Shallow` is not among the
sources.  The spec calls its result "a shallow copy truncated to the limit":
the cells of `original` from `index` on, at most `max` of them. -/
def Copy_Array_At_Max_Shallow (original : List Value) (index max : Nat) : List Value :=
  (original.drop index).take max

/-- The `for (; NOT_END(item); ++item)` loop of Collapsify_Array over the
cells of an array, where `recur copy` stands for the nested call
`Collapsify_Array(copy, limit)`.  It stops at the first terminator cell. -/
def Collapsify_Array_loop (recur : List Value → List Value) (limit : Nat) :
    List Value → List Value
  | [] => []
  | item :: rest =>
    if item.NOT_END then
      (if item.ANY_ARRAY && decide (item.VAL_LEN_AT > limit) then
        let copy := Copy_Array_At_Max_Shallow item.VAL_ARRAY item.VAL_INDEX (limit + 1)
        let copy := copy.set limit (Val_Init_Word REBSYM.SYM_ELLIPSIS)
        let copy := recur copy
        Val_Init_Array_Index item.VAL_TYPE copy 0 -- at 0 now
      else
        item) :: Collapsify_Array_loop recur limit rest
    else
      item :: rest

/-- Collapsify_Array with a bound `fuel` on the depth of the nested calls. -/
def Collapsify_Array_fuel : Nat → List Value → Nat → List Value
  | 0, array, _ => array
  | fuel + 1, array, limit =>
    Collapsify_Array_loop (fun copy => Collapsify_Array_fuel fuel copy limit) limit array

mutual
/-- Nesting depth of a cell: 0 for a cell that is not an array. -/
def Value.depth : Value → Nat
  | Value.array _ _ items _ => depth_of_cells items + 1
  | _ => 0
/-- Nesting depth of the cells of an array: the largest depth of a cell. -/
def depth_of_cells : List Value → Nat
  | [] => 0
  | v :: vs => max v.depth (depth_of_cells vs)
end

/-- The function `Collapsify_Array(array, limit)`: the cells of `array` after the call.
The nested calls go as deep as the array nests and no deeper, which is the
fuel given.  (The arrays of the embedding are trees; a `limit + 1` that wraps
needs an array of 2 ^ 32 cells and is left out.) -/
def Collapsify_Array (array : List Value) (limit : Nat) : List Value :=
  Collapsify_Array_fuel (depth_of_cells array + 1) array limit

/-! ## Reify_Va_To_Array_In_Frame -/

/-- Modelled from the spec: `Fetch_Next_Forget_Lookback` is not among the
sources.  The spec: "advance() moves the lookahead forward one value; for
variadic sources this performs the underlying variadic fetch".  At the end
of the `va_list` the lookahead is the terminator, `va_end` is called (the
pointer is null afterwards) and `pending` is trashed.  For an array feed the
lookahead is the cell at `index`, and `index` moves on. -/
def Fetch_Next_Forget_Lookback (feed : Reb_Feed) : Reb_Feed :=
  match feed.vaptr with
  | some (v :: rest) => { feed with value := v, vaptr := some rest }
  | some [] => { feed with value := Value.END, vaptr := none, pending := Reb_Pending.TRASH }
  | none => { feed with value := ARR_AT feed.array feed.index, index := feed.index + 1 }

/-- The `do { ... } while (NOT_END(f->feed->value))` loop of
Reify_Va_To_Array_In_Frame: `ds` is what has been pushed on the data stack
since `dsp_orig`, oldest first. -/
def Reify_Va_do_while : Nat → Reb_Feed → List Value → Reb_Feed × List Value
  | 0, feed, ds => (feed, ds)
  | fuel + 1, feed, ds =>
    let ds := ds ++ [feed.value] -- Derelativize(DS_PUSH(), value, specifier)
    let feed := Fetch_Next_Forget_Lookback feed
    if feed.value.NOT_END then Reify_Va_do_while fuel feed ds else (feed, ds)

/-- The function `Reify_Va_To_Array_In_Frame(f, truncated)` on the feed of the frame.  The
loop runs once per value left in the `va_list` and once for the lookahead,
which is the fuel given. -/
def Reify_Va_To_Array_In_Feed (feed : Reb_Feed) (truncated : Bool) : Reb_Feed :=
  let ds : List Value :=
    if truncated then [Val_Init_Word REBSYM.SYM___OPTIMIZED_OUT__] else []
  let (feed, ds) :=
    if feed.value.NOT_END then
      let (feed, ds) := Reify_Va_do_while ((feed.vaptr.getD []).length + 1) feed ds
      ({ feed with index := if truncated then 2 else 1 }, ds)
    else
      ({ feed with index := 0 }, ds)
  -- f->feed->array = Pop_Stack_Values(dsp_orig); MANAGE_ARRAY; SET_SERIES_INFO(HOLD)
  let feed := { feed with array := ds, managed := true, hold := true, took_hold := true }
  let feed :=
    { feed with value := if truncated then ARR_AT feed.array 1 else ARR_AT feed.array 0 }
  { feed with
    pending := Reb_Pending.AT ((if truncated then 1 else 0) + 1) }

/-- The function `Reify_Va_To_Array_In_Frame(f, truncated)`. -/
def Reify_Va_To_Array_In_Frame (f : Reb_Frame) (truncated : Bool) : Reb_Frame :=
  { f with feed := Reify_Va_To_Array_In_Feed f.feed truncated }

/-! ## Make_Where_For_Frame -/

/-- The frame as Make_Where_For_Frame leaves it: a `va_list` feed is reified,
with `truncated` true. -/
def Make_Where_For_Frame_reified (frame : Reb_Frame) : Reb_Frame :=
  if FRM_IS_VALIST frame then Reify_Va_To_Array_In_Frame frame true else frame

/-- The function `Make_Where_For_Frame(frame)`: the cells of the array returned.
`start`, `end`, `len` and `n` are `REBCNT`, so `end - start`, the sum that
gives `len` and `start + n - 1` are taken modulo 2 ^ 32 (the assertion
`end >= start` is compiled out of a release build). -/
def Make_Where_For_Frame (frame : Reb_Frame) : List Value :=
  let frame := Make_Where_For_Frame_reified frame
  let start := min (FRM_ARRAY frame).length (frame.expr_index % 2 ^ 32)
  let end_ := min (FRM_ARRAY frame).length (FRM_INDEX frame)
  let pending := !(frame.mode == CALL_MODE_FUNCTION)
  let len := (1 + (end_ + 2 ^ 32 - start) % 2 ^ 32 + (if pending then 1 else 0)) % 2 ^ 32
  let cells := Val_Init_Word (FRM_LABEL frame)
    :: (List.range' 1 (len - 1)).map
        (fun n => ARR_AT (FRM_ARRAY frame) ((start + n - 1) % 2 ^ 32))
  let where_ := cells.take len -- SET_ARRAY_LEN(where, len)
  let where_ := Collapsify_Array where_ 3
  let where_ :=
    if (end_ + 2 ^ 32 - start) % 2 ^ 32 > 0 then where_.modifyHead Value.CLEAR_LINE
    else where_
  if pending then
    where_ ++ [Val_Init_Word REBSYM.SYM_ELLIPSIS] -- Alloc_Tail_Array(where)
  else
    where_

/-! ## The BACKTRACE native -/

/-- The errors the natives of d-stack.c raise with `fail`. -/
inductive Reb_Error where
  | Error_Invalid_Arg (arg : Value)
  | RE_BAD_REFINES

/-- How a call of the BACKTRACE native ends: a `fail`, `R_BLANK`, `R_OUT` with
`D_OUT` the FRAME! made for the frame at a position of the stack, `R_OUT`
with `D_OUT` the backtrace block (/ONLY), or `R_VOID` after the backtrace
block was printed. -/
inductive Backtrace_Result where
  | fail (error : Reb_Error)
  | R_BLANK
  | R_OUT_FRAME (frame : Nat)
  | R_OUT (backtrace : Value)
  | R_VOID (printed : Value)

/-- How the second loop of the native ends: by `return R_OUT` with a frame,
or by leaving the loop (at its end or by `break`) with these values of
`index` and of the cells of `backtrace`. -/
inductive Backtrace_Exit where
  | returned (frame : Nat)
  | left (index : Nat) (backtrace : List Value)

/-- The value of `max_rows`, a `REBCNT`, after lines 342-352, or the failure
raised there. -/
def backtrace_max_rows (limit : Bool) (frames : Value) : Except Reb_Error Nat :=
  if limit then
    if frames.IS_BLANK then
      Except.ok (2 ^ 32 - 1) -- MAX_U32
    else if frames.VAL_INT32 < 0 then
      Except.error (Reb_Error.Error_Invalid_Arg frames)
    else
      Except.ok ((frames.VAL_INT32 + 1) % 2 ^ 32).toNat -- + 1 for ellipsis
  else
    Except.ok 20

/-- The counting loop of the native (lines 374-394), from `frame` down to the
base: the value of `index` when the loop is left.  (`index` and `row` count
frames of the stack, far fewer than 2 ^ 31, and are kept as naturals.) -/
def backtrace_count (brief : Bool) (max_rows : Nat) : List Reb_Frame → Nat → Nat → Nat
  | [], index, _ => index
  | frame :: prior, index, row =>
    if frame.mode = CALL_MODE_GUARD_ARRAY_ONLY then
      backtrace_count brief max_rows prior index row
    else
      let index := index + 1
      let index := if !brief then index + 1 else index
      let row := row + 1
      if row ≥ max_rows then index -- break
      else backtrace_count brief max_rows prior index row

/-- The second loop of the native (lines 403-564), from `frame` down to the
base.  `pos` is the position of `frame` in the stack; `row`, `number`,
`first`, `index` and `backtrace` are the locals of that name.  The
cross-check under `#if !defined(NDEBUG)` is not part of a release build. -/
def backtrace_loop (level : Value) (get_frame brief : Bool) (max_rows : Nat) :
    List Reb_Frame → Nat → Nat → Nat → Bool → Nat → List Value → Backtrace_Exit
  | [], _, _, _, _, index, backtrace => Backtrace_Exit.left index backtrace
  | frame :: prior, pos, row, number, first, index, backtrace =>
    if frame.mode = CALL_MODE_GUARD_ARRAY_ONLY then
      backtrace_loop level get_frame brief max_rows prior (pos + 1) row number first index
        backtrace
    else
      let pending := decide (frame.mode ≠ CALL_MODE_FUNCTION)
      let number :=
        if frame.mode = CALL_MODE_FUNCTION then
          if first && Is_Pause_Or_Breakpoint frame then number else number + 1
        else number
      -- first = FALSE
      let row := row + 1
      if get_frame then
        let skip :=
          if level.IS_INTEGER then
            decide ((number : Int) ≠ level.VAL_INT32 % 2 ^ 32) -- cast(REBCNT, VAL_INT32(level))
          else decide (some frame.func ≠ level.VAL_FUNC)
        if skip then
          backtrace_loop level get_frame brief max_rows prior (pos + 1) row number false index
            backtrace
        else
          Backtrace_Exit.returned pos
      else if row ≥ max_rows then
        let index := index - 1
        let backtrace := backtrace.set index (Val_Init_Word REBSYM.SYM_PLUS)
        if !brief then
          let index := index - 1
          let backtrace :=
            backtrace.set index (Val_Init_Word REBSYM.SYM_ASTERISK).SET_LINE
          Backtrace_Exit.left index backtrace -- break
        else
          Backtrace_Exit.left index backtrace -- break
      else
        let index := index - 1
        if brief then
          let backtrace := backtrace.set index (Val_Init_Word (FRM_LABEL frame))
          backtrace_loop level get_frame brief max_rows prior (pos + 1) row number false index
            backtrace
        else
          let backtrace := backtrace.set index (Val_Init_Block (Make_Where_For_Frame frame))
          let index := index - 1
          let temp :=
            if pending then Val_Init_Word REBSYM.SYM_ASTERISK else SET_INTEGER number
          let backtrace := backtrace.set index temp.SET_LINE
          backtrace_loop level get_frame brief max_rows prior (pos + 1) row number false index
            backtrace

/-- The native up to the end of its second loop (lines 327-564): the failure
raised, or how the second loop ends.  `stack` is the frame stack with the
frame of the native itself as `FS_TOP`; the cells of the array made by
`Make_Array(index)` are terminators until they are written. -/
def N_backtrace_walk (stack : List Reb_Frame) (level : Value) (limit : Bool) (frames : Value)
    (brief : Bool) : Except Reb_Error Backtrace_Exit :=
  let get_frame := !(level.IS_VOID || level.IS_BLANK)
  if get_frame && (limit || brief) then
    Except.error Reb_Error.RE_BAD_REFINES
  else
    match backtrace_max_rows limit frames with
    | Except.error e => Except.error e
    | Except.ok max_rows =>
      if get_frame && level.IS_INTEGER && decide (level.VAL_INT32 < 0) then
        Except.error (Reb_Error.Error_Invalid_Arg level)
      else
        let index := if get_frame then 0 else backtrace_count brief max_rows (stack.drop 1) 0 0
        let backtrace := List.replicate index Value.END
        Except.ok
          (backtrace_loop level get_frame brief max_rows (stack.drop 1) 1 0 0 true index
            backtrace)

/-- The native `N_backtrace` (BACKTRACE), called with `level`, `/limit frames`,
`/brief` and `/only` on the frame stack `stack`. -/
def N_backtrace (stack : List Reb_Frame) (level : Value) (limit : Bool) (frames : Value)
    (brief only : Bool) : Backtrace_Result :=
  match N_backtrace_walk stack level limit frames brief with
  | Except.error e => Backtrace_Result.fail e
  | Except.ok (Backtrace_Exit.returned frame) => Backtrace_Result.R_OUT_FRAME frame
  | Except.ok (Backtrace_Exit.left _ backtrace) =>
    if !(level.IS_VOID || level.IS_BLANK) then
      Backtrace_Result.R_BLANK
    else if only then
      Backtrace_Result.R_OUT (Val_Init_Block backtrace)
    else
      Backtrace_Result.R_VOID (Val_Init_Block backtrace) -- Print_Value(D_OUT, 0, TRUE)

/-- The positions of the frame's array that the copy loop of
Make_Where_For_Frame reads, `start + n - 1` for `n` from 1 up to `len - 1`, in
the order it reads them (`start`, `end` and `len` as in Make_Where_For_Frame). -/
def Make_Where_For_Frame_reads (frame : Reb_Frame) : List Nat :=
  let frame := Make_Where_For_Frame_reified frame
  let start := min (FRM_ARRAY frame).length (frame.expr_index % 2 ^ 32)
  let end_ := min (FRM_ARRAY frame).length (FRM_INDEX frame)
  let pending := !(frame.mode == CALL_MODE_FUNCTION)
  let len := (1 + (end_ + 2 ^ 32 - start) % 2 ^ 32 + (if pending then 1 else 0)) % 2 ^ 32
  (List.range' 1 (len - 1)).map (fun n => (start + n - 1) % 2 ^ 32)

/-! ## Collapsify_Array on arrays held by reference -/

/-- A value cell whose array, when it has one, is held by reference: `series`
is the position of the array in the heap.  `other` is any cell that is
neither a terminator, a word nor an array. -/
inductive Heap_Cell where
  | END
  | other (line : Bool) (payload : Nat)
  | word (line : Bool) (sym : REBSYM)
  | array (line : Bool) (kind : REB_ARRAY_KIND) (series : Nat) (index : Nat)
  deriving DecidableEq

/-- The macro `NOT_END(v)` on such a cell. -/
def Heap_Cell.NOT_END : Heap_Cell → Bool
  | Heap_Cell.END => false
  | _ => true

/-- The macro `ANY_ARRAY(v)` on such a cell. -/
def Heap_Cell.ANY_ARRAY : Heap_Cell → Bool
  | Heap_Cell.array _ _ _ _ => true
  | _ => false

/-- The macro `VAL_ARRAY(v)` on such a cell: the position of its array. -/
def Heap_Cell.VAL_ARRAY : Heap_Cell → Nat
  | Heap_Cell.array _ _ series _ => series
  | _ => 0

/-- The macro `VAL_INDEX(v)` on such a cell. -/
def Heap_Cell.VAL_INDEX : Heap_Cell → Nat
  | Heap_Cell.array _ _ _ index => index
  | _ => 0

/-- The macro `VAL_TYPE(v)` on such a cell. -/
def Heap_Cell.VAL_TYPE : Heap_Cell → REB_ARRAY_KIND
  | Heap_Cell.array _ kind _ _ => kind
  | _ => REB_ARRAY_KIND.REB_BLOCK

/-- The arrays in memory: the cells, before the terminator, of each array
made so far.  A `REBARR *` is a position in this list; `Make_Array` and the
copying functions add a new array at the end. -/
abbrev Heap := List (List Heap_Cell)

/-- The cells of the array at position `array` of the heap. -/
def Heap.cells (heap : Heap) (array : Nat) : List Heap_Cell := heap.getD array []

/-- The macro `ARR_AT(array, n)` in the heap; position `ARR_LEN` is the
terminator. -/
def Heap.ARR_AT (heap : Heap) (array n : Nat) : Heap_Cell :=
  (heap.cells array).getD n Heap_Cell.END

/-- A write of `cell` into the cell `ARR_AT(array, n)`. -/
def Heap.write (heap : Heap) (array n : Nat) (cell : Heap_Cell) : Heap :=
  heap.set array ((heap.cells array).set n cell)

/-- Modelled from the spec: the macro `VAL_LEN_AT` (not among the sources) in
the heap: the number of cells from the value's index to the tail of its
array, 0 when the index is past the tail. -/
def Heap.VAL_LEN_AT (heap : Heap) (v : Heap_Cell) : Nat :=
  (heap.cells v.VAL_ARRAY).length - v.VAL_INDEX

/-- The loop of Collapsify_Array on the array at position `array` of the heap,
from the cell at position `i` on, for at most `n` cells; `recur heap copy`
stands for the nested call `Collapsify_Array(copy, limit)`.  The new array
of `Copy_Array_At_Max_Shallow` (modelled from the spec, as above) is added
at the end of the heap. -/
def Collapsify_Array_in_heap_loop (recur : Heap → Nat → Heap) (limit array : Nat) :
    Nat → Nat → Heap → Heap
  | 0, _, heap => heap
  | n + 1, i, heap =>
    let item := heap.ARR_AT array i
    if item.NOT_END then
      if item.ANY_ARRAY && decide (heap.VAL_LEN_AT item > limit) then
        let copy := heap.length
        let heap := heap ++ [((heap.cells item.VAL_ARRAY).drop item.VAL_INDEX).take (limit + 1)]
        let heap := heap.write copy limit (Heap_Cell.word false REBSYM.SYM_ELLIPSIS)
        let heap := recur heap copy
        let heap := heap.write array i (Heap_Cell.array false item.VAL_TYPE copy 0)
        Collapsify_Array_in_heap_loop recur limit array n (i + 1) heap
      else
        Collapsify_Array_in_heap_loop recur limit array n (i + 1) heap
    else
      heap

/-- The function `Collapsify_Array(array, limit)` on the array at position
`array` of the heap: the heap after the call, the nested calls being followed
to the depth `fuel` (arrays held by reference can contain themselves, and the
nested calls then never end). -/
def Collapsify_Array_in_heap : Nat → Heap → Nat → Nat → Heap
  | 0, heap, _, _ => heap
  | fuel + 1, heap, array, limit =>
    Collapsify_Array_in_heap_loop (fun heap copy => Collapsify_Array_in_heap fuel heap copy limit)
      limit array (heap.cells array).length 0 heap

/-! ## The natives BACKTRACE-INDEX, RUNNING? and PENDING? -/

/-- The native `N_backtrace_index` (BACKTRACE-INDEX) called with `level` on the
frame stack `stack`: `R_OUT` with the integer `number`, or `R_BLANK`. -/
def N_backtrace_index (stack : List Reb_Frame) (level : Value) : Backtrace_Result :=
  match Frame_For_Stack_Level stack level true with
  | some (_, number) => Backtrace_Result.R_OUT (SET_INTEGER number)
  | none => Backtrace_Result.R_BLANK

/-- The context of a FRAME! value (`REBCTX *`), with what RUNNING? and PENDING?
read of it: `stack` is `CONTEXT_FLAG_STACK`, `accessible` is
`SERIES_FLAG_ACCESSIBLE`, `frame` is `CTX_FRAME(c)`. -/
structure REBCTX where
  stack : Bool
  accessible : Bool
  frame : Reb_Frame

/-- The native `N_running_q` (RUNNING?) called with a FRAME! of context
`frame_ctx`: true for `R_TRUE`, false for `R_FALSE`. -/
def N_running_q (frame_ctx : REBCTX) : Bool :=
  if frame_ctx.stack && !frame_ctx.accessible then
    false
  else if frame_ctx.frame.mode = CALL_MODE_FUNCTION then
    true
  else
    false

/-- The native `N_pending_q` (PENDING?) called with a FRAME! of context
`frame_ctx`: true for `R_TRUE`, false for `R_FALSE`. -/
def N_pending_q (frame_ctx : REBCTX) : Bool :=
  if frame_ctx.stack && !frame_ctx.accessible then
    false
  else if frame_ctx.frame.mode = CALL_MODE_ARGS
      ∨ frame_ctx.frame.mode = CALL_MODE_REFINEMENT_PICKUP then
    true
  else
    false

/-! ## Did_Inert_Optimization -/

/-- The evaluator flags (`REBFLGS`): the two bits Did_Inert_Optimization sets,
`EVAL_FLAG_POST_SWITCH` and `EVAL_FLAG_INERT_OPTIMIZATION`, the other bits,
and the two bits the stepping functions read or set, `EVAL_FLAG_NO_RESIDUE`
and `EVAL_FLAG_REEVALUATE_CELL`. -/
structure REBFLGS where
  post_switch : Bool
  inert_optimization : Bool
  other : Nat
  no_residue : Bool := false
  reevaluate_cell : Bool := false
  deriving DecidableEq

/-- Modelled from the spec: `Literal_Next_In_Feed` is not among the sources.
The spec: "take the value directly without allocating evaluation state".
The output cell gets the lookahead, and the feed advances by one value. -/
def Literal_Next_In_Feed (feed : Reb_Feed) : Value × Reb_Feed :=
  (feed.value, Fetch_Next_Forget_Lookback feed)

/-- What a call of Did_Inert_Optimization leaves: the `bool` it returns, the
output cell, the feed and the flags. -/
structure Inert_Optimization where
  result : Bool
  out : Value
  feed : Reb_Feed
  flags : REBFLGS

/-- The function `Did_Inert_Optimization(out, feed, flags)`.  What is not
among the sources is taken as given: `ANY_INERT` is the macro of that name,
`Try_Get_Opt_Var value` is the variable the word `value` is bound to under
the feed's specifier (`none` for a null pointer), and `default_hook` says
whether `PG_Eval_Throws` is `Eval_Core_Throws`. -/
def Did_Inert_Optimization (ANY_INERT : Value → Bool)
    (Try_Get_Opt_Var : Value → Option Reb_Gotten) (default_hook : Bool)
    (out : Value) (feed : Reb_Feed) (flags : REBFLGS) : Inert_Optimization :=
  let post_switch : REBFLGS := { flags with post_switch := true, inert_optimization := true }
  if !ANY_INERT feed.value then
    { result := false, out := out, feed := feed, flags := flags } -- requires a frame
  else if !default_hook then
    { result := false, out := out, feed := feed, flags := flags } -- tracing or other hooks
  else
    let out := (Literal_Next_In_Feed feed).1
    let feed := (Literal_Next_In_Feed feed).2
    if feed.value.KIND_BYTE = REB_KIND.REB_WORD then
      let feed := { feed with gotten := Try_Get_Opt_Var feed.value }
      match feed.gotten with
      | none =>
        { result := true, out := out, feed := { feed with no_lookahead := false },
          flags := flags }
      | some gotten =>
        if !gotten.enfixed then
          -- not enfixed
          { result := true, out := out, feed := { feed with no_lookahead := false },
            flags := flags }
        else if gotten.action.quotes_first then
          if !feed.no_lookahead then
            { result := false, out := out, feed := feed, flags := post_switch }
          else if gotten.action.first_param_class = Reb_Param_Class.REB_P_SOFT_QUOTE then
            -- yield the lookahead
            { result := true, out := out, feed := { feed with no_lookahead := false },
              flags := flags }
          else
            { result := false, out := out, feed := { feed with no_lookahead := false },
              flags := post_switch }
        else if feed.no_lookahead then
          { result := true, out := out, feed := { feed with no_lookahead := false },
            flags := flags }
        else if gotten.action.skippable_first
            && !(gotten.action.first_param_types.contains out.KIND_BYTE) then
          -- didn't actually want this parameter type
          { result := true, out := out, feed := feed, flags := flags }
        else
          { result := false, out := out, feed := feed, flags := post_switch }
    else if feed.no_lookahead then
      { result := true, out := out, feed := { feed with no_lookahead := false },
        flags := flags }
    else if feed.value.KIND_BYTE ≠ REB_KIND.array REB_ARRAY_KIND.REB_PATH then
      { result := true, out := out, feed := feed, flags := flags }
    else if (ARR_AT feed.value.VAL_ARRAY 0).KIND_BYTE = REB_KIND.REB_BLANK
        ∧ (ARR_AT feed.value.VAL_ARRAY 1).KIND_BYTE = REB_KIND.REB_BLANK then
      { result := false, out := out, feed := feed, flags := post_switch }
    else
      { result := true, out := out, feed := feed, flags := flags }

/-! ## The stepping functions of sys-eval.h -/

/-- A frame of the evaluator (`REBFRM`) as `DECLARE_FRAME(name, feed, flags)`
declares it: the address of the feed it is bound to (`f->feed`), its flags,
and `u.reval.value` (`none` while it is not set). -/
structure REBFRM where
  feed : Nat
  flags : REBFLGS
  reval : Option Value := none

/-- A push or a drop of a frame, as the trace of a state records it. -/
inductive Eval_Event where
  | pushed (f : REBFRM)
  | dropped

/-- The state the stepping functions work on: the frame stack (head
`FS_TOP`), the feeds by address, the output cell `out` of the call, and a
record of the pushes and drops made so far, the oldest first. -/
structure Eval_State where
  frames : List REBFRM
  feeds : Nat → Reb_Feed
  out : Value
  trace : List Eval_Event := []

/-- Modelled from the spec: `Push_Frame` is not among the sources.  The spec:
"push(output_cell, flags) allocates a new Frame bound to a chosen Feed,
installs it as the new top, clears any stale lookahead flags it must not
inherit".  The frame becomes `FS_TOP`, and the push is recorded.  Which flags
are cleared the spec does not say; none is cleared here. -/
def Push_Frame (s : Eval_State) (f : REBFRM) : Eval_State :=
  { s with frames := f :: s.frames, trace := s.trace ++ [Eval_Event.pushed f] }

/-- Modelled from the spec: `Drop_Frame` is not among the sources.  The spec:
"drop(frame) removes a Frame from the top of the stack; only the current top
may be dropped".  The top frame is removed, and the drop is recorded. -/
def Drop_Frame (s : Eval_State) : Eval_State :=
  { s with frames := s.frames.drop 1, trace := s.trace ++ [Eval_Event.dropped] }

/-- What the stepping functions use and the sources do not hold, taken as
given: the macro `ANY_INERT`; `Try_Get_Opt_Var`; whether `PG_Eval_Throws` is
`Eval_Core_Throws`; the hook `PG_Eval_Throws` itself, called with its frame as
`FS_TOP`, which gives `threw` and the state it leaves; the feed that
`Prep_Array_Feed(feed, opt_first, array, index, specifier, flags)` prepares,
given the `FEED_FLAG_CONST` bit of `flags`; the feed that
`DECLARE_VA_FEED(feed, opt_first, vaptr, flags)` prepares over the values of
the `va_list`, likewise; the `FEED_FLAG_CONST` bit of the header of a cell;
and the mask `EVAL_MASK_DEFAULT`. -/
structure Evaluator where
  ANY_INERT : Value → Bool
  Try_Get_Opt_Var : Value → Option Reb_Gotten
  default_hook : Bool
  PG_Eval_Throws : Eval_State → Bool × Eval_State
  Prep_Array_Feed : Option Value → List Value → Nat → Bool → Reb_Feed
  DECLARE_VA_FEED : Option Value → List Value → Bool → Reb_Feed
  CELL_CONST : Value → Bool
  EVAL_MASK_DEFAULT : REBFLGS

/-- The failures the stepping functions raise with `fail`:
`Error_Apply_Too_Many_Raw()` and the message of Eval_Value_Core_Throws,
"empty or just COMMENTs/ELIDEs/BAR!s". -/
inductive Eval_Error where
  | Error_Apply_Too_Many_Raw
  | empty_evaluation

/-- How a stepping function that can fail ends: it returns `threw`, or it
raises a failure. -/
inductive Eval_Outcome where
  | returned (threw : Bool)
  | failed (error : Eval_Error)

/-- The function `Eval_Step_In_Subframe_Throws(out, f, flags)`. -/
def Eval_Step_In_Subframe_Throws (E : Evaluator) (f : REBFRM) (flags : REBFLGS)
    (s : Eval_State) : Bool × Eval_State :=
  let opt := Did_Inert_Optimization E.ANY_INERT E.Try_Get_Opt_Var E.default_hook s.out
    (s.feeds f.feed) flags
  let s := { s with out := opt.out, feeds := Function.update s.feeds f.feed opt.feed }
  if opt.result then
    (false, s) -- ANY_INERT() might be handled without a frame
  else
    let subframe : REBFRM := { feed := f.feed, flags := opt.flags }
    let s := Push_Frame s subframe
    let r := E.PG_Eval_Throws s
    (r.1, Drop_Frame r.2)

/-- The function `Reevaluate_In_Subframe_Throws(out, f, reval, flags)`. -/
def Reevaluate_In_Subframe_Throws (E : Evaluator) (f : REBFRM) (reval : Value)
    (flags : REBFLGS) (s : Eval_State) : Bool × Eval_State :=
  let subframe : REBFRM :=
    { feed := f.feed, flags := { flags with reevaluate_cell := true }, reval := some reval }
  let s := Push_Frame s subframe
  let r := E.PG_Eval_Throws s
  (r.1, Drop_Frame r.2)

/-- The loop `do { threw = (*PG_Eval_Throws)(f); } while (not threw and
NOT_END(feed->value))` of the stepping functions, `feed` being the address of
the feed: `none` when `fuel` calls of the hook do not end it. -/
def Eval_do_while (PG_Eval_Throws : Eval_State → Bool × Eval_State) (feed : Nat) :
    Nat → Eval_State → Option (Bool × Eval_State)
  | 0, _ => none
  | fuel + 1, s =>
    let r := PG_Eval_Throws s
    if !r.1 && (r.2.feeds feed).value.NOT_END then
      Eval_do_while PG_Eval_Throws feed fuel r.2
    else
      some r

/-- The function `Eval_Array_At_Mutable_Throws_Core(out, opt_first, array,
index, specifier, flags)`; `feed` is the address of its local `feed_struct`,
and `fuel` bounds the calls of the hook in its loop. -/
def Eval_Array_At_Mutable_Throws_Core (E : Evaluator) (fuel : Nat) (feed : Nat)
    (opt_first : Option Value) (array : List Value) (index : Nat) (flags : REBFLGS)
    (s : Eval_State) : Option (Bool × Eval_State) :=
  let s := { s with
    feeds := Function.update s.feeds feed (E.Prep_Array_Feed opt_first array index false) }
  if (s.feeds feed).value.IS_END then
    some (false, s)
  else
    let f : REBFRM := { feed := feed, flags := flags }
    let s := Push_Frame s f
    match Eval_do_while E.PG_Eval_Throws feed fuel s with
    | none => none
    | some r => some (r.1, Drop_Frame r.2)

/-- The bit `FS_TOP->feed->flags.bits & FEED_FLAG_CONST`.  (`FS_TOP` is not
null when the stepping functions run; for an empty stack the bit is given as
clear.) -/
def FS_TOP_const (s : Eval_State) : Bool :=
  match s.frames with
  | [] => false
  | top :: _ => (s.feeds top.feed).const_flag

/-- The function `Eval_Step_In_Va_Throws_Core(out, opt_first, vaptr, flags)`;
`feed` is the address of the feed it declares, and `vaptr` holds the values
of the `va_list`. -/
def Eval_Step_In_Va_Throws_Core (E : Evaluator) (feed : Nat) (opt_first : Option Value)
    (vaptr : List Value) (flags : REBFLGS) (s : Eval_State) : Eval_Outcome × Eval_State :=
  let s := { s with
    feeds := Function.update s.feeds feed (E.DECLARE_VA_FEED opt_first vaptr (FS_TOP_const s)) }
  let f : REBFRM := { feed := feed, flags := flags }
  if (s.feeds feed).value.IS_END then
    (Eval_Outcome.returned false, s)
  else
    let s := Push_Frame s f
    let r := E.PG_Eval_Throws s
    let s := Drop_Frame r.2
    if r.1 then
      (Eval_Outcome.returned true, s)
    else if flags.no_residue && (s.feeds feed).value.NOT_END then
      (Eval_Outcome.failed Eval_Error.Error_Apply_Too_Many_Raw, s)
    else
      (Eval_Outcome.returned false, s)

/-- The function `Eval_Va_Throws_Core(out, opt_first, vaptr, flags)`, with `feed`,
`vaptr` and `fuel` as above. -/
def Eval_Va_Throws_Core (E : Evaluator) (fuel : Nat) (feed : Nat) (opt_first : Option Value)
    (vaptr : List Value) (flags : REBFLGS) (s : Eval_State) : Option (Bool × Eval_State) :=
  let s := { s with
    feeds := Function.update s.feeds feed (E.DECLARE_VA_FEED opt_first vaptr (FS_TOP_const s)) }
  let f : REBFRM := { feed := feed, flags := flags }
  if (s.feeds feed).value.IS_END then
    some (false, s)
  else
    let s := Push_Frame s f
    match Eval_do_while E.PG_Eval_Throws feed fuel s with
    | none => none
    | some r => some (r.1, Drop_Frame r.2)

/-- The function `Eval_Value_Core_Throws(out, value, specifier)`, with `feed`
the address of its local `feed_struct` and `fuel` as above.  `Derelativize`
copies the cell. -/
def Eval_Value_Core_Throws (E : Evaluator) (fuel : Nat) (feed : Nat) (value : Value)
    (s : Eval_State) : Option (Eval_Outcome × Eval_State) :=
  if E.ANY_INERT value then
    some (Eval_Outcome.returned false, { s with out := value })
  else
    let s := { s with out := Value.END } -- SET_END(out)
    let s := { s with
      feeds := Function.update s.feeds feed
        (E.Prep_Array_Feed (some value) [] 0 (E.CELL_CONST value)) }
    let f : REBFRM := { feed := feed, flags := E.EVAL_MASK_DEFAULT }
    let s := Push_Frame s f
    match Eval_do_while E.PG_Eval_Throws feed fuel s with
    | none => none
    | some r =>
      let s := Drop_Frame r.2
      if s.out.IS_END then
        some (Eval_Outcome.failed Eval_Error.empty_evaluation, s)
      else
        some (Eval_Outcome.returned r.1, s)

/-! ## Descriptions used by the statements -/

/-- The frames a walk of the stack visits and the position of the first of
them: the whole stack, or what lies beneath `FS_TOP` when the frame of the
caller is skipped. -/
def walk_of (stack : List Reb_Frame) (skip_current : Bool) : List Reb_Frame × Nat :=
  if skip_current then (stack.drop 1, 1) else (stack, 0)

/-- The first function-executing frame among `frames`, with its position in
the stack when the head of `frames` is at position `pos`. -/
def first_function_frame : List Reb_Frame → Nat → Option (Nat × Reb_Frame)
  | [], _ => none
  | frame :: prior, pos =>
    if frame.mode = CALL_MODE_FUNCTION then some (pos, frame)
    else first_function_frame prior (pos + 1)

/-- A frame is pending when it gathers arguments or picks up refinements. -/
def Reb_Frame.is_pending (frame : Reb_Frame) : Bool :=
  frame.mode == CALL_MODE_ARGS || frame.mode == CALL_MODE_REFINEMENT_PICKUP

/-- An ordinary function (not a native) of identity `n`, for the examples. -/
def example_func (n : Nat) : REBFUN := { id := n, native := false, code := REBNAT.other n }

/-- An array feed over `array` at `index`, for the examples. -/
def example_feed (array : List Value) (index : Nat) : Reb_Feed :=
  { value := ARR_AT array index, vaptr := none, pending := Reb_Pending.END_NODE,
    array := array, index := index, took_hold := false, hold := false, managed := true }

/-- A frame of mode `mode` running `example_func n` under the label
`REBSYM.other n`, over an empty array, for the examples. -/
def example_frame (mode : Reb_Call_Mode) (n : Nat) : Reb_Frame :=
  { mode := mode, func := example_func n, label := REBSYM.other n, frame_context := false,
    context := 0, expr_index := 0, feed := example_feed [] 0 }

/-- The stack of the examples: the frame of the native that asks (0) on top
of two nested ordinary calls, `example_func 1` (position 1, the more recent)
and `example_func 2` (position 2). -/
def example_stack_two : List Reb_Frame :=
  [example_frame CALL_MODE_FUNCTION 0, example_frame CALL_MODE_FUNCTION 1,
   example_frame CALL_MODE_FUNCTION 2]

/-- The function-executing frames among `frames` in the order of the walk,
each with its position in the stack when the head of `frames` is at `pos`. -/
def function_frames : List Reb_Frame → Nat → List (Nat × Reb_Frame)
  | [], _ => []
  | frame :: prior, pos =>
    if frame.mode = CALL_MODE_FUNCTION then (pos, frame) :: function_frames prior (pos + 1)
    else function_frames prior (pos + 1)

/-- The claim's reading of an integer selector `n ≥ 1`: the position of the
n-th function-executing frame of the walk counted from the top, a leading
pause or breakpoint frame not counted; `none` when there are fewer than `n`. -/
def nth_function_frame (stack : List Reb_Frame) (skip_current : Bool) (n : Nat) : Option Nat :=
  let counted :=
    match function_frames (walk_of stack skip_current).1 (walk_of stack skip_current).2 with
    | [] => []
    | (pos, frame) :: rest =>
      if Is_Pause_Or_Breakpoint frame then rest else (pos, frame) :: rest
  (counted[n - 1]?).map Prod.fst

/-- A stack for the examples: the frame of the native that asks on top of a
pending frame (gathering arguments) for which the context 5 has been made. -/
def example_stack_pending : List Reb_Frame :=
  [example_frame CALL_MODE_FUNCTION 0,
   { example_frame CALL_MODE_ARGS 1 with frame_context := true, context := 5 }]

/-- A stack for the examples: the frame of the native that asks on top of a
function-executing frame for which the context 5 has been made. -/
def example_stack_running : List Reb_Frame :=
  [example_frame CALL_MODE_FUNCTION 0,
   { example_frame CALL_MODE_FUNCTION 1 with frame_context := true, context := 5 }]

/-- The frames of a walk that are not guard-only, in the order of the walk. -/
def non_guard (frames : List Reb_Frame) : List Reb_Frame :=
  frames.filter (fun frame => decide (frame.mode ≠ CALL_MODE_GUARD_ARRAY_ONLY))

/-- Cells per record of a listing: one in brief mode, two otherwise. -/
def record_size (brief : Bool) : Nat := if brief then 1 else 2

/-- The elided-rows marker of a listing: the word `+`, preceded in
non-brief mode by the word `*` on a line of its own. -/
def elided_marker (brief : Bool) : List Value :=
  if brief then [Val_Init_Word REBSYM.SYM_PLUS]
  else [(Val_Init_Word REBSYM.SYM_ASTERISK).SET_LINE, Val_Init_Word REBSYM.SYM_PLUS]

/-- The stack level number of the listing after the non-guard frame `frame`,
when it was `number` before it: a function-executing frame bumps it, unless
it is a pause or breakpoint native and the first non-guard frame. -/
def listing_number (frame : Reb_Frame) (number : Nat) (first : Bool) : Nat :=
  if frame.mode = CALL_MODE_FUNCTION then
    if first && Is_Pause_Or_Breakpoint frame then number else number + 1
  else number

/-- The stack level numbers of the listing at each of the non-guard frames
`frames`, in the order of the walk. -/
def listing_numbers : List Reb_Frame → Nat → Bool → List Nat
  | [], _, _ => []
  | frame :: rest, number, first =>
    listing_number frame number first
      :: listing_numbers rest (listing_number frame number first) false

/-- The ordinary record of a non-guard frame in a listing: in brief mode its
label; otherwise its level (the word `*` for a pending frame) on a new line,
then the block of its where. -/
def listing_row (brief : Bool) (frame : Reb_Frame) (number : Nat) : List Value :=
  if brief then [Val_Init_Word (FRM_LABEL frame)]
  else
    [(if frame.mode ≠ CALL_MODE_FUNCTION then Val_Init_Word REBSYM.SYM_ASTERISK
      else SET_INTEGER number).SET_LINE,
     Val_Init_Block (Make_Where_For_Frame frame)]

/-- The ordinary records of the non-guard frames `frames`, in the order of
the walk. -/
def listing_rows (brief : Bool) (frames : List Reb_Frame) (number : Nat) (first : Bool) :
    List (List Value) :=
  List.zipWith (listing_row brief) frames (listing_numbers frames number first)

/-- The stack of the three-calls scenario: the frame of the native that asks
(position 0) on top of three nested ordinary calls, C (`example_func 3`, the
innermost, position 1), B (`example_func 2`) and A (`example_func 1`, the
outermost, position 3). -/
def example_stack_three : List Reb_Frame :=
  [example_frame CALL_MODE_FUNCTION 0, example_frame CALL_MODE_FUNCTION 3,
   example_frame CALL_MODE_FUNCTION 2, example_frame CALL_MODE_FUNCTION 1]

/-- A frame of mode `mode` over the array `array`, whose expression started
at `expr_index` and whose feed is at `index`, for the examples. -/
def example_frame_over (mode : Reb_Call_Mode) (array : List Value) (expr_index index : Nat) :
    Reb_Frame :=
  { mode := mode, func := example_func 7, label := REBSYM.other 7, frame_context := false,
    context := 0, expr_index := expr_index, feed := example_feed array index }

/-- The array of the examples: the three words numbered 10, 11 and 12. -/
def example_array : List Value :=
  [Value.word false (REBSYM.other 10), Value.word false (REBSYM.other 11),
   Value.word false (REBSYM.other 12)]

mutual
/-- The claim's bound on a cell: a cell that is a sequence has at most `n`
cells from its index, and so has every sequence nested in it, at any depth. -/
def Value.nested_at_most (n : Nat) : Value → Bool
  | Value.array _ _ items index =>
    decide (items.length - index ≤ n) && cells_nested_at_most n items
  | _ => true
/-- The claim's bound on the cells of a sequence: each cell is bounded. -/
def cells_nested_at_most (n : Nat) : List Value → Bool
  | [] => true
  | v :: vs => v.nested_at_most n && cells_nested_at_most n vs
end

/-- A block of the five words numbered 1 to 5, for the examples. -/
def example_long_block : Value :=
  Value.array false REB_ARRAY_KIND.REB_BLOCK
    [Value.word false (REBSYM.other 1), Value.word false (REBSYM.other 2),
     Value.word false (REBSYM.other 3), Value.word false (REBSYM.other 4),
     Value.word false (REBSYM.other 5)] 0

/-- A sequence whose only item is a block of one item, the block of five
words `example_long_block`, for the examples. -/
def example_nested_in_short : List Value :=
  [Value.array false REB_ARRAY_KIND.REB_BLOCK [example_long_block] 0]

/-- A heap for the examples: the array 0 has one item, a block over the array
1 at index 0; the array 1 holds the five words numbered 1 to 5. -/
def example_heap : Heap :=
  [[Heap_Cell.array false REB_ARRAY_KIND.REB_BLOCK 1 0],
   [Heap_Cell.word false (REBSYM.other 1), Heap_Cell.word false (REBSYM.other 2),
    Heap_Cell.word false (REBSYM.other 3), Heap_Cell.word false (REBSYM.other 4),
    Heap_Cell.word false (REBSYM.other 5)]]

/-- The heap `after` holds every array of the heap `before`, and each of them
with the cells it had, except the one at position `array`, which has kept
its number of cells. -/
def Heap.same_outside (before after : Heap) (array : Nat) : Prop :=
  before.length ≤ after.length
  ∧ (∀ id, id < before.length → id ≠ array → after[id]? = before[id]?)
  ∧ (after.cells array).length = (before.cells array).length

/-- The values a `va_list` feed still has to give, the lookahead first:
nothing when the lookahead is the terminator. -/
def remaining_values (feed : Reb_Feed) : List Value :=
  if feed.value.NOT_END then feed.value :: feed.vaptr.getD [] else []

/-- The truncation marker, the word `--optimized-out--`. -/
def truncation_marker : Value := Val_Init_Word REBSYM.SYM___OPTIMIZED_OUT__

/-- Modelled from the spec: the macro `DECLARE_VA_FEED` is not among the
sources.  The spec: "prepare(source, start_index | variadic_stream,
initial_flags) binds the cursor, pre-fetches the first lookahead value".  The
feed over the `va_list` of `values`, as prepared: nothing has been consumed,
the first value is the lookahead, the others are still to fetch. -/
def va_feed_prepared (values : List Value) : Reb_Feed :=
  match values with
  | [] =>
    { value := Value.END, vaptr := none, pending := Reb_Pending.TRASH, array := [], index := 0,
      took_hold := false, hold := false, managed := false }
  | v :: rest =>
    { value := v, vaptr := some rest, pending := Reb_Pending.END_NODE, array := [], index := 0,
      took_hold := false, hold := false, managed := false }

/-- A function-executing frame whose feed is the `va_list` of `values` as
prepared, for the examples. -/
def example_va_frame (values : List Value) : Reb_Frame :=
  { example_frame CALL_MODE_FUNCTION 7 with feed := va_feed_prepared values }

/-- The frame of a context is accessible unless the context is stack-based
and no longer accessible. -/
def REBCTX.is_accessible (frame_ctx : REBCTX) : Bool :=
  !(frame_ctx.stack && !frame_ctx.accessible)

/-- A selector of a direct lookup that is in its domain: an integer whose
32-bit value is not negative, or a callable. -/
def Value.is_lookup_selector : Value → Bool
  | Value.integer line n => decide (0 ≤ (Value.integer line n).VAL_INT32)
  | Value.function _ _ => true
  | _ => false

/-- An array feed over the integer 1 followed by the word numbered 10, at its
start: the lookahead is the integer, for the examples. -/
def example_inert_feed : Reb_Feed :=
  { value := Value.integer false 1, vaptr := none, pending := Reb_Pending.END_NODE,
    array := [Value.integer false 1, Value.word false (REBSYM.other 10)], index := 1,
    took_hold := false, hold := false, managed := true }

/-- A classification for the examples in which blanks, integers and blocks
are the inert kinds. -/
def example_ANY_INERT (v : Value) : Bool :=
  v.KIND_BYTE = REB_KIND.REB_BLANK ∨ v.KIND_BYTE = REB_KIND.REB_INTEGER
    ∨ v.KIND_BYTE = REB_KIND.array REB_ARRAY_KIND.REB_BLOCK

/-- The flags with every bit clear, for the examples. -/
def example_flags : REBFLGS :=
  { post_switch := false, inert_optimization := false, other := 0 }

/-- An array feed over the integer 1 followed by the word numbered 10, at its
start, with the no-lookahead flag as given, for the examples. -/
def example_enfix_feed (no_lookahead : Bool) : Reb_Feed :=
  { example_inert_feed with no_lookahead := no_lookahead }

/-- A variable lookup, for the examples, that binds every word to an enfixed
action whose first parameter has the given class and accepts the given
types. -/
def example_enfix_lookup (quotes_first skippable_first : Bool) (cls : Reb_Param_Class)
    (types : List REB_KIND) : Value → Option Reb_Gotten :=
  fun _ => some
    { enfixed := true,
      action := { id := 1, quotes_first := quotes_first, skippable_first := skippable_first,
                  first_param_class := cls, first_param_types := types } }

/-- The flags after `*flags |= EVAL_FLAG_POST_SWITCH | EVAL_FLAG_INERT_OPTIMIZATION`. -/
def REBFLGS.with_post_switch (flags : REBFLGS) : REBFLGS :=
  { flags with post_switch := true, inert_optimization := true }

/-- The value that follows the lookahead is a word bound to an enfixed action
that quotes its first argument, but not by a soft quote. -/
def followed_by_hard_quoting_enfix (Try_Get_Opt_Var : Value → Option Reb_Gotten)
    (feed : Reb_Feed) : Prop :=
  (Fetch_Next_Forget_Lookback feed).value.KIND_BYTE = REB_KIND.REB_WORD
    ∧ ∃ gotten, Try_Get_Opt_Var (Fetch_Next_Forget_Lookback feed).value = some gotten
        ∧ gotten.enfixed = true ∧ gotten.action.quotes_first = true
        ∧ gotten.action.first_param_class ≠ Reb_Param_Class.REB_P_SOFT_QUOTE

/-- An array whose first cell carries the line-break flag: the word numbered
10 with the flag, then the word numbered 11, for the examples. -/
def example_array_with_line : List Value :=
  [Value.word true (REBSYM.other 10), Value.word false (REBSYM.other 11)]

/-- The first `limit` cells of a sequence from its index. -/
def Value.first_cells (item : Value) (limit : Nat) : List Value :=
  (item.VAL_ARRAY.drop item.VAL_INDEX).take limit

/-- The item is a sequence with more than `limit` cells from its index. -/
def Value.is_long (item : Value) (limit : Nat) : Bool :=
  item.ANY_ARRAY && decide (item.VAL_LEN_AT > limit)

/-- A sequence of a word, the block of five words `example_long_block` and a
block of two words, for the examples. -/
def example_mixed_array : List Value :=
  [Value.word true (REBSYM.other 10), example_long_block,
   Value.array true REB_ARRAY_KIND.REB_GROUP
     [Value.word false (REBSYM.other 1), Value.word false (REBSYM.other 2)] 0]

/-- How many of the frames up to and including the one at position `i` are
function-executing: `k` when that frame is the k-th active one. -/
def active_count (frames : List Reb_Frame) (i : Nat) : Nat :=
  ((frames.take (i + 1)).filter (fun frame => decide (frame.mode = CALL_MODE_FUNCTION))).length

/-- The first of the frames is a function-executing frame of the pause or
breakpoint native. -/
def leading_pause : List Reb_Frame → Bool
  | [] => false
  | frame :: _ => decide (frame.mode = CALL_MODE_FUNCTION) && Is_Pause_Or_Breakpoint frame

/-- A function-executing frame of the pause native, for the examples. -/
def example_pause_frame : Reb_Frame :=
  { example_frame CALL_MODE_FUNCTION 9 with
    func := { id := 9, native := true, code := REBNAT.N_pause } }

/-- A stack for the examples: beneath the frame of the native that asks, a
pause frame, a pending frame, an ordinary call, a guard-only frame and another
ordinary call. -/
def example_stack_paused : List Reb_Frame :=
  [example_frame CALL_MODE_FUNCTION 0, example_pause_frame, example_frame CALL_MODE_ARGS 3,
   example_frame CALL_MODE_FUNCTION 2, example_frame CALL_MODE_GUARD_ARRAY_ONLY 8,
   example_frame CALL_MODE_FUNCTION 1]

/-- What one iteration of the loop of Frame_For_Stack_Level does: it returns
the frame with this `num`, or goes on to the prior frame with these values of
`first` and `num`. -/
inductive Level_Step where
  | found (num : Int)
  | next (first : Bool) (num : Int)

/-- One iteration of the loop of Frame_For_Stack_Level at `frame`, the body
of `Frame_For_Stack_Level_loop` without the recursion (the loop is shown
below to be the iteration of this step). -/
def Frame_For_Stack_Level_step (level : Value) (frame : Reb_Frame) (first : Bool) (num : Int) :
    Level_Step :=
  if frame.mode ≠ CALL_MODE_FUNCTION then
    Level_Step.next first num
  else if first && Is_Pause_Or_Breakpoint frame then
    if level.IS_INTEGER && num == level.VAL_INT32 then
      Level_Step.found num
    else
      Level_Step.next false num
  else
    let num := if first then num + 1 else num
    if level.IS_INTEGER && num == level.VAL_INT32 then
      Level_Step.found num
    else
      if level.IS_VOID || level.IS_BLANK then
        Level_Step.found num
      else if level.IS_INTEGER then
        let num := num + 1
        if num == level.VAL_INT32 then
          Level_Step.found num
        else
          Level_Step.next false num
      else if level.IS_FRAME then
        match level with
        | Value.frame _ context =>
          if frame.frame_context && frame.context == context then
            Level_Step.found num
          else
            Level_Step.next false num
        | _ => Level_Step.next false num
      else
        match level with
        | Value.function _ func =>
          if func == frame.func then
            Level_Step.found num
          else
            Level_Step.next false num
        | _ => Level_Step.next false num

/-- The frames left when the guard-only frames that `mask` marks are removed:
the frame at position `i` is removed when it is guard-only and `mask` has
`true` at `i`. -/
def remove_guards : List Reb_Frame → List Bool → List Reb_Frame
  | [], _ => []
  | frame :: prior, mask =>
    if mask.headD false && decide (frame.mode = CALL_MODE_GUARD_ARRAY_ONLY) then
      remove_guards prior mask.tail
    else
      frame :: remove_guards prior mask.tail

/-- The position, after that removal, of the frame that was at position `p`:
`p` less the number of frames removed above it. -/
def position_after : List Reb_Frame → List Bool → Nat → Nat
  | [], _, p => p
  | _ :: _, _, 0 => 0
  | frame :: prior, mask, p + 1 =>
    if mask.headD false && decide (frame.mode = CALL_MODE_GUARD_ARRAY_ONLY) then
      position_after prior mask.tail p
    else
      position_after prior mask.tail p + 1

/-- A stack for the examples: `example_stack_two` with a guard-only frame
above each of its two calls. -/
def example_stack_guarded : List Reb_Frame :=
  [example_frame CALL_MODE_FUNCTION 0, example_frame CALL_MODE_GUARD_ARRAY_ONLY 8,
   example_frame CALL_MODE_FUNCTION 1, example_frame CALL_MODE_GUARD_ARRAY_ONLY 9,
   example_frame CALL_MODE_FUNCTION 2]

/-- A hook for the examples: it takes the lookahead of the feed of `FS_TOP` to
the output cell, advances that feed by one value and does not throw. -/
def example_hook (s : Eval_State) : Bool × Eval_State :=
  match s.frames with
  | [] => (false, s)
  | f :: _ =>
    (false, { s with
      out := (s.feeds f.feed).value
      feeds := Function.update s.feeds f.feed (Fetch_Next_Forget_Lookback (s.feeds f.feed)) })

/-- A feed for the examples, as `Prep_Array_Feed` prepares it: the lookahead
is `opt_first` when given, else the cell at `index`. -/
def example_Prep_Array_Feed (opt_first : Option Value) (array : List Value) (index : Nat)
    (const_flag : Bool) : Reb_Feed :=
  match opt_first with
  | some first => { example_feed array index with value := first, const_flag := const_flag }
  | none => { example_feed array (index + 1) with
      value := ARR_AT array index, const_flag := const_flag }

/-- A feed for the examples, as `DECLARE_VA_FEED` prepares it: `opt_first`
when given and then the values of the `va_list`. -/
def example_DECLARE_VA_FEED (opt_first : Option Value) (vaptr : List Value)
    (const_flag : Bool) : Reb_Feed :=
  { va_feed_prepared (opt_first.toList ++ vaptr) with const_flag := const_flag }

/-- The given parts of the evaluator for the examples; `default_hook` says
whether the hook counts as `Eval_Core_Throws`. -/
def example_evaluator (default_hook : Bool) : Evaluator :=
  { ANY_INERT := example_ANY_INERT, Try_Get_Opt_Var := fun _ => none,
    default_hook := default_hook, PG_Eval_Throws := example_hook,
    Prep_Array_Feed := example_Prep_Array_Feed, DECLARE_VA_FEED := example_DECLARE_VA_FEED,
    CELL_CONST := fun _ => false, EVAL_MASK_DEFAULT := example_flags }

/-- A frame bound to the feed at address 0, for the examples. -/
def example_parent : REBFRM := { feed := 0, flags := example_flags }

/-- A state for the examples: `example_parent` alone on the stack, every feed
being `example_inert_feed` (the integer 1, then a word), and nothing traced. -/
def example_state : Eval_State :=
  { frames := [example_parent], feeds := fun _ => example_inert_feed, out := Value.END }

/-- The call `Did_Inert_Optimization(out, f->feed, &flags)` that
Eval_Step_In_Subframe_Throws starts with. -/
def subframe_inert_optimization (E : Evaluator) (f : REBFRM) (flags : REBFLGS)
    (s : Eval_State) : Inert_Optimization :=
  Did_Inert_Optimization E.ANY_INERT E.Try_Get_Opt_Var E.default_hook s.out (s.feeds f.feed)
    flags

/-- Every call of the hook throws, or leaves the feed at its end, or lowers
`measure`: the loop of calls then ends. -/
def hook_progresses (PG_Eval_Throws : Eval_State → Bool × Eval_State) (feed : Nat)
    (measure : Eval_State → Nat) : Prop :=
  ∀ s, (PG_Eval_Throws s).1 = true
    ∨ ((PG_Eval_Throws s).2.feeds feed).value.NOT_END = false
    ∨ measure (PG_Eval_Throws s).2 < measure s

/-- The state after `DECLARE_VA_FEED` in Eval_Step_In_Va_Throws_Core: the feed
at `feed` is the one declared. -/
def va_feed_declared (E : Evaluator) (feed : Nat) (opt_first : Option Value)
    (vaptr : List Value) (s : Eval_State) : Eval_State :=
  { s with
    feeds := Function.update s.feeds feed (E.DECLARE_VA_FEED opt_first vaptr (FS_TOP_const s)) }

/-- The single call of the hook in Eval_Step_In_Va_Throws_Core, on its frame
pushed over the declared feed: `threw` and the state it leaves. -/
def va_step (E : Evaluator) (feed : Nat) (opt_first : Option Value) (vaptr : List Value)
    (flags : REBFLGS) (s : Eval_State) : Bool × Eval_State :=
  E.PG_Eval_Throws
    (Push_Frame (va_feed_declared E feed opt_first vaptr s) { feed := feed, flags := flags })

/-- The flags with only `EVAL_FLAG_NO_RESIDUE` set, for the examples. -/
def example_flags_no_residue : REBFLGS := { example_flags with no_residue := true }

/-- A frame at which the level count of the listing is `number` matches the
selector of a direct lookup: an integer selector by that count being the
32-bit value of the selector, a callable by the frame running it. -/
def lookup_matches (level : Value) (frame : Reb_Frame) (number : Nat) : Bool :=
  if level.IS_INTEGER then decide ((number : Int) = level.VAL_INT32)
  else decide (some frame.func = level.VAL_FUNC)

/-- The frames among `frames` that are not guard-only, each with its position
in the stack when the head of `frames` is at `pos`. -/
def lookup_candidates : List Reb_Frame → Nat → List (Nat × Reb_Frame)
  | [], _ => []
  | frame :: prior, pos =>
    if frame.mode = CALL_MODE_GUARD_ARRAY_ONLY then lookup_candidates prior (pos + 1)
    else (pos, frame) :: lookup_candidates prior (pos + 1)

/-- The position of the first frame among `frames` that is not guard-only
and matches the selector, each frame being taken with the level count the
listing has at it (`listing_numbers`, from `number` and `first`); `none` when
no frame matches. -/
def first_match (level : Value) (frames : List Reb_Frame) (pos number : Nat) (first : Bool) :
    Option Nat :=
  (((lookup_candidates frames pos).zip
      (listing_numbers ((lookup_candidates frames pos).map Prod.snd) number first)).find?
    (fun c => lookup_matches level c.1.2 c.2)).map (fun c => c.1.1)

/-- A heap is well formed when the cells of its arrays are values, none a
terminator, and every array that a cell refers to is in the heap. -/
def Heap.well_formed (heap : Heap) : Prop :=
  ∀ id cell, cell ∈ heap.cells id →
    cell.NOT_END = true ∧ (cell.ANY_ARRAY = true → cell.VAL_ARRAY < heap.length)

/-- The test of Collapsify_Array on a cell: it is a sequence with more than
`limit` cells from its index. -/
def Heap.long (heap : Heap) (limit : Nat) (cell : Heap_Cell) : Bool :=
  cell.ANY_ARRAY && decide (heap.VAL_LEN_AT cell > limit)

/-- The cell `new` is the cell `orig`, or `orig` was a sequence longer than
`limit` and `new` is a cell of the same kind, at index 0 and without line flag,
for an array made after `before`. -/
def Heap.kept_or_replaced (before after : Heap) (limit : Nat) (orig new : Heap_Cell) : Prop :=
  new = orig
    ∨ (before.long limit orig = true
      ∧ ∃ copy, before.length ≤ copy ∧ copy < after.length
          ∧ new = Heap_Cell.array false orig.VAL_TYPE copy 0)

/-- What Collapsify_Array at `limit` on the array at position `array` makes
of one of its cells `orig`: a cell that the test does not select is left as
it was; a sequence longer than `limit` is overwritten with a cell of the same
kind, at index 0 and without line flag, for an array made after `before`, which
has `limit + 1` cells, the last of them the ellipsis word and (when `orig`
does not refer to `array` itself) the `k`-th of the others the `k`-th cell of
the original from its index, kept or itself replaced. -/
def Heap.collapsed_cell (before after : Heap) (limit array : Nat) (orig new : Heap_Cell) :
    Prop :=
  (before.long limit orig = false → new = orig)
    ∧ (before.long limit orig = true →
      ∃ copy, before.length ≤ copy ∧ copy < after.length
        ∧ new = Heap_Cell.array false orig.VAL_TYPE copy 0
        ∧ (after.cells copy).length = limit + 1
        ∧ (after.cells copy)[limit]? = some (Heap_Cell.word false REBSYM.SYM_ELLIPSIS)
        ∧ (orig.VAL_ARRAY ≠ array → ∀ k : Nat, k < limit →
            ∃ source kept,
              (before.cells orig.VAL_ARRAY)[orig.VAL_INDEX + k]? = some source
              ∧ (after.cells copy)[k]? = some kept
              ∧ Heap.kept_or_replaced before after limit source kept))

/-- What the loop of Collapsify_Array needs of its nested calls: a nested call
writes only to its array and to arrays it makes; on a well-formed heap it
leaves a well-formed heap, and each cell of its array is kept or replaced,
a cell that is not a sequence being kept. -/
def Nested_OK (recur : Heap → Nat → Heap) (limit : Nat) : Prop :=
  (∀ heap array, Heap.same_outside heap (recur heap array) array)
    ∧ ∀ heap array, heap.well_formed → array < heap.length →
        (recur heap array).well_formed
        ∧ ∀ (i : Nat) (orig : Heap_Cell), (heap.cells array)[i]? = some orig →
            ∃ new, ((recur heap array).cells array)[i]? = some new
              ∧ Heap.kept_or_replaced heap (recur heap array) limit orig new
              ∧ (orig.ANY_ARRAY = false → new = orig)

/-! ## Theorems -/

/-! ### Frame_For_Stack_Level -/

/-- Past the first function-executing frame, with `num` at least 1, the loop
finds nothing for the selector 0. -/
theorem Frame_For_Stack_Level_loop_zero_none (line : Bool) :
    ∀ (frames : List Reb_Frame) (pos : Nat) (num : Int), 1 ≤ num →
      Frame_For_Stack_Level_loop (Value.integer line 0) frames pos false num = none := by
  intro frames
  induction frames with
  | nil => intro pos num _; rfl
  | cons frame prior ih =>
    intro pos num hnum
    unfold Frame_For_Stack_Level_loop
    by_cases hmode : frame.mode = CALL_MODE_FUNCTION
    · have h1 : ¬ num = 0 := by omega
      have h2 : ¬ num + 1 = 0 := by omega
      simp [hmode, Value.IS_INTEGER, Value.VAL_INT32, Value.IS_VOID, Value.IS_BLANK, h1, h2]
      exact ih (pos + 1) (num + 1) (by omega)
    · simp [hmode]
      exact ih (pos + 1) num hnum

/-- What the loop does from its initial state for the selectors 0 and 1, in
terms of the first function-executing frame it meets. -/
theorem Frame_For_Stack_Level_loop_first (line : Bool) :
    ∀ (frames : List Reb_Frame) (pos : Nat),
      match first_function_frame frames pos with
      | none => Frame_For_Stack_Level_loop (Value.integer line 0) frames pos true 0 = none
      | some (p, frame) =>
        if Is_Pause_Or_Breakpoint frame then
          Frame_For_Stack_Level_loop (Value.integer line 0) frames pos true 0 = some (p, 0)
        else
          Frame_For_Stack_Level_loop (Value.integer line 0) frames pos true 0 = none
          ∧ Frame_For_Stack_Level_loop (Value.integer line 1) frames pos true 0
              = some (p, 1) := by
  intro frames
  induction frames with
  | nil => intro pos; simp [first_function_frame, Frame_For_Stack_Level_loop]
  | cons frame prior ih =>
    intro pos
    by_cases hmode : frame.mode = CALL_MODE_FUNCTION
    · by_cases hp : Is_Pause_Or_Breakpoint frame = true
      · simp [first_function_frame, hmode, hp, Frame_For_Stack_Level_loop, Value.IS_INTEGER,
          Value.VAL_INT32]
      · simp [first_function_frame, hmode, hp, Frame_For_Stack_Level_loop, Value.IS_INTEGER,
          Value.VAL_INT32, Value.IS_VOID, Value.IS_BLANK]
        exact Frame_For_Stack_Level_loop_zero_none line prior (pos + 1) 2 (by omega)
    · have := ih (pos + 1)
      simp only [first_function_frame, hmode, if_false]
      unfold Frame_For_Stack_Level_loop
      simpa [hmode] using this

/-- C3: with the integer selector 0, Frame_For_Stack_Level returns a frame
exactly when the first function-executing frame of the walk is the pause or
breakpoint native, and then it is that frame, numbered 0; when the first
function-executing frame is an ordinary function, selector 0 gives
not-found and selector 1 gives that frame, numbered 1; a walk without a
function-executing frame gives not-found for 0. -/
theorem C3_selector_zero_is_leading_pause (stack : List Reb_Frame)
    (skip_current line : Bool) :
    match first_function_frame (walk_of stack skip_current).1 (walk_of stack skip_current).2 with
    | none => Frame_For_Stack_Level stack (Value.integer line 0) skip_current = none
    | some (pos, frame) =>
      if Is_Pause_Or_Breakpoint frame then
        Frame_For_Stack_Level stack (Value.integer line 0) skip_current = some (pos, 0)
      else
        Frame_For_Stack_Level stack (Value.integer line 0) skip_current = none
        ∧ Frame_For_Stack_Level stack (Value.integer line 1) skip_current = some (pos, 1) := by
  cases skip_current with
  | true =>
    have := Frame_For_Stack_Level_loop_first line (stack.drop 1) 1
    simpa [walk_of, Frame_For_Stack_Level, Value.IS_INTEGER, Value.VAL_INT32] using this
  | false =>
    have := Frame_For_Stack_Level_loop_first line stack 0
    simpa [walk_of, Frame_For_Stack_Level, Value.IS_INTEGER, Value.VAL_INT32] using this

/-- Whatever the loop returns is a function-executing frame among those it
walked; for a frame handle, it is one whose context is the handle. -/
theorem Frame_For_Stack_Level_loop_returns_function (level : Value) :
    ∀ (frames : List Reb_Frame) (pos : Nat) (first : Bool) (num : Int) (p : Nat) (n : Int),
      Frame_For_Stack_Level_loop level frames pos first num = some (p, n) →
      ∃ k frame, p = pos + k ∧ frames[k]? = some frame ∧ frame.mode = CALL_MODE_FUNCTION
        ∧ ∀ line context, level = Value.frame line context →
            frame.frame_context = true ∧ frame.context = context := by
  intro frames
  induction frames with
  | nil => intro pos first num p n h; simp [Frame_For_Stack_Level_loop] at h
  | cons frame prior ih =>
    intro pos first num p n h
    have step : ∀ first1 num1,
        Frame_For_Stack_Level_loop level prior (pos + 1) first1 num1 = some (p, n) →
        ∃ k frame1, p = pos + k ∧ (frame :: prior)[k]? = some frame1
          ∧ frame1.mode = CALL_MODE_FUNCTION
          ∧ ∀ line context, level = Value.frame line context →
              frame1.frame_context = true ∧ frame1.context = context := by
      intro first1 num1 h1
      obtain ⟨k, frame1, hk, hget, hmode, hctx⟩ := ih (pos + 1) first1 num1 p n h1
      exact ⟨k + 1, frame1, by omega, by simpa using hget, hmode, hctx⟩
    have here : ∀ (num1 : Int), (pos, num1) = (p, n) →
        frame.mode = CALL_MODE_FUNCTION →
        (∀ line context, level = Value.frame line context →
          frame.frame_context = true ∧ frame.context = context) →
        ∃ k frame1, p = pos + k ∧ (frame :: prior)[k]? = some frame1
          ∧ frame1.mode = CALL_MODE_FUNCTION
          ∧ ∀ line context, level = Value.frame line context →
              frame1.frame_context = true ∧ frame1.context = context := by
      intro num1 heq hmode hctx
      have hp : pos = p := congrArg Prod.fst heq
      exact ⟨0, frame, by omega, by simp, hmode, hctx⟩
    unfold Frame_For_Stack_Level_loop at h
    by_cases hmode : frame.mode = CALL_MODE_FUNCTION
    · simp only [hmode, ne_eq, not_true_eq_false, if_false] at h
      cases level with
      | END =>
        simp [Value.IS_INTEGER, Value.IS_VOID, Value.IS_BLANK, Value.IS_FRAME] at h
        split at h <;> exact step _ _ h
      | void =>
        simp [Value.IS_INTEGER, Value.IS_VOID, Value.IS_BLANK, Value.IS_FRAME] at h
        split at h
        · exact step _ _ h
        · exact here _ (by simpa using h) hmode (by intro l c hl; cases hl)
      | blank l0 =>
        simp [Value.IS_INTEGER, Value.IS_VOID, Value.IS_BLANK, Value.IS_FRAME] at h
        split at h
        · exact step _ _ h
        · exact here _ (by simpa using h) hmode (by intro l c hl; cases hl)
      | integer l0 v =>
        simp only [Value.IS_INTEGER, Value.IS_VOID, Value.IS_BLANK, Value.IS_FRAME,
          Value.VAL_INT32, Bool.true_and, Bool.or_self, Bool.false_eq_true, if_false,
          if_true] at h
        repeat' split at h
        all_goals first
          | exact step _ _ h
          | exact here _ (by simpa using h) hmode (by intro l c hl; cases hl)
      | word l0 sym =>
        simp [Value.IS_INTEGER, Value.IS_VOID, Value.IS_BLANK, Value.IS_FRAME] at h
        split at h <;> exact step _ _ h
      | function l0 func =>
        simp [Value.IS_INTEGER, Value.IS_VOID, Value.IS_BLANK, Value.IS_FRAME] at h
        repeat' split at h
        all_goals first
          | exact step _ _ h
          | exact here _ (by simpa using h) hmode (by intro l c hl; cases hl)
      | frame l0 context0 =>
        simp only [Value.IS_INTEGER, Value.IS_VOID, Value.IS_BLANK, Value.IS_FRAME,
          Bool.false_and, Bool.or_self, Bool.false_eq_true, if_false, if_true] at h
        split at h
        · exact step _ _ h
        · split at h
          · rename_i hc
            refine here _ (by simpa using h) hmode ?_
            intro l c hl
            cases hl
            simpa using hc
          · exact step _ _ h
      | array l0 kind items index =>
        simp [Value.IS_INTEGER, Value.IS_VOID, Value.IS_BLANK, Value.IS_FRAME] at h
        split at h <;> exact step _ _ h
    · simp only [hmode, ne_eq, not_false_eq_true, if_true] at h
      exact step _ _ h

/-- C1, at the failing input: beneath the asking native run two nested
ordinary calls.  The listing writes level 2 for the frame at position 2 (and
level 1 for the one at position 1), but Frame_For_Stack_Level with the
selector 2 returns the frame at position 1, reporting number 2. -/
theorem C1_listed_level_two_resolves_to_frame_one :
    N_backtrace example_stack_two Value.void false Value.void false true
        = Backtrace_Result.R_OUT (Val_Init_Block
            [Value.integer true 2, Val_Init_Block [Value.word false (REBSYM.other 2)],
             Value.integer true 1, Val_Init_Block [Value.word false (REBSYM.other 1)]])
      ∧ Make_Where_For_Frame (example_frame CALL_MODE_FUNCTION 2)
          = [Value.word false (REBSYM.other 2)]
      ∧ example_stack_two[2]? = some (example_frame CALL_MODE_FUNCTION 2)
      ∧ Frame_For_Stack_Level example_stack_two (Value.integer false 2) true = some (1, 2) := by
  refine ⟨rfl, rfl, rfl, rfl⟩

/-- C2, at the failing inputs: with two ordinary calls beneath the caller the
second function-executing frame is at position 2, but selector 2 returns the
frame at position 1; with a single ordinary call there is no second frame,
but selector 2 returns the frame at position 1 instead of not-found. -/
theorem C2_selector_two_returns_first_frame :
    nth_function_frame example_stack_two true 2 = some 2
      ∧ Frame_For_Stack_Level example_stack_two (Value.integer false 2) true = some (1, 2)
      ∧ nth_function_frame (example_stack_two.take 2) true 2 = none
      ∧ Frame_For_Stack_Level (example_stack_two.take 2) (Value.integer false 2) true
          = some (1, 2) := by
  refine ⟨rfl, rfl, rfl, rfl⟩

/-- C4, counterexample: the stack holds a pending frame whose context is the
handle, and Frame_For_Stack_Level with that handle returns not-found,
whether or not the caller's frame is skipped. -/
theorem C4_pending_frame_not_found_by_handle :
    (∃ frame, example_stack_pending[1]? = some frame ∧ frame.is_pending = true
        ∧ frame.frame_context = true ∧ frame.context = 5)
      ∧ Frame_For_Stack_Level example_stack_pending (Value.frame false 5) true = none
      ∧ Frame_For_Stack_Level example_stack_pending (Value.frame false 5) false = none := by
  refine ⟨⟨_, rfl, rfl, rfl, rfl⟩, rfl, rfl⟩

/-- C4, amended: Frame_For_Stack_Level never returns a pending frame, whatever
the selector.  The frame it returns is a function-executing frame of the
stack, and for a frame handle it is one for which a context was made and
whose context is the handle. -/
theorem C4_level_resolution_returns_only_function_frames (stack : List Reb_Frame)
    (level : Value) (skip_current : Bool) (pos : Nat) (num : Int)
    (h : Frame_For_Stack_Level stack level skip_current = some (pos, num)) :
    ∃ frame, stack[pos]? = some frame ∧ frame.mode = CALL_MODE_FUNCTION
      ∧ frame.is_pending = false
      ∧ ∀ line context, level = Value.frame line context →
          frame.frame_context = true ∧ frame.context = context := by
  unfold Frame_For_Stack_Level at h
  split at h
  · cases h
  · split at h
    · obtain ⟨k, frame, hk, hget, hmode, hctx⟩ :=
        Frame_For_Stack_Level_loop_returns_function level _ _ _ _ _ _ h
      refine ⟨frame, ?_, hmode, by simp [Reb_Frame.is_pending, hmode], hctx⟩
      rw [List.getElem?_drop] at hget
      rw [hk]; exact hget
    · obtain ⟨k, frame, hk, hget, hmode, hctx⟩ :=
        Frame_For_Stack_Level_loop_returns_function level _ _ _ _ _ _ h
      refine ⟨frame, ?_, hmode, by simp [Reb_Frame.is_pending, hmode], hctx⟩
      rw [hk, Nat.zero_add]; exact hget

/-- C4, amended, at a concrete stack: a function-executing frame whose
context is the handle is returned. -/
theorem C4_level_resolution_returns_only_function_frames_witness :
    Frame_For_Stack_Level example_stack_running (Value.frame false 5) true = some (1, 1)
      ∧ ∃ frame, example_stack_running[1]? = some frame ∧ frame.mode = CALL_MODE_FUNCTION
          ∧ frame.is_pending = false
          ∧ ∀ line context, Value.frame false 5 = Value.frame line context →
              frame.frame_context = true ∧ frame.context = context :=
  ⟨rfl, C4_level_resolution_returns_only_function_frames example_stack_running
    (Value.frame false 5) true 1 1 rfl⟩

/-- C5, at the failing input: beneath the asking native run two nested
ordinary calls.  For the selector 2 the native in direct-lookup mode returns
the frame at position 2, and Frame_For_Stack_Level (skipping the caller's
frame) returns the frame at position 1. -/
theorem C5_direct_lookup_differs_from_level_resolution :
    N_backtrace example_stack_two (Value.integer false 2) false Value.void false false
        = Backtrace_Result.R_OUT_FRAME 2
      ∧ Frame_For_Stack_Level example_stack_two (Value.integer false 2) true = some (1, 2) := by
  refine ⟨rfl, rfl⟩

/-! ### The listing -/

theorem set_at_length (pre : List Value) (a x : Value) (suf : List Value) :
    (pre ++ a :: suf).set pre.length x = pre ++ x :: suf := by
  induction pre with
  | nil => rfl
  | cons b pre ih => simp [ih]

theorem set_at_length_succ (pre : List Value) (a b x : Value) (suf : List Value) :
    (pre ++ a :: b :: suf).set (pre.length + 1) x = pre ++ a :: x :: suf := by
  induction pre with
  | nil => rfl
  | cons c pre ih => simp [ih]

theorem split_last_one (pre : List Value) (m : Nat) (h : pre.length = m + 1) :
    ∃ pre1 a, pre = pre1 ++ [a] ∧ pre1.length = m := by
  rcases List.eq_nil_or_concat pre with h0 | ⟨pre1, a, rfl⟩
  · subst h0; simp at h
  · refine ⟨pre1, a, by simp, ?_⟩
    simp at h; exact h

theorem split_last_two (pre : List Value) (m : Nat) (h : pre.length = m + 2) :
    ∃ pre1 a b, pre = pre1 ++ [a, b] ∧ pre1.length = m := by
  obtain ⟨pre2, b, rfl, h2⟩ := split_last_one pre (m + 1) h
  obtain ⟨pre1, a, rfl, h1⟩ := split_last_one pre2 m h2
  exact ⟨pre1, a, b, by simp, h1⟩

theorem non_guard_cons_guard (frame : Reb_Frame) (prior : List Reb_Frame)
    (h : frame.mode = CALL_MODE_GUARD_ARRAY_ONLY) :
    non_guard (frame :: prior) = non_guard prior := by
  simp [non_guard, h]

theorem non_guard_cons (frame : Reb_Frame) (prior : List Reb_Frame)
    (h : ¬ frame.mode = CALL_MODE_GUARD_ARRAY_ONLY) :
    non_guard (frame :: prior) = frame :: non_guard prior := by
  simp [non_guard, h]

/-- The counting loop: `index` grows by one record for each non-guard frame,
up to the `k + 1` rows that `max_rows` still leaves. -/
theorem backtrace_count_eq (brief : Bool) :
    ∀ (frames : List Reb_Frame) (k row index max_rows : Nat), max_rows = row + k + 1 →
      backtrace_count brief max_rows frames index row
        = index + record_size brief * min (non_guard frames).length (k + 1) := by
  intro frames
  induction frames with
  | nil => intro k row index max_rows _; simp [backtrace_count, non_guard]
  | cons frame prior ih =>
    intro k row index max_rows hmax
    unfold backtrace_count
    by_cases hg : frame.mode = CALL_MODE_GUARD_ARRAY_ONLY
    · rw [non_guard_cons_guard frame prior hg]
      simpa [hg] using ih k row index max_rows hmax
    · rw [non_guard_cons frame prior hg]
      cases k with
      | zero =>
        have hrow : max_rows ≤ row + 1 := by omega
        cases brief <;> simp [hg, hrow, record_size]
      | succ k =>
        have hrow : ¬ max_rows ≤ row + 1 := by omega
        have hmin : min ((non_guard prior).length + 1) (k + 1 + 1)
            = min (non_guard prior).length (k + 1) + 1 := by omega
        simp only [hg, if_false, ge_iff_le, hrow, List.length_cons, hmin]
        rw [ih k (row + 1) _ max_rows (by omega)]
        cases brief <;> simp [record_size] <;> ring

/-- One turn of the second loop in listing mode, on a guard-only frame. -/
theorem backtrace_loop_guard (level : Value) (brief : Bool) (max_rows : Nat)
    (frame : Reb_Frame) (prior : List Reb_Frame) (pos row number : Nat) (first : Bool)
    (index : Nat) (backtrace : List Value) (hg : frame.mode = CALL_MODE_GUARD_ARRAY_ONLY) :
    backtrace_loop level false brief max_rows (frame :: prior) pos row number first index
        backtrace
      = backtrace_loop level false brief max_rows prior (pos + 1) row number first index
          backtrace := by
  rw [backtrace_loop, if_pos hg]

/-- One turn of the second loop in listing mode, on a frame that is not
guard-only. -/
theorem backtrace_loop_non_guard (level : Value) (brief : Bool) (max_rows : Nat)
    (frame : Reb_Frame) (prior : List Reb_Frame) (pos row number : Nat) (first : Bool)
    (index : Nat) (backtrace : List Value) (hg : ¬ frame.mode = CALL_MODE_GUARD_ARRAY_ONLY) :
    backtrace_loop level false brief max_rows (frame :: prior) pos row number first index
        backtrace
      = if row + 1 ≥ max_rows then
          if !brief then
            Backtrace_Exit.left (index - 1 - 1)
              (((backtrace.set (index - 1) (Val_Init_Word REBSYM.SYM_PLUS)).set (index - 1 - 1)
                (Val_Init_Word REBSYM.SYM_ASTERISK).SET_LINE))
          else
            Backtrace_Exit.left (index - 1)
              (backtrace.set (index - 1) (Val_Init_Word REBSYM.SYM_PLUS))
        else if brief then
          backtrace_loop level false brief max_rows prior (pos + 1) (row + 1)
            (listing_number frame number first) false (index - 1)
            (backtrace.set (index - 1) (Val_Init_Word (FRM_LABEL frame)))
        else
          backtrace_loop level false brief max_rows prior (pos + 1) (row + 1)
            (listing_number frame number first) false (index - 1 - 1)
            ((backtrace.set (index - 1) (Val_Init_Block (Make_Where_For_Frame frame))).set
              (index - 1 - 1)
              (if decide (frame.mode ≠ CALL_MODE_FUNCTION) then
                Val_Init_Word REBSYM.SYM_ASTERISK
              else SET_INTEGER (listing_number frame number first)).SET_LINE) := by
  rw [backtrace_loop, if_neg hg]
  rfl

/-- The second loop in listing mode, started with `index` cells still to
fill in front of the cells `suf` already written: it leaves `index` at 0
and the array filled with the marker (when more non-guard frames remain than
the `k` ordinary rows that `max_rows` still leaves) and the ordinary records
of the first `k` non-guard frames, the first frame last. -/
theorem backtrace_loop_listing (level : Value) (brief : Bool) :
    ∀ (frames : List Reb_Frame) (k pos row number : Nat) (first : Bool) (max_rows index : Nat)
      (pre suf : List Value),
      max_rows = row + k + 1 → index = pre.length →
      pre.length = record_size brief * min (non_guard frames).length (k + 1) →
      backtrace_loop level false brief max_rows frames pos row number first index (pre ++ suf)
        = Backtrace_Exit.left 0
            ((if k < (non_guard frames).length then elided_marker brief else [])
              ++ ((listing_rows brief ((non_guard frames).take k) number first).reverse.flatten
                ++ suf)) := by
  intro frames
  induction frames with
  | nil =>
    intro k pos row number first max_rows index pre suf _ hindex hpre
    have hnil : pre = [] := by
      apply List.eq_nil_of_length_eq_zero
      simpa [non_guard] using hpre
    subst hnil
    subst hindex
    rw [backtrace_loop]
    simp [non_guard, listing_rows, listing_numbers]
  | cons frame prior ih =>
    intro k pos row number first max_rows index pre suf hmax hindex hpre
    by_cases hg : frame.mode = CALL_MODE_GUARD_ARRAY_ONLY
    · rw [non_guard_cons_guard frame prior hg] at hpre ⊢
      rw [backtrace_loop_guard level brief max_rows frame prior pos row number first index _ hg]
      exact ih k (pos + 1) row number first max_rows index pre suf hmax hindex hpre
    · rw [non_guard_cons frame prior hg] at hpre ⊢
      rw [backtrace_loop_non_guard level brief max_rows frame prior pos row number first index
        _ hg]
      cases k with
      | zero =>
        have hrow : max_rows ≤ row + 1 := by omega
        cases brief with
        | true =>
          have h1 : pre.length = 0 + 1 := by simpa [record_size] using hpre
          obtain ⟨pre1, a, rfl, hlen⟩ := split_last_one pre 0 h1
          have hnil : pre1 = [] := List.eq_nil_of_length_eq_zero hlen
          subst hnil
          subst hindex
          simp [hrow, elided_marker, listing_rows, listing_numbers]
        | false =>
          have h2 : pre.length = 0 + 2 := by simpa [record_size] using hpre
          obtain ⟨pre1, a, b, rfl, hlen⟩ := split_last_two pre 0 h2
          have hnil : pre1 = [] := List.eq_nil_of_length_eq_zero hlen
          subst hnil
          subst hindex
          simp [hrow, elided_marker, listing_rows, listing_numbers]
      | succ k =>
        have hrow : ¬ row + 1 ≥ max_rows := by omega
        have hmin : min ((non_guard prior).length + 1) (k + 1 + 1)
            = min (non_guard prior).length (k + 1) + 1 := by omega
        rw [List.length_cons, hmin] at hpre
        have hrows : listing_rows brief (frame :: (non_guard prior).take k) number first
            = listing_row brief frame (listing_number frame number first)
              :: listing_rows brief ((non_guard prior).take k)
                  (listing_number frame number first) false := by
          simp [listing_rows, listing_numbers]
        have hlt : (k + 1 < (frame :: non_guard prior).length)
            ↔ (k < (non_guard prior).length) := by
          simp
        simp only [List.take_succ_cons, hrows, hlt, if_neg hrow, List.reverse_cons,
          List.flatten_append, List.flatten_cons, List.flatten_nil, List.append_nil,
          List.append_assoc]
        cases brief with
        | true =>
          have h1 : pre.length = min (non_guard prior).length (k + 1) + 1 := by
            simpa [record_size] using hpre
          obtain ⟨pre1, a, rfl, hlen⟩ := split_last_one pre _ h1
          have hidx : index - 1 = pre1.length := by simp [hindex]
          have hih := ih k (pos + 1) (row + 1) (listing_number frame number first) false
            max_rows pre1.length pre1 (listing_row true frame (listing_number frame number first)
              ++ suf) (by omega) rfl
            (by simpa [record_size] using hlen)
          rw [hih.symm]
          simp [hidx, set_at_length, listing_row]
        | false =>
          have h2 : pre.length = min (non_guard prior).length (k + 1) * 2 + 2 := by
            simp [record_size] at hpre; omega
          obtain ⟨pre1, a, b, rfl, hlen⟩ := split_last_two pre _ h2
          have hidx : index - 1 = pre1.length + 1 := by simp [hindex]
          have hidx2 : pre1.length + 1 - 1 = pre1.length := by simp
          have hih := ih k (pos + 1) (row + 1) (listing_number frame number first) false
            max_rows pre1.length pre1
            (listing_row false frame (listing_number frame number first) ++ suf) (by omega) rfl
            (by simp [record_size]; omega)
          rw [hih.symm]
          simp [hidx, set_at_length_succ, set_at_length, listing_row]

theorem listing_numbers_length :
    ∀ (frames : List Reb_Frame) (number : Nat) (first : Bool),
      (listing_numbers frames number first).length = frames.length := by
  intro frames
  induction frames with
  | nil => intro number first; rfl
  | cons frame rest ih => intro number first; simp [listing_numbers, ih]

theorem listing_rows_length (brief : Bool) (frames : List Reb_Frame) (number : Nat)
    (first : Bool) : (listing_rows brief frames number first).length = frames.length := by
  simp [listing_rows, listing_numbers_length]

theorem listing_row_length (brief : Bool) (frame : Reb_Frame) (number : Nat) :
    (listing_row brief frame number).length = record_size brief := by
  cases brief <;> simp [listing_row, record_size]

theorem listing_rows_uniform (brief : Bool) (frames : List Reb_Frame) (number : Nat)
    (first : Bool) : ∀ row ∈ listing_rows brief frames number first,
      row.length = record_size brief := by
  intro row hrow
  simp only [listing_rows, List.mem_iff_getElem?, List.getElem?_zipWith] at hrow
  obtain ⟨i, hi⟩ := hrow
  cases hf : frames[i]? with
  | none => simp [hf] at hi
  | some frame =>
    cases hn : (listing_numbers frames number first)[i]? with
    | none => simp [hf, hn] at hi
    | some n =>
      simp [hf, hn] at hi
      rw [← hi]; exact listing_row_length brief frame n

/-- Rows of `size` cells each, written one after the other, take
`size * rows.length` cells. -/
theorem uniform_flatten_length (size : Nat) :
    ∀ (rows : List (List Value)), (∀ row ∈ rows, row.length = size) →
      rows.reverse.flatten.length = size * rows.length := by
  intro rows
  induction rows with
  | nil => intro _; simp
  | cons row rest ih =>
    intro h
    have hrow : row.length = size := h row (by simp)
    have hrest := ih (fun r hr => h r (by simp [hr]))
    simp [List.flatten_append, hrest, hrow]
    ring

/-- In an array that ends with rows of `size` cells written in reverse order,
row `i` is the `i`-th record counted from the end. -/
theorem uniform_flatten_slice (size : Nat) :
    ∀ (rows : List (List Value)), (∀ row ∈ rows, row.length = size) →
      ∀ (pre : List Value) (i : Nat) (row : List Value), rows[i]? = some row →
        ((pre ++ rows.reverse.flatten).drop
            ((pre ++ rows.reverse.flatten).length - size * (i + 1))).take size = row := by
  intro rows
  induction rows with
  | nil => intro _ pre i row h; simp at h
  | cons row0 rest ih =>
    intro h pre i row hi
    have hrow0 : row0.length = size := h row0 (by simp)
    have huni : ∀ r ∈ rest, r.length = size := fun r hr => h r (by simp [hr])
    have hlen := uniform_flatten_length size rest huni
    have hout : pre ++ (row0 :: rest).reverse.flatten
        = (pre ++ rest.reverse.flatten) ++ row0 := by
      simp [List.flatten_append]
    rw [hout]
    cases i with
    | zero =>
      simp only [List.getElem?_cons_zero, Option.some.injEq] at hi
      subst hi
      have hz : ((pre ++ rest.reverse.flatten) ++ row0).length - size * (0 + 1)
          = (pre ++ rest.reverse.flatten).length := by
        rw [List.length_append, hrow0]; omega
      rw [hz, List.drop_left, List.take_of_length_le (by omega)]
    | succ i =>
      simp only [List.getElem?_cons_succ] at hi
      have hi_lt : i < rest.length := by
        by_contra hcon
        rw [List.getElem?_eq_none (by omega)] at hi
        cases hi
      have hmul : size * (i + 1) ≤ size * rest.length := Nat.mul_le_mul_left size (by omega)
      have hA : (pre ++ rest.reverse.flatten).length = pre.length + size * rest.length := by
        simp [hlen]
      have hsz : size * (i + 1 + 1) = size * (i + 1) + size := by ring
      have hsz1 : size ≤ size * (i + 1) := by
        have : size * (i + 1) = size * i + size := by ring
        omega
      have hidx : ((pre ++ rest.reverse.flatten) ++ row0).length - size * (i + 1 + 1)
          = (pre ++ rest.reverse.flatten).length - size * (i + 1) := by
        rw [List.length_append, hrow0, hA]
        omega
      have hdrop : size ≤ ((pre ++ rest.reverse.flatten).drop
          ((pre ++ rest.reverse.flatten).length - size * (i + 1))).length := by
        rw [List.length_drop]
        omega
      rw [hidx, List.drop_append_of_le_length (by omega),
        List.take_append_of_le_length hdrop]
      exact ih huni pre i row hi

/-- The record of the `i`-th non-guard frame among the first `L`. -/
theorem listing_rows_get (brief : Bool) :
    ∀ (frames : List Reb_Frame) (L i number : Nat) (first : Bool) (frame : Reb_Frame),
      i < L → frames[i]? = some frame →
      ∃ n, (listing_numbers frames number first)[i]? = some n
        ∧ (listing_rows brief (frames.take L) number first)[i]?
            = some (listing_row brief frame n) := by
  intro frames
  induction frames with
  | nil => intro L i number first frame _ h; simp at h
  | cons g rest ih =>
    intro L i number first frame hL hi
    cases L with
    | zero => omega
    | succ L =>
      cases i with
      | zero =>
        simp only [List.getElem?_cons_zero, Option.some.injEq] at hi
        subst hi
        exact ⟨listing_number g number first, by simp [listing_numbers],
          by simp [listing_rows, listing_numbers]⟩
      | succ i =>
        simp only [List.getElem?_cons_succ] at hi
        obtain ⟨n, hn, hr⟩ := ih L i (listing_number g number first) false frame (by omega) hi
        refine ⟨n, by simpa [listing_numbers] using hn, ?_⟩
        simpa [listing_rows, listing_numbers] using hr

/-- The native in listing mode, whatever gives `max_rows` its value `k + 1`:
the second loop is left with `index` at 0 and with the array that holds the
marker (when more than `k` non-guard frames lie beneath the caller) and then
the records of the first `k` non-guard frames, the most recent last. -/
theorem N_backtrace_walk_listing (stack : List Reb_Frame) (level : Value)
    (hlevel : (level.IS_VOID || level.IS_BLANK) = true) (limit : Bool) (frames : Value)
    (brief : Bool) (k : Nat) (hmax : backtrace_max_rows limit frames = Except.ok (k + 1)) :
    N_backtrace_walk stack level limit frames brief
      = Except.ok (Backtrace_Exit.left 0
          ((if k < (non_guard (stack.drop 1)).length then elided_marker brief else [])
            ++ (listing_rows brief ((non_guard (stack.drop 1)).take k) 0 true).reverse.flatten))
      ∧ backtrace_count brief (k + 1) (stack.drop 1) 0 0
          = record_size brief * min (non_guard (stack.drop 1)).length (k + 1) := by
  have hcount := backtrace_count_eq brief (stack.drop 1) k 0 0 (k + 1) (by omega)
  rw [Nat.zero_add] at hcount
  refine ⟨?_, hcount⟩
  have hfill := backtrace_loop_listing level brief (stack.drop 1) k 1 0 0 true (k + 1)
    (backtrace_count brief (k + 1) (stack.drop 1) 0 0)
    (List.replicate (backtrace_count brief (k + 1) (stack.drop 1) 0 0) Value.END) []
    (by omega) (by rw [List.length_replicate])
    (by rw [List.length_replicate]; exact hcount)
  simp only [List.append_nil] at hfill
  simp only [N_backtrace_walk, hlevel, Bool.not_true, Bool.false_and, Bool.false_eq_true,
    if_false, hmax, hfill]

/-- The macro `VAL_INT32` gives a number of 32 bits. -/
theorem VAL_INT32_range (v : Value) :
    -2147483648 ≤ v.VAL_INT32 ∧ v.VAL_INT32 < 2147483648 := by
  cases v <;> simp only [Value.VAL_INT32] <;> omega

/-- An integer that fits 32 bits is what `VAL_INT32` gives for its cell. -/
theorem VAL_INT32_of_small (line : Bool) (n : Int) (h1 : -2147483648 ≤ n)
    (h2 : n < 2147483648) : (Value.integer line n).VAL_INT32 = n := by
  simp only [Value.VAL_INT32]
  omega

/-- With `/limit` and an integer whose 32-bit value is `L`, not negative,
`max_rows` is `L + 1`. -/
theorem backtrace_max_rows_limit (line : Bool) (n : Int) (L : Nat)
    (hL : (Value.integer line n).VAL_INT32 = (L : Int)) :
    backtrace_max_rows true (Value.integer line n) = Except.ok (L + 1) := by
  have hrange := VAL_INT32_range (Value.integer line n)
  rw [hL] at hrange
  have h1 : ¬ ((L : Int) < 0) := by omega
  have h2 : (((L : Int) + 1) % 2 ^ 32).toNat = L + 1 := by omega
  simp only [backtrace_max_rows, if_true, Value.IS_BLANK, Bool.false_eq_true, if_false, hL, h1,
    h2]

/-- The row limit of the native is never 0. -/
theorem backtrace_max_rows_pos (limit : Bool) (frames : Value) (m : Nat)
    (h : backtrace_max_rows limit frames = Except.ok m) : ∃ k, m = k + 1 := by
  unfold backtrace_max_rows at h
  have hrange := VAL_INT32_range frames
  split_ifs at h with h1 h2 h3
  · exact ⟨2 ^ 32 - 2, by cases h; rfl⟩
  · cases h
    exact ⟨frames.VAL_INT32.toNat, by omega⟩
  · exact ⟨19, by cases h; rfl⟩

/-- C6: in listing mode with `/limit` and an integer whose 32-bit value, as
`VAL_INT32` reads it, is `L` (the integer itself when it is below 2 ^ 31),
`T` being the number of non-guard
frames beneath the caller: the second pass leaves `index` at 0, having
filled the array the counting pass allocated; the array is the elided-rows
marker, present exactly when `T > L`, followed by `min T L` ordinary rows; its
length is `2 * min T L + (2 if T > L)`, in brief mode
`min T L + (1 if T > L)`; and with `L = 0` and `T ≥ 1` the non-brief result is
the two marker words alone. -/
theorem C6_listing_rows_and_length (stack : List Reb_Frame) (level : Value)
    (hlevel : (level.IS_VOID || level.IS_BLANK) = true) (line : Bool) (n : Int) (L : Nat)
    (hL : (Value.integer line n).VAL_INT32 = (L : Int)) (brief : Bool) :
    ∃ backtrace : List Value,
      N_backtrace_walk stack level true (Value.integer line n) brief
          = Except.ok (Backtrace_Exit.left 0 backtrace)
      ∧ N_backtrace stack level true (Value.integer line n) brief true
          = Backtrace_Result.R_OUT (Val_Init_Block backtrace)
      ∧ backtrace.length = backtrace_count brief (L + 1) (stack.drop 1) 0 0
      ∧ backtrace
          = (if L < (non_guard (stack.drop 1)).length then elided_marker brief else [])
            ++ (listing_rows brief ((non_guard (stack.drop 1)).take L) 0 true).reverse.flatten
      ∧ (listing_rows brief ((non_guard (stack.drop 1)).take L) 0 true).length
          = min (non_guard (stack.drop 1)).length L
      ∧ (brief = false → backtrace.length
          = 2 * min (non_guard (stack.drop 1)).length L
            + (if L < (non_guard (stack.drop 1)).length then 2 else 0))
      ∧ (brief = true → backtrace.length
          = min (non_guard (stack.drop 1)).length L
            + (if L < (non_guard (stack.drop 1)).length then 1 else 0))
      ∧ (L = 0 → 1 ≤ (non_guard (stack.drop 1)).length → brief = false →
          backtrace = [Value.word true REBSYM.SYM_ASTERISK, Value.word false REBSYM.SYM_PLUS]) := by
  obtain ⟨hwalk, hcount⟩ := N_backtrace_walk_listing stack level hlevel true
    (Value.integer line n) brief L (backtrace_max_rows_limit line n L hL)
  have hrows : (listing_rows brief ((non_guard (stack.drop 1)).take L) 0 true).length
      = min (non_guard (stack.drop 1)).length L := by
    rw [listing_rows_length, List.length_take, Nat.min_comm]
  have hflat := uniform_flatten_length (record_size brief) _
    (listing_rows_uniform brief ((non_guard (stack.drop 1)).take L) 0 true)
  rw [hrows] at hflat
  have hmarker : (elided_marker brief).length = record_size brief := by
    cases brief <;> rfl
  have hlen : ((if L < (non_guard (stack.drop 1)).length then elided_marker brief else [])
      ++ (listing_rows brief ((non_guard (stack.drop 1)).take L) 0 true).reverse.flatten).length
      = record_size brief * min (non_guard (stack.drop 1)).length L
        + (if L < (non_guard (stack.drop 1)).length then record_size brief else 0) := by
    rw [List.length_append, hflat]
    split
    · simp [hmarker]; omega
    · simp
  refine ⟨_, hwalk, ?_, ?_, rfl, hrows, ?_, ?_, ?_⟩
  · simp only [N_backtrace, hwalk, hlevel, Bool.not_true, Bool.false_eq_true, if_false,
      if_true]
  · rw [hlen, hcount]
    by_cases hT : L < (non_guard (stack.drop 1)).length
    · rw [if_pos hT, Nat.min_eq_right (by omega), Nat.min_eq_right (by omega)]; ring
    · rw [if_neg hT, Nat.min_eq_left (by omega), Nat.min_eq_left (by omega)]; ring
  · intro hb; subst hb; rw [hlen]; simp [record_size]
  · intro hb; subst hb; rw [hlen]; simp [record_size]
  · intro hzero hT hb
    subst hzero; subst hb
    have hpos : 0 < (non_guard (stack.drop 1)).length := by omega
    rw [if_pos hpos]
    simp [listing_rows, listing_numbers, elided_marker, Val_Init_Word, Value.SET_LINE]

/-- C6 at a concrete call: two ordinary calls beneath the caller and `/limit 1`. -/
theorem C6_listing_rows_and_length_witness :
    (Value.void.IS_VOID || Value.void.IS_BLANK) = true
    ∧ (Value.integer false 1).VAL_INT32 = ((1 : Nat) : Int)
    ∧ ∃ backtrace : List Value,
      N_backtrace_walk example_stack_two Value.void true (Value.integer false 1) false
          = Except.ok (Backtrace_Exit.left 0 backtrace)
      ∧ N_backtrace example_stack_two Value.void true (Value.integer false 1) false true
          = Backtrace_Result.R_OUT (Val_Init_Block backtrace)
      ∧ backtrace.length = backtrace_count false (1 + 1) (example_stack_two.drop 1) 0 0
      ∧ backtrace
          = (if 1 < (non_guard (example_stack_two.drop 1)).length then elided_marker false
              else [])
            ++ (listing_rows false ((non_guard (example_stack_two.drop 1)).take 1) 0
                  true).reverse.flatten
      ∧ (listing_rows false ((non_guard (example_stack_two.drop 1)).take 1) 0 true).length
          = min (non_guard (example_stack_two.drop 1)).length 1
      ∧ (false = false → backtrace.length
          = 2 * min (non_guard (example_stack_two.drop 1)).length 1
            + (if 1 < (non_guard (example_stack_two.drop 1)).length then 2 else 0))
      ∧ (false = true → backtrace.length
          = min (non_guard (example_stack_two.drop 1)).length 1
            + (if 1 < (non_guard (example_stack_two.drop 1)).length then 1 else 0))
      ∧ (1 = 0 → 1 ≤ (non_guard (example_stack_two.drop 1)).length → false = false →
          backtrace = [Value.word true REBSYM.SYM_ASTERISK, Value.word false REBSYM.SYM_PLUS]) :=
  ⟨rfl, by decide,
    C6_listing_rows_and_length example_stack_two Value.void rfl false 1 1 (by decide) false⟩

/-- C7: in listing mode the array is filled back to front, whatever the row
limit: `max_rows` is 20 without `/limit`, 2 ^ 32 - 1 with `/limit` and blank,
and the 32-bit value of the integer plus one with `/limit` and an integer
that `VAL_INT32` reads as not negative.  The record of the `i`-th non-guard
frame walked from the top (`i` from 0, with `i + 1` below `max_rows`) is the
`i`-th record counted from the end of the array, so the record of the most
recent frame is last; and when there are `max_rows` non-guard frames or more
the array starts with the elided-rows marker. -/
theorem C7_listing_is_back_to_front (stack : List Reb_Frame) (level : Value)
    (hlevel : (level.IS_VOID || level.IS_BLANK) = true) (limit : Bool) (frames : Value)
    (brief : Bool) (max_rows : Nat)
    (hmax : backtrace_max_rows limit frames = Except.ok max_rows) :
    ∃ backtrace : List Value,
      N_backtrace_walk stack level limit frames brief
          = Except.ok (Backtrace_Exit.left 0 backtrace)
      ∧ (∀ (i : Nat) (frame : Reb_Frame), i + 1 < max_rows →
          (non_guard (stack.drop 1))[i]? = some frame →
          ∃ number, (listing_numbers (non_guard (stack.drop 1)) 0 true)[i]? = some number
            ∧ (backtrace.drop (backtrace.length - record_size brief * (i + 1))).take
                (record_size brief) = listing_row brief frame number)
      ∧ (max_rows ≤ (non_guard (stack.drop 1)).length →
          backtrace.take (record_size brief) = elided_marker brief) := by
  obtain ⟨k, rfl⟩ := backtrace_max_rows_pos limit frames max_rows hmax
  obtain ⟨hwalk, _⟩ := N_backtrace_walk_listing stack level hlevel limit frames brief k hmax
  refine ⟨_, hwalk, ?_, ?_⟩
  · intro i frame hi hframe
    obtain ⟨n, hn, hrow⟩ := listing_rows_get brief (non_guard (stack.drop 1)) k i 0 true frame
      (by omega) hframe
    exact ⟨n, hn, uniform_flatten_slice (record_size brief) _
      (listing_rows_uniform brief _ 0 true) _ i _ hrow⟩
  · intro hT
    have hmarker : (elided_marker brief).length = record_size brief := by
      cases brief <;> rfl
    have hT2 : k < (non_guard (stack.drop 1)).length := by omega
    rw [if_pos hT2, ← hmarker, List.take_left]

/-- C7 at two concrete calls on two ordinary calls beneath the caller: the
listing without `/limit`, whose last record is that of the most recent call,
and the listing with `/limit 1`. -/
theorem C7_listing_is_back_to_front_witness :
    (Value.void.IS_VOID || Value.void.IS_BLANK) = true
    ∧ backtrace_max_rows false Value.void = Except.ok 20
    ∧ backtrace_max_rows true (Value.integer false 1) = Except.ok 2
    ∧ N_backtrace_walk example_stack_two Value.void false Value.void false
        = Except.ok (Backtrace_Exit.left 0
            [Value.integer true 2, Val_Init_Block [Value.word false (REBSYM.other 2)],
             Value.integer true 1, Val_Init_Block [Value.word false (REBSYM.other 1)]])
    ∧ (∃ backtrace : List Value,
      N_backtrace_walk example_stack_two Value.void false Value.void false
          = Except.ok (Backtrace_Exit.left 0 backtrace)
      ∧ (∀ (i : Nat) (frame : Reb_Frame), i + 1 < 20 →
          (non_guard (example_stack_two.drop 1))[i]? = some frame →
          ∃ number,
            (listing_numbers (non_guard (example_stack_two.drop 1)) 0 true)[i]? = some number
            ∧ (backtrace.drop (backtrace.length - record_size false * (i + 1))).take
                (record_size false) = listing_row false frame number)
      ∧ (20 ≤ (non_guard (example_stack_two.drop 1)).length →
          backtrace.take (record_size false) = elided_marker false))
    ∧ ∃ backtrace : List Value,
      N_backtrace_walk example_stack_two Value.void true (Value.integer false 1) false
          = Except.ok (Backtrace_Exit.left 0 backtrace)
      ∧ (∀ (i : Nat) (frame : Reb_Frame), i + 1 < 2 →
          (non_guard (example_stack_two.drop 1))[i]? = some frame →
          ∃ number,
            (listing_numbers (non_guard (example_stack_two.drop 1)) 0 true)[i]? = some number
            ∧ (backtrace.drop (backtrace.length - record_size false * (i + 1))).take
                (record_size false) = listing_row false frame number)
      ∧ (2 ≤ (non_guard (example_stack_two.drop 1)).length →
          backtrace.take (record_size false) = elided_marker false) :=
  ⟨rfl, rfl, backtrace_max_rows_limit false 1 1 (by decide), rfl,
    C7_listing_is_back_to_front example_stack_two Value.void rfl false Value.void false 20 rfl,
    C7_listing_is_back_to_front example_stack_two Value.void rfl true (Value.integer false 1)
      false 2 (backtrace_max_rows_limit false 1 1 (by decide))⟩

/-- C8, counterexample: for the three nested ordinary calls A, B, C of
`example_stack_three` (C innermost) the listing with `/limit 2` is the marker,
then B's row with level 2, then C's row with level 1: the last row carries
level 1, not 3, and no result of the shape the claim gives is returned. -/
theorem C8_innermost_frame_is_level_one :
    N_backtrace example_stack_three Value.void true (Value.integer false 2) false true
        = Backtrace_Result.R_OUT (Val_Init_Block
            [Value.word true REBSYM.SYM_ASTERISK, Value.word false REBSYM.SYM_PLUS,
             Value.integer true 2, Val_Init_Block [Value.word false (REBSYM.other 2)],
             Value.integer true 1, Val_Init_Block [Value.word false (REBSYM.other 3)]])
      ∧ Make_Where_For_Frame (example_frame CALL_MODE_FUNCTION 3)
          = [Value.word false (REBSYM.other 3)]
      ∧ ∀ (line2 line3 : Bool) (where2 where3 : Value),
          N_backtrace example_stack_three Value.void true (Value.integer false 2) false true
            ≠ Backtrace_Result.R_OUT (Val_Init_Block
                [Value.word true REBSYM.SYM_ASTERISK, Value.word false REBSYM.SYM_PLUS,
                 Value.integer line2 2, where2, Value.integer line3 3, where3]) := by
  have h : N_backtrace example_stack_three Value.void true (Value.integer false 2) false true
      = Backtrace_Result.R_OUT (Val_Init_Block
          [Value.word true REBSYM.SYM_ASTERISK, Value.word false REBSYM.SYM_PLUS,
           Value.integer true 2, Val_Init_Block [Value.word false (REBSYM.other 2)],
           Value.integer true 1, Val_Init_Block [Value.word false (REBSYM.other 3)]]) := rfl
  refine ⟨h, rfl, ?_⟩
  intro line2 line3 where2 where3
  rw [h]
  simp [Val_Init_Block, Val_Init_Array_Index]

/-- C8, amended: for three nested function-executing calls A, B, C beneath the
caller, C innermost, none of them a pause or breakpoint native, the listing
with `/limit 2` is the elided-rows marker, then B's row with level 2, then C's
row with level 1: the innermost frame carries the lowest level number and the
outermost call A is the one elided. -/
theorem C8_three_calls_listing (caller A B C : Reb_Frame) (line : Bool)
    (hA : A.mode = CALL_MODE_FUNCTION) (hB : B.mode = CALL_MODE_FUNCTION)
    (hC : C.mode = CALL_MODE_FUNCTION)
    (hpA : Is_Pause_Or_Breakpoint A = false) (hpB : Is_Pause_Or_Breakpoint B = false)
    (hpC : Is_Pause_Or_Breakpoint C = false) :
    N_backtrace [caller, C, B, A] Value.void true (Value.integer line 2) false true
      = Backtrace_Result.R_OUT (Val_Init_Block
          [Value.word true REBSYM.SYM_ASTERISK, Value.word false REBSYM.SYM_PLUS,
           Value.integer true 2, Val_Init_Block (Make_Where_For_Frame B),
           Value.integer true 1, Val_Init_Block (Make_Where_For_Frame C)]) := by
  have _ := hpA
  have _ := hpB
  have hmax : backtrace_max_rows true (Value.integer line 2) = Except.ok (2 + 1) := by
    simpa using backtrace_max_rows_limit line 2 2 (by simp [Value.VAL_INT32])
  have hwalk := (N_backtrace_walk_listing [caller, C, B, A] Value.void rfl true
    (Value.integer line 2) false 2 hmax).1
  simp only [N_backtrace, hwalk]
  simp [non_guard, hA, hB, hC, hpC, listing_rows, listing_numbers, listing_number,
    listing_row, elided_marker, Val_Init_Word, SET_INTEGER, Value.SET_LINE, Value.IS_VOID]

/-- C8, amended, at the three calls of `example_stack_three`. -/
theorem C8_three_calls_listing_witness :
    (example_frame CALL_MODE_FUNCTION 1).mode = CALL_MODE_FUNCTION
    ∧ (example_frame CALL_MODE_FUNCTION 2).mode = CALL_MODE_FUNCTION
    ∧ (example_frame CALL_MODE_FUNCTION 3).mode = CALL_MODE_FUNCTION
    ∧ Is_Pause_Or_Breakpoint (example_frame CALL_MODE_FUNCTION 1) = false
    ∧ Is_Pause_Or_Breakpoint (example_frame CALL_MODE_FUNCTION 2) = false
    ∧ Is_Pause_Or_Breakpoint (example_frame CALL_MODE_FUNCTION 3) = false
    ∧ N_backtrace
        [example_frame CALL_MODE_FUNCTION 0, example_frame CALL_MODE_FUNCTION 3,
         example_frame CALL_MODE_FUNCTION 2, example_frame CALL_MODE_FUNCTION 1]
        Value.void true (Value.integer false 2) false true
      = Backtrace_Result.R_OUT (Val_Init_Block
          [Value.word true REBSYM.SYM_ASTERISK, Value.word false REBSYM.SYM_PLUS,
           Value.integer true 2,
           Val_Init_Block (Make_Where_For_Frame (example_frame CALL_MODE_FUNCTION 2)),
           Value.integer true 1,
           Val_Init_Block (Make_Where_For_Frame (example_frame CALL_MODE_FUNCTION 3))]) :=
  ⟨rfl, rfl, rfl, rfl, rfl, rfl,
    C8_three_calls_listing (example_frame CALL_MODE_FUNCTION 0)
      (example_frame CALL_MODE_FUNCTION 1) (example_frame CALL_MODE_FUNCTION 2)
      (example_frame CALL_MODE_FUNCTION 3) false rfl rfl rfl rfl rfl rfl⟩

/-! ### Make_Where_For_Frame -/

/-- A cell nests no deeper than the array it is in. -/
theorem depth_le_of_mem : ∀ (cells : List Value) (v : Value), v ∈ cells →
    v.depth ≤ depth_of_cells cells := by
  intro cells
  induction cells with
  | nil => intro v h; simp at h
  | cons c rest ih =>
    intro v h
    rw [depth_of_cells]
    rcases List.mem_cons.mp h with h1 | h1
    · subst h1; exact Nat.le_max_left _ _
    · exact Nat.le_trans (ih v h1) (Nat.le_max_right _ _)

/-- An array whose cells all nest at most `d` deep nests at most `d` deep. -/
theorem depth_of_cells_le : ∀ (cells : List Value) (d : Nat),
    (∀ v ∈ cells, v.depth ≤ d) → depth_of_cells cells ≤ d := by
  intro cells
  induction cells with
  | nil => intro d _; simp [depth_of_cells]
  | cons c rest ih =>
    intro d h
    rw [depth_of_cells]
    exact Nat.max_le.mpr ⟨h c (by simp), ih d (fun v hv => h v (by simp [hv]))⟩

/-- The copy that the loop of Collapsify_Array makes of an array cell nests
less deep than the cell. -/
theorem depth_of_copy_lt (item : Value) (limit : Nat) (h : item.ANY_ARRAY = true) :
    depth_of_cells
        ((Copy_Array_At_Max_Shallow item.VAL_ARRAY item.VAL_INDEX (limit + 1)).set limit
          (Val_Init_Word REBSYM.SYM_ELLIPSIS)) < item.depth := by
  cases item with
  | array line kind items index =>
    simp only [Value.VAL_ARRAY, Value.VAL_INDEX, Value.depth]
    apply Nat.lt_succ_of_le
    apply depth_of_cells_le
    intro v hv
    rcases List.mem_or_eq_of_mem_set hv with h1 | h1
    · apply depth_le_of_mem
      exact List.mem_of_mem_drop (List.mem_of_mem_take h1)
    · subst h1; simp [Val_Init_Word, Value.depth]
  | _ => simp [Value.ANY_ARRAY] at h

/-- The loop of Collapsify_Array gives the same cells for two ways of doing
the nested calls that agree on the copies the loop makes. -/
theorem Collapsify_Array_loop_congr (recur1 recur2 : List Value → List Value) (limit : Nat) :
    ∀ (array : List Value),
      (∀ item ∈ array, item.ANY_ARRAY = true →
        recur1 ((Copy_Array_At_Max_Shallow item.VAL_ARRAY item.VAL_INDEX (limit + 1)).set limit
            (Val_Init_Word REBSYM.SYM_ELLIPSIS))
          = recur2 ((Copy_Array_At_Max_Shallow item.VAL_ARRAY item.VAL_INDEX (limit + 1)).set
              limit (Val_Init_Word REBSYM.SYM_ELLIPSIS))) →
      Collapsify_Array_loop recur1 limit array = Collapsify_Array_loop recur2 limit array := by
  intro array
  induction array with
  | nil => intro _; rfl
  | cons item rest ih =>
    intro h
    have hrest := ih (fun v hv => h v (by simp [hv]))
    have hitem := h item (by simp)
    unfold Collapsify_Array_loop
    by_cases hend : item.NOT_END = true
    · by_cases harr : item.ANY_ARRAY = true
      · simp only [hend, if_true, harr, Bool.true_and, hitem harr, hrest]
      · simp only [hend, if_true, harr, Bool.false_and, Bool.false_eq_true, if_false, hrest]
    · simp [hend]

/-- Any fuel above the nesting depth of the array gives the same result. -/
theorem Collapsify_Array_fuel_irrelevant (limit : Nat) :
    ∀ (fuel1 fuel2 : Nat) (array : List Value),
      depth_of_cells array < fuel1 → depth_of_cells array < fuel2 →
      Collapsify_Array_fuel fuel1 array limit = Collapsify_Array_fuel fuel2 array limit := by
  intro fuel1
  induction fuel1 with
  | zero => intro fuel2 array h1 _; omega
  | succ fuel1 ih =>
    intro fuel2 array h1 h2
    cases fuel2 with
    | zero => omega
    | succ fuel2 =>
      simp only [Collapsify_Array_fuel]
      apply Collapsify_Array_loop_congr
      intro item hmem harr
      have hcopy := depth_of_copy_lt item limit harr
      have hitem := depth_le_of_mem array item hmem
      exact ih fuel2 _ (by omega) (by omega)

/-- Collapsify_Array is its loop with Collapsify_Array itself for the nested
calls: the fuel of the embedding never runs out. -/
theorem Collapsify_Array_unfold (array : List Value) (limit : Nat) :
    Collapsify_Array array limit
      = Collapsify_Array_loop (fun copy => Collapsify_Array copy limit) limit array := by
  simp only [Collapsify_Array, Collapsify_Array_fuel]
  apply Collapsify_Array_loop_congr
  intro item hmem harr
  have hcopy := depth_of_copy_lt item limit harr
  have hitem := depth_le_of_mem array item hmem
  exact Collapsify_Array_fuel_irrelevant limit _ _ _ (by omega) (Nat.lt_succ_self _)

/-- The loop of Collapsify_Array keeps the number of cells. -/
theorem Collapsify_Array_loop_length (recur : List Value → List Value) (limit : Nat) :
    ∀ (array : List Value), (Collapsify_Array_loop recur limit array).length = array.length := by
  intro array
  induction array with
  | nil => rfl
  | cons item rest ih =>
    unfold Collapsify_Array_loop
    split
    · simp [ih]
    · rfl

/-- Collapsify_Array keeps the number of cells of the array it is given. -/
theorem Collapsify_Array_length (array : List Value) (limit : Nat) :
    (Collapsify_Array array limit).length = array.length := by
  simp [Collapsify_Array, Collapsify_Array_fuel, Collapsify_Array_loop_length]

/-- A leading word is left alone by Collapsify_Array. -/
theorem Collapsify_Array_cons_word (line : Bool) (sym : REBSYM) (rest : List Value)
    (limit : Nat) :
    Collapsify_Array (Value.word line sym :: rest) limit
      = Value.word line sym :: Collapsify_Array rest limit := by
  simp [Collapsify_Array, Collapsify_Array_fuel, Collapsify_Array_loop, depth_of_cells,
    Value.depth, Value.NOT_END, Value.ANY_ARRAY]

/-- The copy loop of Make_Where_For_Frame, when it stays inside the array,
copies the `count` cells from `start` on. -/
theorem copy_loop_eq (array : List Value) (start count : Nat)
    (hin : start + count ≤ array.length) (hcnt : array.length < 2 ^ 32) :
    (List.range' 1 count).map (fun n => ARR_AT array ((start + n - 1) % 2 ^ 32))
      = (array.drop start).take count := by
  apply List.ext_getElem
  · simp; omega
  · intro i h1 h2
    simp only [List.length_map, List.length_range'] at h1
    have hmod : (start + (1 + i) - 1) % 2 ^ 32 = start + i := by
      rw [Nat.mod_eq_of_lt (by omega)]; omega
    have hlt : start + i < array.length := by omega
    have hget : ARR_AT array (start + i) = array[start + i] := by
      simp [ARR_AT, List.getD_eq_getElem?_getD, hlt]
    simp only [List.getElem_map, List.getElem_range', Nat.one_mul, hmod, hget]
    simp

/-- C9: for a function-executing frame over an array (not a `va_list`) of
current length `len`, with `expr_index ≤ index` (`expr_index` fitting a
`REBCNT`, as does `len + 1`), Make_Where_For_Frame returns the frame's label
word followed by the source cells at positions `min len expr_index` up to
`min len index - 1`, in order, collapsed at limit 3; the length of the result
is `1 + min len index - min len expr_index`. -/
theorem C9_where_of_function_frame (frame : Reb_Frame)
    (harray : FRM_IS_VALIST frame = false)
    (hmode : frame.mode = CALL_MODE_FUNCTION)
    (hexpr : frame.expr_index ≤ FRM_INDEX frame)
    (hfit : frame.expr_index < 2 ^ 32)
    (hlen : (FRM_ARRAY frame).length + 1 < 2 ^ 32) :
    Make_Where_For_Frame frame
        = Val_Init_Word (FRM_LABEL frame)
          :: Collapsify_Array
              (((FRM_ARRAY frame).drop (min (FRM_ARRAY frame).length frame.expr_index)).take
                (min (FRM_ARRAY frame).length (FRM_INDEX frame)
                  - min (FRM_ARRAY frame).length frame.expr_index)) 3
      ∧ (Make_Where_For_Frame frame).length
          = 1 + min (FRM_ARRAY frame).length (FRM_INDEX frame)
            - min (FRM_ARRAY frame).length frame.expr_index := by
  have hreify : Make_Where_For_Frame_reified frame = frame := by
    simp [Make_Where_For_Frame_reified, harray]
  have hcast : frame.expr_index % 2 ^ 32 = frame.expr_index := Nat.mod_eq_of_lt hfit
  have hse : min (FRM_ARRAY frame).length frame.expr_index
      ≤ min (FRM_ARRAY frame).length (FRM_INDEX frame) := by omega
  have hsub : (min (FRM_ARRAY frame).length (FRM_INDEX frame) + 2 ^ 32
      - min (FRM_ARRAY frame).length frame.expr_index) % 2 ^ 32
      = min (FRM_ARRAY frame).length (FRM_INDEX frame)
        - min (FRM_ARRAY frame).length frame.expr_index := by
    have h1 : min (FRM_ARRAY frame).length (FRM_INDEX frame) + 2 ^ 32
        - min (FRM_ARRAY frame).length frame.expr_index
        = (min (FRM_ARRAY frame).length (FRM_INDEX frame)
          - min (FRM_ARRAY frame).length frame.expr_index) + 2 ^ 32 := by omega
    rw [h1, Nat.add_mod_right, Nat.mod_eq_of_lt (by omega)]
  have hlenw : (1 + (min (FRM_ARRAY frame).length (FRM_INDEX frame)
      - min (FRM_ARRAY frame).length frame.expr_index) + 0) % 2 ^ 32
      = 1 + (min (FRM_ARRAY frame).length (FRM_INDEX frame)
        - min (FRM_ARRAY frame).length frame.expr_index) := by
    rw [Nat.add_zero, Nat.mod_eq_of_lt (by omega)]
  have hcopy := copy_loop_eq (FRM_ARRAY frame)
    (min (FRM_ARRAY frame).length frame.expr_index)
    (min (FRM_ARRAY frame).length (FRM_INDEX frame)
      - min (FRM_ARRAY frame).length frame.expr_index) (by omega) (by omega)
  have hwhere : Make_Where_For_Frame frame
      = Val_Init_Word (FRM_LABEL frame)
        :: Collapsify_Array
            (((FRM_ARRAY frame).drop (min (FRM_ARRAY frame).length frame.expr_index)).take
              (min (FRM_ARRAY frame).length (FRM_INDEX frame)
                - min (FRM_ARRAY frame).length frame.expr_index)) 3 := by
    unfold Make_Where_For_Frame
    simp only [hreify, hcast, hmode, hsub, beq_self_eq_true, Bool.not_true,
      Bool.false_eq_true, if_false, hlenw, Nat.add_sub_cancel_left, hcopy]
    rw [List.take_of_length_le (by simp; omega)]
    simp only [Val_Init_Word, Collapsify_Array_cons_word, List.modifyHead, Value.CLEAR_LINE]
    split <;> rfl
  refine ⟨hwhere, ?_⟩
  rw [hwhere, List.length_cons, Collapsify_Array_length, List.length_take, List.length_drop]
  omega

/-- C9 at a concrete frame: a function-executing frame over the three words
of `example_array`, with `expr_index` 0 and `index` 2. -/
theorem C9_where_of_function_frame_witness :
    FRM_IS_VALIST (example_frame_over CALL_MODE_FUNCTION example_array 0 2) = false
    ∧ (example_frame_over CALL_MODE_FUNCTION example_array 0 2).mode = CALL_MODE_FUNCTION
    ∧ (example_frame_over CALL_MODE_FUNCTION example_array 0 2).expr_index
        ≤ FRM_INDEX (example_frame_over CALL_MODE_FUNCTION example_array 0 2)
    ∧ Make_Where_For_Frame (example_frame_over CALL_MODE_FUNCTION example_array 0 2)
        = [Value.word false (REBSYM.other 7), Value.word false (REBSYM.other 10),
           Value.word false (REBSYM.other 11)]
    ∧ (Make_Where_For_Frame (example_frame_over CALL_MODE_FUNCTION example_array 0 2)
        = Val_Init_Word (FRM_LABEL (example_frame_over CALL_MODE_FUNCTION example_array 0 2))
          :: Collapsify_Array
              (((FRM_ARRAY (example_frame_over CALL_MODE_FUNCTION example_array 0 2)).drop
                (min (FRM_ARRAY (example_frame_over CALL_MODE_FUNCTION example_array 0 2)).length
                  (example_frame_over CALL_MODE_FUNCTION example_array 0 2).expr_index)).take
                (min (FRM_ARRAY (example_frame_over CALL_MODE_FUNCTION example_array 0 2)).length
                    (FRM_INDEX (example_frame_over CALL_MODE_FUNCTION example_array 0 2))
                  - min
                    (FRM_ARRAY (example_frame_over CALL_MODE_FUNCTION example_array 0 2)).length
                    (example_frame_over CALL_MODE_FUNCTION example_array 0 2).expr_index)) 3
      ∧ (Make_Where_For_Frame (example_frame_over CALL_MODE_FUNCTION example_array 0 2)).length
          = 1 + min (FRM_ARRAY (example_frame_over CALL_MODE_FUNCTION example_array 0 2)).length
              (FRM_INDEX (example_frame_over CALL_MODE_FUNCTION example_array 0 2))
            - min (FRM_ARRAY (example_frame_over CALL_MODE_FUNCTION example_array 0 2)).length
              (example_frame_over CALL_MODE_FUNCTION example_array 0 2).expr_index) :=
  ⟨rfl, rfl, by decide, rfl,
    C9_where_of_function_frame (example_frame_over CALL_MODE_FUNCTION example_array 0 2)
      rfl rfl (by decide) (by decide) (by decide)⟩

/-- C10, at the failing input: a frame gathering arguments over the three
words of `example_array`, with `expr_index` 0 and `index` 1, so that the
clamped range is [0, 1).  Make_Where_For_Frame returns four cells, not three:
the label, the cell of position 0, the cell of position 1 (which is position
`end`), and the ellipsis. -/
theorem C10_pending_where_has_one_cell_more :
    min (FRM_ARRAY (example_frame_over CALL_MODE_ARGS example_array 0 1)).length
        (example_frame_over CALL_MODE_ARGS example_array 0 1).expr_index = 0
      ∧ min (FRM_ARRAY (example_frame_over CALL_MODE_ARGS example_array 0 1)).length
        (FRM_INDEX (example_frame_over CALL_MODE_ARGS example_array 0 1)) = 1
      ∧ Make_Where_For_Frame (example_frame_over CALL_MODE_ARGS example_array 0 1)
        = [Value.word false (REBSYM.other 7), Value.word false (REBSYM.other 10),
           Value.word false (REBSYM.other 11), Value.word false REBSYM.SYM_ELLIPSIS]
      ∧ (Make_Where_For_Frame (example_frame_over CALL_MODE_ARGS example_array 0 1)).length
        = (1 - 0) + 3
      ∧ example_array[1]? = some (Value.word false (REBSYM.other 11)) := by
  refine ⟨rfl, rfl, rfl, rfl, rfl⟩

/-- The cells that Make_Where_For_Frame copies are the cells of the frame's
array at the positions of `Make_Where_For_Frame_reads`: the function written
with that list in place of its copy loop. -/
theorem Make_Where_For_Frame_copies_reads (frame : Reb_Frame) :
    Make_Where_For_Frame frame
      = (let reified := Make_Where_For_Frame_reified frame
         let start := min (FRM_ARRAY reified).length (reified.expr_index % 2 ^ 32)
         let end_ := min (FRM_ARRAY reified).length (FRM_INDEX reified)
         let pending := !(reified.mode == CALL_MODE_FUNCTION)
         let len :=
           (1 + (end_ + 2 ^ 32 - start) % 2 ^ 32 + (if pending then 1 else 0)) % 2 ^ 32
         let cells := Val_Init_Word (FRM_LABEL reified)
           :: (Make_Where_For_Frame_reads frame).map (fun p => ARR_AT (FRM_ARRAY reified) p)
         let where_ := Collapsify_Array (cells.take len) 3
         let where_ :=
           if (end_ + 2 ^ 32 - start) % 2 ^ 32 > 0 then where_.modifyHead Value.CLEAR_LINE
           else where_
         if pending then where_ ++ [Val_Init_Word REBSYM.SYM_ELLIPSIS] else where_) := by
  simp only [Make_Where_For_Frame, Make_Where_For_Frame_reads, List.map_map]
  rfl

/-- The positions `start + n - 1` for `n` from 1 to `count`, when they do not
wrap, are the `count` positions from `start` on. -/
theorem read_positions_eq (start count : Nat) (h : start + count ≤ 2 ^ 32) :
    (List.range' 1 count).map (fun n => (start + n - 1) % 2 ^ 32) = List.range' start count := by
  apply List.ext_getElem
  · simp
  · intro i h1 h2
    simp only [List.length_map, List.length_range'] at h1
    have hmod : (start + (1 + i) - 1) % 2 ^ 32 = start + i := by
      rw [Nat.mod_eq_of_lt (by omega)]; omega
    simp only [List.getElem_map, List.getElem_range', Nat.one_mul, hmod]

/-- The positions Make_Where_For_Frame reads for a frame over an array (not a
`va_list`) with `expr_index ≤ index`, all fitting a `REBCNT`: from `start` up
to `end - 1` for a function-executing frame, and from `start` up to `end`
itself for a pending frame. -/
theorem Make_Where_For_Frame_reads_of_array_frame (frame : Reb_Frame)
    (harray : FRM_IS_VALIST frame = false)
    (hexpr : frame.expr_index ≤ FRM_INDEX frame)
    (hfit : frame.expr_index < 2 ^ 32)
    (hlen : (FRM_ARRAY frame).length + 2 < 2 ^ 32) :
    Make_Where_For_Frame_reads frame
      = List.range' (min (FRM_ARRAY frame).length frame.expr_index)
          (min (FRM_ARRAY frame).length (FRM_INDEX frame)
            - min (FRM_ARRAY frame).length frame.expr_index
            + (if frame.mode = CALL_MODE_FUNCTION then 0 else 1)) := by
  have hreify : Make_Where_For_Frame_reified frame = frame := by
    simp [Make_Where_For_Frame_reified, harray]
  have hcast : frame.expr_index % 2 ^ 32 = frame.expr_index := Nat.mod_eq_of_lt hfit
  have hse : min (FRM_ARRAY frame).length frame.expr_index
      ≤ min (FRM_ARRAY frame).length (FRM_INDEX frame) := by omega
  have hsub : (min (FRM_ARRAY frame).length (FRM_INDEX frame) + 2 ^ 32
      - min (FRM_ARRAY frame).length frame.expr_index) % 2 ^ 32
      = min (FRM_ARRAY frame).length (FRM_INDEX frame)
        - min (FRM_ARRAY frame).length frame.expr_index := by
    have h1 : min (FRM_ARRAY frame).length (FRM_INDEX frame) + 2 ^ 32
        - min (FRM_ARRAY frame).length frame.expr_index
        = (min (FRM_ARRAY frame).length (FRM_INDEX frame)
          - min (FRM_ARRAY frame).length frame.expr_index) + 2 ^ 32 := by omega
    rw [h1, Nat.add_mod_right, Nat.mod_eq_of_lt (by omega)]
  unfold Make_Where_For_Frame_reads
  simp only [hreify, hcast, hsub]
  by_cases hmode : frame.mode = CALL_MODE_FUNCTION
  · simp only [hmode, beq_self_eq_true, Bool.not_true, Bool.false_eq_true, if_false, if_true,
      Nat.add_zero]
    rw [Nat.mod_eq_of_lt (by omega), Nat.add_sub_cancel_left]
    exact read_positions_eq _ _ (by omega)
  · have hbeq : (frame.mode == CALL_MODE_FUNCTION) = false := by simpa using hmode
    simp only [hbeq, Bool.not_false, if_true, hmode, if_false]
    rw [Nat.mod_eq_of_lt (by omega)]
    have hcount : 1 + (min (FRM_ARRAY frame).length (FRM_INDEX frame)
        - min (FRM_ARRAY frame).length frame.expr_index) + 1 - 1
        = min (FRM_ARRAY frame).length (FRM_INDEX frame)
          - min (FRM_ARRAY frame).length frame.expr_index + 1 := by omega
    rw [hcount]
    exact read_positions_eq _ _ (by omega)

/-- C11, at the failing inputs: a frame gathering arguments over the three
words of `example_array` whose index is at the tail (3), with `expr_index` 0;
and one whose positions both lie past the tail of the array (`expr_index` 5,
`index` 7), as after the array was shortened.  In both cases the copy loop
reads position 3, the length of the array, where the terminator is. -/
theorem C11_pending_where_reads_the_terminator :
    (FRM_ARRAY (example_frame_over CALL_MODE_ARGS example_array 0 3)).length = 3
      ∧ Make_Where_For_Frame_reads (example_frame_over CALL_MODE_ARGS example_array 0 3)
          = [0, 1, 2, 3]
      ∧ Make_Where_For_Frame_reads (example_frame_over CALL_MODE_ARGS example_array 5 7) = [3]
      ∧ ¬ (∀ p ∈ Make_Where_For_Frame_reads
              (example_frame_over CALL_MODE_ARGS example_array 0 3),
            p < (FRM_ARRAY (example_frame_over CALL_MODE_ARGS example_array 0 3)).length)
      ∧ Make_Where_For_Frame (example_frame_over CALL_MODE_ARGS example_array 5 7)
          = [Value.word false (REBSYM.other 7), Value.END,
             Value.word false REBSYM.SYM_ELLIPSIS] := by
  refine ⟨rfl, rfl, rfl, ?_, rfl⟩
  intro h
  have h3 := h 3 (by decide)
  exact absurd h3 (by decide)

/-- C26, evaluated on the code: for a function-executing frame whose
expression is the first cell of an array and whose feed is one cell further,
the clamped slice has one cell, that cell carries the line-break flag in the
source array, and the cell right after the label in the result of
Make_Where_For_Frame still carries it: the flag is cleared on the head of the
result, which is the label word. -/
theorem C26_first_copied_cell_keeps_the_line_flag :
    (min (FRM_ARRAY (example_frame_over Reb_Call_Mode.CALL_MODE_FUNCTION
            example_array_with_line 0 1)).length 1
        - min (FRM_ARRAY (example_frame_over Reb_Call_Mode.CALL_MODE_FUNCTION
            example_array_with_line 0 1)).length 0 = 1)
      ∧ (ARR_AT example_array_with_line 0).LINE = true
      ∧ Make_Where_For_Frame
          (example_frame_over Reb_Call_Mode.CALL_MODE_FUNCTION example_array_with_line 0 1)
          = [Value.word false (REBSYM.other 7), Value.word true (REBSYM.other 10)]
      ∧ (ARR_AT (Make_Where_For_Frame
          (example_frame_over Reb_Call_Mode.CALL_MODE_FUNCTION example_array_with_line 0 1))
          1).LINE = true := by
  refine ⟨rfl, rfl, rfl, rfl⟩

/-! ### Collapsify_Array -/

/-- What the loop of Collapsify_Array makes of the items of an array without
terminator cells: an item of the result that is an array is either an item
of the array with at most `limit` cells from its index, or the fresh cell
made for a longer item. -/
theorem Collapsify_Array_loop_items (recur : List Value → List Value) (limit : Nat) :
    ∀ (array : List Value), (∀ v ∈ array, v.NOT_END = true) →
      ∀ item ∈ Collapsify_Array_loop recur limit array, item.ANY_ARRAY = true →
        (item ∈ array ∧ item.VAL_LEN_AT ≤ limit)
        ∨ ∃ original ∈ array, original.ANY_ARRAY = true ∧ limit < original.VAL_LEN_AT
            ∧ item = Val_Init_Array_Index original.VAL_TYPE
                (recur ((Copy_Array_At_Max_Shallow original.VAL_ARRAY original.VAL_INDEX
                  (limit + 1)).set limit (Val_Init_Word REBSYM.SYM_ELLIPSIS))) 0 := by
  intro array
  induction array with
  | nil => intro _ item h; simp [Collapsify_Array_loop] at h
  | cons head rest ih =>
    intro hend item hmem harr
    have hhead : head.NOT_END = true := hend head (by simp)
    have hrest := ih (fun v hv => hend v (by simp [hv]))
    rw [Collapsify_Array_loop, if_pos hhead] at hmem
    rcases List.mem_cons.mp hmem with h1 | h1
    · by_cases hlong : (head.ANY_ARRAY && decide (head.VAL_LEN_AT > limit)) = true
      · rw [if_pos hlong] at h1
        simp only [Bool.and_eq_true, decide_eq_true_eq] at hlong
        exact Or.inr ⟨head, by simp, hlong.1, hlong.2, h1⟩
      · rw [if_neg hlong] at h1
        subst h1
        simp only [Bool.and_eq_true, decide_eq_true_eq, not_and, not_lt, harr,
          true_implies] at hlong
        exact Or.inl ⟨by simp, hlong⟩
    · rcases hrest item h1 harr with ⟨h2, h3⟩ | ⟨original, h2, h3⟩
      · exact Or.inl ⟨by simp [h2], h3⟩
      · exact Or.inr ⟨original, by simp [h2], h3⟩

/-- The copy made of an item with more than `limit` cells from its index has
`limit + 1` cells. -/
theorem copy_length (original : Value) (limit : Nat) (h : limit < original.VAL_LEN_AT) :
    ((Copy_Array_At_Max_Shallow original.VAL_ARRAY original.VAL_INDEX (limit + 1)).set limit
      (Val_Init_Word REBSYM.SYM_ELLIPSIS)).length = limit + 1 := by
  simp only [Value.VAL_LEN_AT] at h
  simp only [Copy_Array_At_Max_Shallow, List.length_set, List.length_take, List.length_drop]
  omega

/-- C12, counterexample: collapsing at limit 3 the sequence whose only item is
a block of one item, itself a block of five words, changes nothing: the
result holds, one level down, a sequence of five cells, more than 3 + 1. -/
theorem C12_long_block_inside_short_block :
    Collapsify_Array example_nested_in_short 3 = example_nested_in_short
      ∧ cells_nested_at_most (3 + 1) (Collapsify_Array example_nested_in_short 3) = false
      ∧ example_long_block.VAL_LEN_AT = 5 := by
  refine ⟨rfl, rfl, rfl⟩

/-- C12, amended: after collapsing at limit `L` a sequence `S` (an array
without terminator cells among its cells), every item of the result that is
a sequence has at most `L + 1` cells from its index: it is either an item of
`S` that had at most `L` cells and was left as it was, or the fresh sequence
of exactly `L + 1` cells, itself collapsed at `L`, made for an item of `S`
that had more. -/
theorem C12_items_of_collapsed_are_bounded (S : List Value) (L : Nat)
    (hS : ∀ v ∈ S, v.NOT_END = true) :
    ∀ item ∈ Collapsify_Array S L, item.ANY_ARRAY = true →
      item.VAL_LEN_AT ≤ L + 1
      ∧ ((item ∈ S ∧ item.VAL_LEN_AT ≤ L)
        ∨ ∃ original ∈ S, original.ANY_ARRAY = true ∧ L < original.VAL_LEN_AT
            ∧ item = Val_Init_Array_Index original.VAL_TYPE
                (Collapsify_Array
                  ((Copy_Array_At_Max_Shallow original.VAL_ARRAY original.VAL_INDEX
                    (L + 1)).set L (Val_Init_Word REBSYM.SYM_ELLIPSIS)) L) 0
            ∧ item.VAL_LEN_AT = L + 1) := by
  intro item hmem harr
  rw [Collapsify_Array_unfold] at hmem
  rcases Collapsify_Array_loop_items (fun copy => Collapsify_Array copy L) L S hS item hmem harr
    with ⟨h1, h2⟩ | ⟨original, h1, h2, h3, h4⟩
  · exact ⟨by omega, Or.inl ⟨h1, h2⟩⟩
  · have hlen : item.VAL_LEN_AT = L + 1 := by
      have hc := copy_length original L h3
      rw [h4]
      show (Collapsify_Array _ L).length - 0 = L + 1
      rw [Collapsify_Array_length, hc, Nat.sub_zero]
    exact ⟨by omega, Or.inr ⟨original, h1, h2, h3, h4, hlen⟩⟩

/-- C12, amended, at a concrete sequence: the block of five words as the only
item, collapsed at limit 3. -/
theorem C12_items_of_collapsed_are_bounded_witness :
    (∀ v ∈ [example_long_block], v.NOT_END = true)
    ∧ Collapsify_Array [example_long_block] 3
        = [Value.array false REB_ARRAY_KIND.REB_BLOCK
            [Value.word false (REBSYM.other 1), Value.word false (REBSYM.other 2),
             Value.word false (REBSYM.other 3), Value.word false REBSYM.SYM_ELLIPSIS] 0]
    ∧ ∀ item ∈ Collapsify_Array [example_long_block] 3, item.ANY_ARRAY = true →
      item.VAL_LEN_AT ≤ 3 + 1
      ∧ ((item ∈ [example_long_block] ∧ item.VAL_LEN_AT ≤ 3)
        ∨ ∃ original ∈ [example_long_block], original.ANY_ARRAY = true
            ∧ 3 < original.VAL_LEN_AT
            ∧ item = Val_Init_Array_Index original.VAL_TYPE
                (Collapsify_Array
                  ((Copy_Array_At_Max_Shallow original.VAL_ARRAY original.VAL_INDEX
                    (3 + 1)).set 3 (Val_Init_Word REBSYM.SYM_ELLIPSIS)) 3) 0
            ∧ item.VAL_LEN_AT = 3 + 1) :=
  ⟨by intro v hv; simp at hv; subst hv; rfl, rfl,
    C12_items_of_collapsed_are_bounded [example_long_block] 3
      (by intro v hv; simp at hv; subst hv; rfl)⟩

theorem Heap.same_outside_refl (heap : Heap) (array : Nat) :
    Heap.same_outside heap heap array :=
  ⟨Nat.le_refl _, fun _ _ _ => rfl, rfl⟩

theorem Heap.write_length (heap : Heap) (array n : Nat) (cell : Heap_Cell) :
    (heap.write array n cell).length = heap.length := by
  simp [Heap.write]

theorem Heap.write_other (heap : Heap) (array n : Nat) (cell : Heap_Cell) (id : Nat)
    (h : id ≠ array) : (heap.write array n cell)[id]? = heap[id]? := by
  simp only [Heap.write]
  exact List.getElem?_set_ne (Ne.symm h)

theorem Heap.write_cells_length (heap : Heap) (array n : Nat) (cell : Heap_Cell) :
    ((heap.write array n cell).cells array).length = (heap.cells array).length := by
  by_cases h : array < heap.length
  · simp [Heap.write, Heap.cells, List.getElem?_set_self h]
  · have h2 : heap.length ≤ array := by omega
    simp [Heap.write, Heap.cells, List.set_eq_of_length_le h2]

theorem Heap.cells_eq_of_getElem? (heap1 heap2 : Heap) (array : Nat)
    (h : heap2[array]? = heap1[array]?) : heap2.cells array = heap1.cells array := by
  simp [Heap.cells, h]

/-- The loop of Collapsify_Array writes only to the array it is given and to
the arrays made after it started, provided the nested calls do the same. -/
theorem Collapsify_Array_in_heap_loop_frame (recur : Heap → Nat → Heap) (limit array : Nat)
    (hrec : ∀ heap copy, Heap.same_outside heap (recur heap copy) copy) :
    ∀ (n i : Nat) (heap : Heap), array < heap.length →
      Heap.same_outside heap (Collapsify_Array_in_heap_loop recur limit array n i heap) array := by
  intro n
  induction n with
  | zero => intro i heap _; exact Heap.same_outside_refl heap array
  | succ n ih =>
    intro i heap harray
    rw [Collapsify_Array_in_heap_loop]
    by_cases hend : (heap.ARR_AT array i).NOT_END = true
    · by_cases hlong : ((heap.ARR_AT array i).ANY_ARRAY
          && decide (heap.VAL_LEN_AT (heap.ARR_AT array i) > limit)) = true
      · simp only [hend, hlong, if_true]
        generalize hcopy : ((heap.cells (heap.ARR_AT array i).VAL_ARRAY).drop
          (heap.ARR_AT array i).VAL_INDEX).take (limit + 1) = cells
        generalize hcell : Heap_Cell.array false (heap.ARR_AT array i).VAL_TYPE heap.length 0
          = cell
        have hne : array ≠ heap.length := by omega
        -- the heap after the copy is made and its last cell written
        have h2len : ((heap ++ [cells]).write heap.length limit
            (Heap_Cell.word false REBSYM.SYM_ELLIPSIS)).length = heap.length + 1 := by
          rw [Heap.write_length]; simp
        have h2get : ∀ id, id < heap.length →
            ((heap ++ [cells]).write heap.length limit
              (Heap_Cell.word false REBSYM.SYM_ELLIPSIS))[id]? = heap[id]? := by
          intro id hid
          rw [Heap.write_other _ _ _ _ _ (by omega), List.getElem?_append_left hid]
        -- the nested call
        obtain ⟨h3len, h3get, _⟩ := hrec ((heap ++ [cells]).write heap.length limit
          (Heap_Cell.word false REBSYM.SYM_ELLIPSIS)) heap.length
        rw [h2len] at h3len h3get
        -- the write into the array itself, and the rest of the loop
        have h4len := Heap.write_length (recur ((heap ++ [cells]).write heap.length limit
          (Heap_Cell.word false REBSYM.SYM_ELLIPSIS)) heap.length) array i cell
        obtain ⟨h5len, h5get, h5cells⟩ := ih (i + 1) _ (show array < (Heap.write (recur
          ((heap ++ [cells]).write heap.length limit
            (Heap_Cell.word false REBSYM.SYM_ELLIPSIS)) heap.length) array i cell).length by
              rw [h4len]; omega)
        rw [h4len] at h5len h5get
        refine ⟨by omega, ?_, ?_⟩
        · intro id hid hida
          rw [h5get id (by omega) hida, Heap.write_other _ _ _ _ _ hida,
            h3get id (by omega) (by omega), h2get id hid]
        · rw [h5cells, Heap.write_cells_length]
          apply congrArg List.length
          apply Heap.cells_eq_of_getElem?
          rw [h3get array (by omega) hne, h2get array harray]
      · simp only [hend, hlong, if_true, if_false]
        exact ih (i + 1) heap harray
    · simp only [hend, if_false]
      exact Heap.same_outside_refl heap array

/-- Collapsify_Array writes only to the array it is given and to arrays it
makes: every other array of the heap has the cells it had before the call,
and the array given has kept its number of cells. -/
theorem Collapsify_Array_in_heap_frame (limit : Nat) :
    ∀ (fuel : Nat) (heap : Heap) (array : Nat),
      Heap.same_outside heap (Collapsify_Array_in_heap fuel heap array limit) array := by
  intro fuel
  induction fuel with
  | zero => intro heap array; exact Heap.same_outside_refl heap array
  | succ fuel ih =>
    intro heap array
    rw [Collapsify_Array_in_heap]
    by_cases harray : array < heap.length
    · exact Collapsify_Array_in_heap_loop_frame _ limit array (fun h c => ih h c) _ 0 heap harray
    · have hnil : heap.cells array = [] := by
        simp [Heap.cells, List.getElem?_eq_none (show heap.length ≤ array by omega)]
      rw [hnil]
      simp only [List.length_nil, Collapsify_Array_in_heap_loop]
      exact Heap.same_outside_refl heap array

/-- The cells of an array are as they were after another array is added. -/
theorem Heap.cells_append_left (heap : Heap) (cells : List Heap_Cell) (id : Nat)
    (h : id < heap.length) : Heap.cells (heap ++ [cells]) id = heap.cells id := by
  simp [Heap.cells, List.getElem?_append_left h]

/-- The cells of the array just added. -/
theorem Heap.cells_append_new (heap : Heap) (cells : List Heap_Cell) :
    Heap.cells (heap ++ [cells]) heap.length = cells := by
  simp [Heap.cells]

/-- A write leaves the cells of the other arrays as they were. -/
theorem Heap.cells_write_other (heap : Heap) (array n : Nat) (cell : Heap_Cell) (id : Nat)
    (h : id ≠ array) : (heap.write array n cell).cells id = heap.cells id :=
  Heap.cells_eq_of_getElem? _ _ _ (Heap.write_other heap array n cell id h)

/-- The cells of the array written to. -/
theorem Heap.cells_write_self (heap : Heap) (array n : Nat) (cell : Heap_Cell)
    (h : array < heap.length) :
    (heap.write array n cell).cells array = (heap.cells array).set n cell := by
  simp [Heap.write, Heap.cells, List.getElem?_set_self h]

/-- The cells of an array outside the one written to. -/
theorem Heap.cells_of_same_outside (before after : Heap) (array id : Nat)
    (h : Heap.same_outside before after array) (hid : id < before.length) (hne : id ≠ array) :
    after.cells id = before.cells id :=
  Heap.cells_eq_of_getElem? _ _ _ (h.2.1 id hid hne)

/-- Every array that was in the heap has kept its number of cells. -/
theorem Heap.length_of_same_outside (before after : Heap) (array id : Nat)
    (h : Heap.same_outside before after array) (hid : id < before.length) :
    (after.cells id).length = (before.cells id).length := by
  by_cases hne : id = array
  · rw [hne]; exact h.2.2
  · rw [Heap.cells_of_same_outside before after array id h hid hne]

/-- The test of Collapsify_Array on a cell depends on the heap only through the
number of cells of the array the cell refers to. -/
theorem Heap.long_of_lengths (before after : Heap) (limit : Nat) (cell : Heap_Cell)
    (hlen : cell.ANY_ARRAY = true →
      (after.cells cell.VAL_ARRAY).length = (before.cells cell.VAL_ARRAY).length) :
    after.long limit cell = before.long limit cell := by
  unfold Heap.long Heap.VAL_LEN_AT
  cases harr : cell.ANY_ARRAY
  · rfl
  · rw [hlen harr]

/-- No cells at a position beyond the heap. -/
theorem Heap.cells_nil_of_le (heap : Heap) (id : Nat) (h : heap.length ≤ id) :
    heap.cells id = [] := by
  simp [Heap.cells, List.getElem?_eq_none h]

/-- A cell belongs to an array of the heap. -/
theorem Heap.mem_cells_lt (heap : Heap) (id : Nat) (cell : Heap_Cell)
    (h : cell ∈ heap.cells id) : id < heap.length := by
  by_cases hid : id < heap.length
  · exact hid
  · rw [Heap.cells_nil_of_le heap id (by omega)] at h
    simp at h

/-- Kept or replaced, seen from an earlier heap and a later one. -/
theorem Heap.kept_or_replaced_mono (before mid after after2 : Heap) (limit : Nat)
    (orig new : Heap_Cell) (h : Heap.kept_or_replaced mid after limit orig new)
    (hbefore : before.length ≤ mid.length) (hafter : after.length ≤ after2.length)
    (hlong : mid.long limit orig = before.long limit orig) :
    Heap.kept_or_replaced before after2 limit orig new := by
  rcases h with h | ⟨hl, copy, h1, h2, h3⟩
  · exact Or.inl h
  · exact Or.inr ⟨by rw [← hlong]; exact hl, copy, by omega, by omega, h3⟩

/-- The cell at a position of an array is one of its cells. -/
theorem Heap.mem_of_getElem? {cells : List Heap_Cell} {i : Nat} {cell : Heap_Cell}
    (h : cells[i]? = some cell) : cell ∈ cells := by
  obtain ⟨hi, rfl⟩ := List.getElem?_eq_some_iff.mp h
  exact List.getElem_mem hi

/-- The macro `ARR_AT` at a position that holds a cell. -/
theorem Heap.getD_eq_of_getElem? (cells : List Heap_Cell) (i : Nat) (cell : Heap_Cell)
    (h : cells[i]? = some cell) : cells.getD i Heap_Cell.END = cell := by
  simp [List.getD, h]

/-- The loop of Collapsify_Array from position `i` on, over a well-formed heap:
the heap stays well formed, the cells before `i` are left alone, and each
cell from `i` on is collapsed. -/
theorem Collapsify_Array_in_heap_loop_collapsed (recur : Heap → Nat → Heap)
    (limit array : Nat) (hrec : Nested_OK recur limit) :
    ∀ (n i : Nat) (heap : Heap), heap.well_formed → array < heap.length →
      i + n = (heap.cells array).length →
      (Collapsify_Array_in_heap_loop recur limit array n i heap).well_formed
      ∧ (∀ (j : Nat) (orig : Heap_Cell), j < i → (heap.cells array)[j]? = some orig →
          ((Collapsify_Array_in_heap_loop recur limit array n i heap).cells array)[j]?
            = some orig)
      ∧ (∀ (j : Nat) (orig : Heap_Cell), i ≤ j → (heap.cells array)[j]? = some orig →
          ∃ new,
            ((Collapsify_Array_in_heap_loop recur limit array n i heap).cells array)[j]?
              = some new
            ∧ Heap.collapsed_cell heap
                (Collapsify_Array_in_heap_loop recur limit array n i heap) limit array orig
                new) := by
  intro n
  induction n with
  | zero =>
    intro i heap hwf _ hlen
    refine ⟨hwf, fun j orig _ h => h, ?_⟩
    intro j orig hij h
    have hj : j < (heap.cells array).length := (List.getElem?_eq_some_iff.mp h).1
    omega
  | succ n ih =>
    intro i heap hwf harray hlen
    have hi : i < (heap.cells array).length := by omega
    obtain ⟨item, hitem⟩ : ∃ item, (heap.cells array)[i]? = some item :=
      ⟨_, List.getElem?_eq_getElem hi⟩
    have hat : heap.ARR_AT array i = item := Heap.getD_eq_of_getElem? _ _ _ hitem
    have hmem : item ∈ heap.cells array := Heap.mem_of_getElem? hitem
    have hend : item.NOT_END = true := (hwf array item hmem).1
    rw [Collapsify_Array_in_heap_loop, hat]
    have hframe := Collapsify_Array_in_heap_loop_frame recur limit array hrec.1
    by_cases hlong : (item.ANY_ARRAY && decide (heap.VAL_LEN_AT item > limit)) = true
    · simp only [hend, hlong, if_true]
      -- the copy
      have harr : item.ANY_ARRAY = true := by
        simp only [Bool.and_eq_true] at hlong; exact hlong.1
      have hsrc : limit < (heap.cells item.VAL_ARRAY).length - item.VAL_INDEX := by
        simp only [Bool.and_eq_true, decide_eq_true_eq, Heap.VAL_LEN_AT] at hlong
        exact hlong.2
      generalize hcells : ((heap.cells item.VAL_ARRAY).drop item.VAL_INDEX).take (limit + 1)
        = cells
      have hcells_len : cells.length = limit + 1 := by
        rw [← hcells, List.length_take, List.length_drop]; omega
      have hcells_mem : ∀ c ∈ cells, c ∈ heap.cells item.VAL_ARRAY := by
        intro c hc
        rw [← hcells] at hc
        exact List.mem_of_mem_drop (List.mem_of_mem_take hc)
      have hcells_get : ∀ k, k < limit + 1 →
          cells[k]? = (heap.cells item.VAL_ARRAY)[item.VAL_INDEX + k]? := by
        intro k hk
        rw [← hcells, List.getElem?_take_of_lt hk, List.getElem?_drop]
      generalize hcell : Heap_Cell.array false item.VAL_TYPE heap.length 0 = cell
      generalize hh2 : (heap ++ [cells]).write heap.length limit
        (Heap_Cell.word false REBSYM.SYM_ELLIPSIS) = h2
      have h2len : h2.length = heap.length + 1 := by
        rw [← hh2, Heap.write_length]; simp
      have h2old : ∀ id, id < heap.length → h2.cells id = heap.cells id := by
        intro id hid
        rw [← hh2, Heap.cells_write_other _ _ _ _ _ (by omega),
          Heap.cells_append_left _ _ _ hid]
      have h2copy : h2.cells heap.length
          = cells.set limit (Heap_Cell.word false REBSYM.SYM_ELLIPSIS) := by
        rw [← hh2, Heap.cells_write_self _ _ _ _ (by simp), Heap.cells_append_new]
      have h2wf : h2.well_formed := by
        intro id c hc
        have hid := Heap.mem_cells_lt h2 id c hc
        by_cases hold : id < heap.length
        · rw [h2old id hold] at hc
          have := hwf id c hc
          exact ⟨this.1, fun ha => by have := this.2 ha; omega⟩
        · have hid2 : id = heap.length := by omega
          rw [hid2, h2copy] at hc
          rcases List.mem_or_eq_of_mem_set hc with hc | hc
          · have := hwf _ c (hcells_mem c hc)
            exact ⟨this.1, fun ha => by have := this.2 ha; omega⟩
          · subst hc
            exact ⟨rfl, fun ha => by simp [Heap_Cell.ANY_ARRAY] at ha⟩
      -- the nested call
      obtain ⟨h3wf, h3cells⟩ := hrec.2 h2 heap.length h2wf (by omega)
      have h3frame := hrec.1 h2 heap.length
      generalize hh3 : recur h2 heap.length = h3 at h3wf h3cells h3frame
      have h3len : h2.length ≤ h3.length := h3frame.1
      have h3old : ∀ id, id < heap.length → h3.cells id = heap.cells id := by
        intro id hid
        rw [Heap.cells_of_same_outside h2 h3 heap.length id h3frame (by omega) (by omega),
          h2old id hid]
      have h3copy_len : (h3.cells heap.length).length = limit + 1 := by
        rw [h3frame.2.2, h2copy, List.length_set, hcells_len]
      -- the write into the array
      generalize hh4 : h3.write array i cell = h4
      have h4len : h4.length = h3.length := by rw [← hh4, Heap.write_length]
      have h4self : h4.cells array = (heap.cells array).set i cell := by
        rw [← hh4, Heap.cells_write_self _ _ _ _ (by omega), h3old array harray]
      have h4other : ∀ id, id ≠ array → h4.cells id = h3.cells id := by
        intro id hid
        rw [← hh4, Heap.cells_write_other _ _ _ _ _ hid]
      have h4wf : h4.well_formed := by
        intro id c hc
        by_cases hid : id = array
        · rw [hid, h4self] at hc
          rcases List.mem_or_eq_of_mem_set hc with hc | hc
          · have := hwf array c hc
            exact ⟨this.1, fun ha => by have := this.2 ha; omega⟩
          · subst hc
            rw [← hcell]
            exact ⟨rfl, fun _ => by simp only [Heap_Cell.VAL_ARRAY]; omega⟩
        · rw [h4other id hid] at hc
          have := h3wf id c hc
          exact ⟨this.1, fun ha => by have := this.2 ha; omega⟩
      have h4lens : ∀ id, id < heap.length → (h4.cells id).length = (heap.cells id).length := by
        intro id hid
        by_cases hida : id = array
        · rw [hida, h4self, List.length_set]
        · rw [h4other id hida, h3old id hid]
      have h4long : ∀ c id, c ∈ heap.cells id → h4.long limit c = heap.long limit c := by
        intro c id hc
        apply Heap.long_of_lengths
        intro ha
        exact h4lens _ ((hwf id c hc).2 ha)
      have h2long : ∀ c id, c ∈ heap.cells id → h2.long limit c = heap.long limit c := by
        intro c id hc
        apply Heap.long_of_lengths
        intro ha
        rw [h2old _ ((hwf id c hc).2 ha)]
      -- the rest of the loop
      obtain ⟨h5wf, h5before, h5after⟩ := ih (i + 1) h4 h4wf (by omega)
        (by rw [h4self, List.length_set]; omega)
      have h5frame := hframe n (i + 1) h4 (by omega)
      generalize hh5 : Collapsify_Array_in_heap_loop recur limit array n (i + 1) h4 = h5
        at h5wf h5before h5after h5frame
      have h5len : h4.length ≤ h5.length := h5frame.1
      have h5copy : h5.cells heap.length = h3.cells heap.length := by
        rw [Heap.cells_of_same_outside h4 h5 array heap.length h5frame (by omega) (by omega),
          h4other _ (by omega)]
      refine ⟨h5wf, ?_, ?_⟩
      · intro j orig hj hjo
        apply h5before j orig (by omega)
        rw [h4self, List.getElem?_set_ne (by omega)]
        exact hjo
      · intro j orig hij hjo
        by_cases hji : j = i
        · subst hji
          have horig : orig = item := by
            rw [hitem] at hjo; exact (Option.some.inj hjo).symm
          subst horig
          refine ⟨cell, ?_, ?_, ?_⟩
          · apply h5before j cell (by omega)
            rw [h4self, List.getElem?_set_self hi]
          · intro hnot
            have : heap.long limit orig = true := hlong
            rw [this] at hnot; cases hnot
          · intro _
            refine ⟨heap.length, Nat.le_refl _, by omega, hcell.symm, ?_, ?_, ?_⟩
            · rw [h5copy, h3copy_len]
            · rw [h5copy]
              obtain ⟨new, hnew, _, hsame⟩ := h3cells limit
                (Heap_Cell.word false REBSYM.SYM_ELLIPSIS)
                (by rw [h2copy, List.getElem?_set_self (by omega)])
              rw [hnew, hsame rfl]
            · intro _ k hk
              have hk2 : orig.VAL_INDEX + k < (heap.cells orig.VAL_ARRAY).length := by omega
              obtain ⟨source, hsource⟩ :
                  ∃ source, (heap.cells orig.VAL_ARRAY)[orig.VAL_INDEX + k]? = some source :=
                ⟨_, List.getElem?_eq_getElem hk2⟩
              obtain ⟨kept, hkept, hkr, _⟩ := h3cells k source
                (by rw [h2copy, List.getElem?_set_ne (by omega), hcells_get k (by omega)]
                    exact hsource)
              refine ⟨source, kept, hsource, by rw [h5copy]; exact hkept, ?_⟩
              exact Heap.kept_or_replaced_mono heap h2 h3 h5 limit source kept hkr (by omega)
                (by omega) (h2long source _ (Heap.mem_of_getElem? hsource))
        · have hjgt : i + 1 ≤ j := by omega
          have hmemo : orig ∈ heap.cells array := Heap.mem_of_getElem? hjo
          obtain ⟨new, hnew, hfalse, htrue⟩ := h5after j orig hjgt
            (by rw [h4self, List.getElem?_set_ne (by omega)]; exact hjo)
          have hlo := h4long orig array hmemo
          refine ⟨new, hnew, ?_, ?_⟩
          · intro hl
            exact hfalse (by rw [hlo]; exact hl)
          · intro hl
            obtain ⟨copy, hc1, hc2, hc3, hc4, hc5, hc6⟩ := htrue (by rw [hlo]; exact hl)
            refine ⟨copy, by omega, hc2, hc3, hc4, hc5, ?_⟩
            intro hne k hk
            obtain ⟨source, kept, hs, hk2, hkr⟩ := hc6 hne k hk
            have harr2 : orig.ANY_ARRAY = true := by
              simp only [Heap.long, Bool.and_eq_true] at hl; exact hl.1
            have hV : orig.VAL_ARRAY < heap.length := (hwf array orig hmemo).2 harr2
            have hsame : h4.cells orig.VAL_ARRAY = heap.cells orig.VAL_ARRAY := by
              rw [h4other _ hne, h3old _ hV]
            rw [hsame] at hs
            refine ⟨source, kept, hs, hk2, ?_⟩
            exact Heap.kept_or_replaced_mono heap h4 h5 h5 limit source kept hkr (by omega)
              (Nat.le_refl _) (h4long source _ (Heap.mem_of_getElem? hs))
    · simp only [hend, hlong, if_true, Bool.false_eq_true, if_false]
      obtain ⟨h5wf, h5before, h5after⟩ := ih (i + 1) heap hwf harray (by omega)
      refine ⟨h5wf, fun j orig hj hjo => h5before j orig (by omega) hjo, ?_⟩
      intro j orig hij hjo
      by_cases hji : j = i
      · subst hji
        have horig : orig = item := by
          rw [hitem] at hjo; exact (Option.some.inj hjo).symm
        subst horig
        refine ⟨orig, h5before j orig (by omega) hjo, fun _ => rfl, ?_⟩
        intro hl
        exact absurd hl hlong
      · exact h5after j orig (by omega) hjo

/-- A collapsed cell is kept or replaced, and kept when it is not a sequence. -/
theorem Heap.kept_or_replaced_of_collapsed (before after : Heap) (limit array : Nat)
    (orig new : Heap_Cell) (h : Heap.collapsed_cell before after limit array orig new) :
    Heap.kept_or_replaced before after limit orig new
      ∧ (orig.ANY_ARRAY = false → new = orig) := by
  constructor
  · cases hl : before.long limit orig
    · exact Or.inl (h.1 hl)
    · obtain ⟨copy, h1, h2, h3, _⟩ := h.2 hl
      exact Or.inr ⟨hl, copy, h1, h2, h3⟩
  · intro ha
    exact h.1 (by simp [Heap.long, ha])

/-- Collapsify_Array, followed to any depth, is fit to be the nested call of its
own loop. -/
theorem Collapsify_Array_in_heap_nested (limit : Nat) :
    ∀ (fuel : Nat),
      Nested_OK (fun heap copy => Collapsify_Array_in_heap fuel heap copy limit) limit := by
  intro fuel
  induction fuel with
  | zero =>
    refine ⟨fun heap array => Heap.same_outside_refl heap array, ?_⟩
    intro heap array hwf _
    exact ⟨hwf, fun i orig h => ⟨orig, h, Or.inl rfl, fun _ => rfl⟩⟩
  | succ fuel ih =>
    refine ⟨fun heap array => Collapsify_Array_in_heap_frame limit (fuel + 1) heap array, ?_⟩
    intro heap array hwf harray
    obtain ⟨h1, _, h3⟩ := Collapsify_Array_in_heap_loop_collapsed
      (fun heap copy => Collapsify_Array_in_heap fuel heap copy limit) limit array ih
      (heap.cells array).length 0 heap hwf harray (Nat.zero_add _)
    refine ⟨h1, ?_⟩
    intro i orig hi
    obtain ⟨new, hnew, hcol⟩ := h3 i orig (Nat.zero_le _) hi
    have := Heap.kept_or_replaced_of_collapsed _ _ _ _ _ _ hcol
    exact ⟨new, hnew, this.1, this.2⟩

/-- Well-formedness, checked array by array. -/
theorem Heap.well_formed_of_forall (heap : Heap)
    (h : ∀ cells ∈ heap, ∀ cell ∈ cells,
      cell.NOT_END = true ∧ (cell.ANY_ARRAY = true → cell.VAL_ARRAY < heap.length)) :
    heap.well_formed := by
  intro id cell hc
  have hid := Heap.mem_cells_lt heap id cell hc
  have hcells : heap.cells id = heap[id] := by
    simp [Heap.cells, List.getD, List.getElem?_eq_getElem hid]
  rw [hcells] at hc
  exact h _ (List.getElem_mem hid) cell hc

/-- The heap of the examples is well formed. -/
theorem example_heap_well_formed : example_heap.well_formed :=
  Heap.well_formed_of_forall example_heap (by decide)

/-- C13, counterexample: in `example_heap` the array 0 (the sequence `S`) has
one item, a block of five words held in the array 1.  After
`Collapsify_Array(S, 3)`, however deep the nested calls are followed, the
cell of `S` has been overwritten: it is a block over the new array 2.  Read
as a value, `S` was a block of five words in a sequence and is a block of
three words and an ellipsis in a sequence. -/
theorem C13_collapsing_overwrites_the_cells_of_S :
    (∀ k : Nat, Collapsify_Array_in_heap (k + 2) example_heap 0 3
        = [[Heap_Cell.array false REB_ARRAY_KIND.REB_BLOCK 2 0],
           [Heap_Cell.word false (REBSYM.other 1), Heap_Cell.word false (REBSYM.other 2),
            Heap_Cell.word false (REBSYM.other 3), Heap_Cell.word false (REBSYM.other 4),
            Heap_Cell.word false (REBSYM.other 5)],
           [Heap_Cell.word false (REBSYM.other 1), Heap_Cell.word false (REBSYM.other 2),
            Heap_Cell.word false (REBSYM.other 3),
            Heap_Cell.word false REBSYM.SYM_ELLIPSIS]])
      ∧ (Collapsify_Array_in_heap 2 example_heap 0 3).cells 0 ≠ example_heap.cells 0
      ∧ Collapsify_Array [example_long_block] 3 ≠ [example_long_block] := by
  refine ⟨fun k => rfl, by decide, ?_⟩
  have h : Collapsify_Array [example_long_block] 3
      = [Value.array false REB_ARRAY_KIND.REB_BLOCK
          [Value.word false (REBSYM.other 1), Value.word false (REBSYM.other 2),
           Value.word false (REBSYM.other 3), Value.word false REBSYM.SYM_ELLIPSIS] 0] := rfl
  rw [h]
  simp [example_long_block]

/-- C13, amended: `Collapsify_Array(S, L)` writes to `S` itself and to the
copies it makes, and to nothing else.  To whatever depth the nested calls
are followed, every array that was in memory before the call, other than
`S`, has after the call the cells it had before it (so every sequence nested
in `S` is as it was), the copies are new arrays, and `S` has kept its number
of cells.  And on a well-formed heap that holds `S`, each item of `S` is
collapsed: an item that is not a sequence longer than `L` is left as it was,
and a sequence longer than `L` is overwritten with a cell of the same kind at
index 0 for a new array of `L + 1` cells, the first `L` cells of the original
from its index (each kept, or itself replaced by a cell for a new array)
followed by the ellipsis word. -/
theorem C13_collapsing_writes_only_S_and_fresh_copies (fuel : Nat) (heap : Heap) (S L : Nat) :
    (heap.length ≤ (Collapsify_Array_in_heap fuel heap S L).length
      ∧ (∀ id, id < heap.length → id ≠ S →
          (Collapsify_Array_in_heap fuel heap S L)[id]? = heap[id]?)
      ∧ ((Collapsify_Array_in_heap fuel heap S L).cells S).length = (heap.cells S).length)
    ∧ (heap.well_formed → S < heap.length →
        ∀ (i : Nat) (item : Heap_Cell), (heap.cells S)[i]? = some item →
          ∃ new, ((Collapsify_Array_in_heap (fuel + 1) heap S L).cells S)[i]? = some new
            ∧ Heap.collapsed_cell heap (Collapsify_Array_in_heap (fuel + 1) heap S L) L S
                item new) := by
  refine ⟨Collapsify_Array_in_heap_frame L fuel heap S, ?_⟩
  intro hwf hS i item hi
  exact (Collapsify_Array_in_heap_loop_collapsed
    (fun heap copy => Collapsify_Array_in_heap fuel heap copy L) L S
    (Collapsify_Array_in_heap_nested L fuel) (heap.cells S).length 0 heap hwf hS
    (Nat.zero_add _)).2.2 i item (Nat.zero_le _) hi

/-- C13, amended, at the heap of the examples: the block of five words in
`S` is overwritten with a block over the new array 2, which holds three
words and the ellipsis; the array 1 is as it was. -/
theorem C13_collapsing_writes_only_S_and_fresh_copies_witness :
    example_heap.well_formed
    ∧ 0 < example_heap.length
    ∧ (example_heap.cells 0)[0]? = some (Heap_Cell.array false REB_ARRAY_KIND.REB_BLOCK 1 0)
    ∧ example_heap.long 3 (Heap_Cell.array false REB_ARRAY_KIND.REB_BLOCK 1 0) = true
    ∧ Collapsify_Array_in_heap 2 example_heap 0 3
        = [[Heap_Cell.array false REB_ARRAY_KIND.REB_BLOCK 2 0],
           [Heap_Cell.word false (REBSYM.other 1), Heap_Cell.word false (REBSYM.other 2),
            Heap_Cell.word false (REBSYM.other 3), Heap_Cell.word false (REBSYM.other 4),
            Heap_Cell.word false (REBSYM.other 5)],
           [Heap_Cell.word false (REBSYM.other 1), Heap_Cell.word false (REBSYM.other 2),
            Heap_Cell.word false (REBSYM.other 3),
            Heap_Cell.word false REBSYM.SYM_ELLIPSIS]]
    ∧ ∃ new, ((Collapsify_Array_in_heap (1 + 1) example_heap 0 3).cells 0)[0]? = some new
        ∧ Heap.collapsed_cell example_heap (Collapsify_Array_in_heap (1 + 1) example_heap 0 3)
            3 0 (Heap_Cell.array false REB_ARRAY_KIND.REB_BLOCK 1 0) new :=
  ⟨example_heap_well_formed, by decide, rfl, rfl, rfl,
    (C13_collapsing_writes_only_S_and_fresh_copies 1 example_heap 0 3).2 example_heap_well_formed
      (by decide) 0 (Heap_Cell.array false REB_ARRAY_KIND.REB_BLOCK 1 0) rfl⟩

/-! ### Reify_Va_To_Array_In_Frame -/

/-- The loop of Reify_Va_To_Array_In_Frame on a `va_list` feed whose values
not yet fetched are `rest`, none of them a terminator: it pushes the
lookahead and then `rest`, and leaves the feed at its end. -/
theorem Reify_Va_do_while_drains :
    ∀ (rest : List Value) (feed : Reb_Feed) (ds : List Value),
      feed.vaptr = some rest → (∀ v ∈ rest, v.NOT_END = true) →
      Reify_Va_do_while (rest.length + 1) feed ds
        = ({ feed with value := Value.END, vaptr := none, pending := Reb_Pending.TRASH },
           ds ++ feed.value :: rest) := by
  intro rest
  induction rest with
  | nil =>
    intro feed ds hva _
    simp [Reify_Va_do_while, Fetch_Next_Forget_Lookback, hva, Value.NOT_END]
  | cons v rest ih =>
    intro feed ds hva hrest
    have hv : v.NOT_END = true := hrest v (by simp)
    have hih := ih { feed with value := v, vaptr := some rest } (ds ++ [feed.value]) rfl
      (fun w hw => hrest w (by simp [hw]))
    have hfetch : Fetch_Next_Forget_Lookback feed
        = { feed with value := v, vaptr := some rest } := by
      simp [Fetch_Next_Forget_Lookback, hva]
    rw [List.length_cons, Reify_Va_do_while]
    simp only [hfetch, hv, if_true]
    rw [hih]
    simp

/-- The feed after Reify_Va_To_Array_In_Frame, for a `va_list` feed whose
values not yet fetched are `rest`, none of them a terminator, and whose
lookahead is not the terminator. -/
theorem Reify_Va_To_Array_In_Feed_of_value (feed : Reb_Feed) (truncated : Bool)
    (rest : List Value) (hva : feed.vaptr = some rest)
    (hrest : ∀ v ∈ rest, v.NOT_END = true) (hvalue : feed.value.NOT_END = true) :
    Reify_Va_To_Array_In_Feed feed truncated
      = { feed with
          value := feed.value, vaptr := none,
          pending := Reb_Pending.AT ((if truncated then 1 else 0) + 1),
          array := (if truncated then [truncation_marker] else []) ++ feed.value :: rest,
          index := if truncated then 2 else 1,
          took_hold := true, hold := true, managed := true } := by
  have hdrain := Reify_Va_do_while_drains rest feed
    (if truncated then [Val_Init_Word REBSYM.SYM___OPTIMIZED_OUT__] else []) hva hrest
  simp only [Reify_Va_To_Array_In_Feed, hvalue, if_true, hva, Option.getD_some, hdrain,
    truncation_marker]
  cases truncated <;> simp [ARR_AT]

/-- The feed after Reify_Va_To_Array_In_Frame when the lookahead is the
terminator. -/
theorem Reify_Va_To_Array_In_Feed_of_end (feed : Reb_Feed) (truncated : Bool)
    (hvalue : feed.value.NOT_END = false) :
    Reify_Va_To_Array_In_Feed feed truncated
      = { feed with
          value := Value.END,
          pending := Reb_Pending.AT ((if truncated then 1 else 0) + 1),
          array := if truncated then [truncation_marker] else [],
          index := 0,
          took_hold := true, hold := true, managed := true } := by
  simp only [Reify_Va_To_Array_In_Feed, hvalue, Bool.false_eq_true, if_false,
    truncation_marker]
  cases truncated <;> simp [ARR_AT]

/-- C14: on a frame whose feed reads a `va_list` with values `rest` still to
fetch (none of them a terminator), Reify_Va_To_Array_In_Frame makes the array
of the truncation marker, when `truncated` is true, followed by the remaining
values, the lookahead first; afterwards the lookahead is the first of the
remaining values, or the terminator when nothing remained; the array is held
and the feed has its took-hold flag; the index is 2 or 1 (with or without
marker) when a value remained and 0 otherwise; and the index does not exceed
the length of the array. -/
theorem C14_reify_makes_the_array_of_remaining_values (f : Reb_Frame) (truncated : Bool)
    (rest : List Value) (hva : f.feed.vaptr = some rest)
    (hrest : ∀ v ∈ rest, v.NOT_END = true) :
    (Reify_Va_To_Array_In_Frame f truncated).feed.array
        = (if truncated then [truncation_marker] else []) ++ remaining_values f.feed
      ∧ (Reify_Va_To_Array_In_Frame f truncated).feed.value
          = (remaining_values f.feed).headD Value.END
      ∧ (Reify_Va_To_Array_In_Frame f truncated).feed.hold = true
      ∧ (Reify_Va_To_Array_In_Frame f truncated).feed.took_hold = true
      ∧ (Reify_Va_To_Array_In_Frame f truncated).feed.index
          = (if (remaining_values f.feed).isEmpty then 0 else if truncated then 2 else 1)
      ∧ (Reify_Va_To_Array_In_Frame f truncated).feed.index
          ≤ (Reify_Va_To_Array_In_Frame f truncated).feed.array.length := by
  by_cases hvalue : f.feed.value.NOT_END = true
  · have h := Reify_Va_To_Array_In_Feed_of_value f.feed truncated rest hva hrest hvalue
    simp only [Reify_Va_To_Array_In_Frame, h, remaining_values, hvalue, if_true, hva,
      Option.getD_some]
    cases truncated <;> simp
  · have hvalue2 : f.feed.value.NOT_END = false := by simpa using hvalue
    have h := Reify_Va_To_Array_In_Feed_of_end f.feed truncated hvalue2
    simp only [Reify_Va_To_Array_In_Frame, h, remaining_values, hvalue2]
    cases truncated <;> simp

/-- C14 at a concrete frame: the `va_list` of the words 10, 11 and 12 as
prepared, reified with `truncated` true. -/
theorem C14_reify_makes_the_array_of_remaining_values_witness :
    (example_va_frame example_array).feed.vaptr
        = some [Value.word false (REBSYM.other 11), Value.word false (REBSYM.other 12)]
    ∧ (∀ v ∈ [Value.word false (REBSYM.other 11), Value.word false (REBSYM.other 12)],
        v.NOT_END = true)
    ∧ (Reify_Va_To_Array_In_Frame (example_va_frame example_array) true).feed.array
        = [Value.word false REBSYM.SYM___OPTIMIZED_OUT__, Value.word false (REBSYM.other 10),
           Value.word false (REBSYM.other 11), Value.word false (REBSYM.other 12)]
    ∧ ((Reify_Va_To_Array_In_Frame (example_va_frame example_array) true).feed.array
        = (if true then [truncation_marker] else [])
          ++ remaining_values (example_va_frame example_array).feed
      ∧ (Reify_Va_To_Array_In_Frame (example_va_frame example_array) true).feed.value
          = (remaining_values (example_va_frame example_array).feed).headD Value.END
      ∧ (Reify_Va_To_Array_In_Frame (example_va_frame example_array) true).feed.hold = true
      ∧ (Reify_Va_To_Array_In_Frame (example_va_frame example_array) true).feed.took_hold
          = true
      ∧ (Reify_Va_To_Array_In_Frame (example_va_frame example_array) true).feed.index
          = (if (remaining_values (example_va_frame example_array).feed).isEmpty then 0
              else if true then 2 else 1)
      ∧ (Reify_Va_To_Array_In_Frame (example_va_frame example_array) true).feed.index
          ≤ (Reify_Va_To_Array_In_Frame (example_va_frame example_array)
              true).feed.array.length) :=
  ⟨rfl, by intro v hv; simp at hv; rcases hv with h | h <;> subst h <;> rfl, rfl,
    C14_reify_makes_the_array_of_remaining_values (example_va_frame example_array) true
      [Value.word false (REBSYM.other 11), Value.word false (REBSYM.other 12)] rfl
      (by intro v hv; simp at hv; rcases hv with h | h <;> subst h <;> rfl)⟩

/-- C15, counterexample: the frame's feed is the `va_list` of the words 10, 11
and 12 as prepared, no value consumed.  The reification that
Make_Where_For_Frame forces gives it an array that begins with the
truncation marker. -/
theorem C15_where_marks_an_unconsumed_feed :
    (example_va_frame example_array).feed = va_feed_prepared example_array
      ∧ FRM_IS_VALIST (example_va_frame example_array) = true
      ∧ (Make_Where_For_Frame_reified (example_va_frame example_array)).feed.array
          = [Value.word false REBSYM.SYM___OPTIMIZED_OUT__, Value.word false (REBSYM.other 10),
             Value.word false (REBSYM.other 11), Value.word false (REBSYM.other 12)] := by
  refine ⟨rfl, rfl, rfl⟩

/-- C15, amended: whether the array begins with the truncation marker is the
caller's choice, not a matter of what was consumed.  On a frame whose feed
reads a `va_list` (values `rest` still to fetch, none a terminator),
Reify_Va_To_Array_In_Frame called with `truncated` true makes the marker
followed by the remaining values, called with `truncated` false makes the
remaining values alone, and Make_Where_For_Frame, which always passes true,
makes the marker followed by the remaining values. -/
theorem C15_marker_follows_the_truncated_argument (f : Reb_Frame) (rest : List Value)
    (hva : f.feed.vaptr = some rest) (hrest : ∀ v ∈ rest, v.NOT_END = true) :
    (Reify_Va_To_Array_In_Frame f true).feed.array
        = truncation_marker :: remaining_values f.feed
      ∧ (Reify_Va_To_Array_In_Frame f false).feed.array = remaining_values f.feed
      ∧ (Make_Where_For_Frame_reified f).feed.array
          = truncation_marker :: remaining_values f.feed := by
  have hvalist : FRM_IS_VALIST f = true := by simp [FRM_IS_VALIST, hva]
  have key : ∀ truncated : Bool, (Reify_Va_To_Array_In_Frame f truncated).feed.array
      = (if truncated then [truncation_marker] else []) ++ remaining_values f.feed := by
    intro truncated
    by_cases hvalue : f.feed.value.NOT_END = true
    · have h := Reify_Va_To_Array_In_Feed_of_value f.feed truncated rest hva hrest hvalue
      simp only [Reify_Va_To_Array_In_Frame, h, remaining_values, hvalue, if_true, hva,
        Option.getD_some]
    · have hvalue2 : f.feed.value.NOT_END = false := by simpa using hvalue
      have h := Reify_Va_To_Array_In_Feed_of_end f.feed truncated hvalue2
      simp only [Reify_Va_To_Array_In_Frame, h, remaining_values, hvalue2]
      cases truncated <;> simp
  refine ⟨by simpa using key true, by simpa using key false, ?_⟩
  simp only [Make_Where_For_Frame_reified, hvalist, if_true]
  simpa using key true

/-- C15, amended, at a concrete frame: the `va_list` of the words 10, 11 and
12 as prepared. -/
theorem C15_marker_follows_the_truncated_argument_witness :
    (example_va_frame example_array).feed.vaptr
        = some [Value.word false (REBSYM.other 11), Value.word false (REBSYM.other 12)]
    ∧ (∀ v ∈ [Value.word false (REBSYM.other 11), Value.word false (REBSYM.other 12)],
        v.NOT_END = true)
    ∧ ((Reify_Va_To_Array_In_Frame (example_va_frame example_array) true).feed.array
        = truncation_marker :: remaining_values (example_va_frame example_array).feed
      ∧ (Reify_Va_To_Array_In_Frame (example_va_frame example_array) false).feed.array
          = remaining_values (example_va_frame example_array).feed
      ∧ (Make_Where_For_Frame_reified (example_va_frame example_array)).feed.array
          = truncation_marker :: remaining_values (example_va_frame example_array).feed) :=
  ⟨rfl, by intro v hv; simp at hv; rcases hv with h | h <;> subst h <;> rfl,
    C15_marker_follows_the_truncated_argument (example_va_frame example_array)
      [Value.word false (REBSYM.other 11), Value.word false (REBSYM.other 12)] rfl
      (by intro v hv; simp at hv; rcases hv with h | h <;> subst h <;> rfl)⟩

/-- C16: the reification step of Make_Where_For_Frame, `if (FRM_IS_VALIST(frame))
Reify_Va_To_Array_In_Frame(frame, truncated)`, is idempotent: taken a second
time it leaves the frame, and so the feed with its array, lookahead, index
and flags, as the first left it (the values of the `va_list` still to fetch
being no terminators).  When a value remained, the feed no longer reads a
`va_list` after the first time, and the second time nothing is run. -/
theorem C16_reification_is_idempotent (frame : Reb_Frame)
    (hrest : ∀ rest, frame.feed.vaptr = some rest → ∀ v ∈ rest, v.NOT_END = true) :
    Make_Where_For_Frame_reified (Make_Where_For_Frame_reified frame)
        = Make_Where_For_Frame_reified frame
      ∧ (frame.feed.value.NOT_END = true →
          FRM_IS_VALIST (Make_Where_For_Frame_reified frame) = false) := by
  cases hva : frame.feed.vaptr with
  | none =>
    have hvalist : FRM_IS_VALIST frame = false := by simp [FRM_IS_VALIST, hva]
    simp [Make_Where_For_Frame_reified, hvalist]
  | some rest =>
    have hvalist : FRM_IS_VALIST frame = true := by simp [FRM_IS_VALIST, hva]
    by_cases hvalue : frame.feed.value.NOT_END = true
    · have h := Reify_Va_To_Array_In_Feed_of_value frame.feed true rest hva
        (hrest rest hva) hvalue
      have hone : FRM_IS_VALIST (Make_Where_For_Frame_reified frame) = false := by
        rw [Make_Where_For_Frame_reified, if_pos hvalist]
        simp [Reify_Va_To_Array_In_Frame, h, FRM_IS_VALIST]
      refine ⟨?_, fun _ => hone⟩
      generalize Make_Where_For_Frame_reified frame = once at hone
      simp [Make_Where_For_Frame_reified, hone]
    · have hvalue2 : frame.feed.value.NOT_END = false := by simpa using hvalue
      have h := Reify_Va_To_Array_In_Feed_of_end frame.feed true hvalue2
      have hone : Make_Where_For_Frame_reified frame
          = Reify_Va_To_Array_In_Frame frame true := by
        rw [Make_Where_For_Frame_reified, if_pos hvalist]
      have hstill : FRM_IS_VALIST (Reify_Va_To_Array_In_Frame frame true) = true := by
        simp [Reify_Va_To_Array_In_Frame, h, FRM_IS_VALIST, hva]
      have htwice : Reify_Va_To_Array_In_Feed (Reify_Va_To_Array_In_Feed frame.feed true) true
          = Reify_Va_To_Array_In_Feed frame.feed true := by
        rw [h]
        exact Reify_Va_To_Array_In_Feed_of_end _ true rfl
      refine ⟨?_, fun hv => absurd hv hvalue⟩
      rw [hone, Make_Where_For_Frame_reified, if_pos hstill]
      simp only [Reify_Va_To_Array_In_Frame, htwice]

/-- C16 at a concrete frame: the `va_list` of the words 10, 11 and 12 as
prepared. -/
theorem C16_reification_is_idempotent_witness :
    (∀ rest, (example_va_frame example_array).feed.vaptr = some rest →
        ∀ v ∈ rest, v.NOT_END = true)
    ∧ (Make_Where_For_Frame_reified (Make_Where_For_Frame_reified
          (example_va_frame example_array))
        = Make_Where_For_Frame_reified (example_va_frame example_array)
      ∧ ((example_va_frame example_array).feed.value.NOT_END = true →
          FRM_IS_VALIST (Make_Where_For_Frame_reified (example_va_frame example_array))
            = false)) :=
  have hrest : ∀ rest, (example_va_frame example_array).feed.vaptr = some rest →
      ∀ v ∈ rest, v.NOT_END = true := by
    intro rest h v hv
    have h2 : rest = [Value.word false (REBSYM.other 11), Value.word false (REBSYM.other 12)] :=
      (Option.some.inj h).symm
    subst h2
    simp at hv
    rcases hv with h3 | h3 <;> subst h3 <;> rfl
  ⟨hrest, C16_reification_is_idempotent (example_va_frame example_array) hrest⟩

/-! ### RUNNING? and PENDING? -/

/-- C17: for every frame handle, RUNNING? and PENDING? are never both true;
RUNNING? is true exactly when the frame is accessible and its mode is
function-executing; PENDING? is true exactly when it is accessible and its
mode is argument-gathering or refinement-pickup; a guard-only frame gives
false for both; and a stack-based context that is no longer accessible gives
false for both. -/
theorem C17_running_and_pending_exclude_each_other (frame_ctx : REBCTX) :
    ¬ (N_running_q frame_ctx = true ∧ N_pending_q frame_ctx = true)
      ∧ (N_running_q frame_ctx = true
          ↔ frame_ctx.is_accessible = true ∧ frame_ctx.frame.mode = CALL_MODE_FUNCTION)
      ∧ (N_pending_q frame_ctx = true
          ↔ frame_ctx.is_accessible = true
            ∧ (frame_ctx.frame.mode = CALL_MODE_ARGS
              ∨ frame_ctx.frame.mode = CALL_MODE_REFINEMENT_PICKUP))
      ∧ (frame_ctx.frame.mode = CALL_MODE_GUARD_ARRAY_ONLY →
          N_running_q frame_ctx = false ∧ N_pending_q frame_ctx = false)
      ∧ (frame_ctx.stack = true → frame_ctx.accessible = false →
          N_running_q frame_ctx = false ∧ N_pending_q frame_ctx = false) := by
  obtain ⟨stack, accessible, frame⟩ := frame_ctx
  cases stack <;> cases accessible <;> cases hmode : frame.mode <;>
    simp [N_running_q, N_pending_q, REBCTX.is_accessible, hmode]

/-! ### Direct lookup and BACKTRACE-INDEX -/

/-- One turn of the second loop in direct-lookup mode, on a frame that is not
guard-only. -/
theorem backtrace_loop_lookup (level : Value) (brief : Bool) (max_rows : Nat)
    (frame : Reb_Frame) (prior : List Reb_Frame) (pos row number : Nat) (first : Bool)
    (index : Nat) (backtrace : List Value) (hg : ¬ frame.mode = CALL_MODE_GUARD_ARRAY_ONLY) :
    backtrace_loop level true brief max_rows (frame :: prior) pos row number first index
        backtrace
      = if (if level.IS_INTEGER then
              decide ((listing_number frame number first : Int) ≠ level.VAL_INT32 % 2 ^ 32)
            else decide (some frame.func ≠ level.VAL_FUNC)) = true then
          backtrace_loop level true brief max_rows prior (pos + 1) (row + 1)
            (listing_number frame number first) false index backtrace
        else Backtrace_Exit.returned pos := by
  rw [backtrace_loop, if_neg hg]
  rfl

/-- The first match skips a guard-only frame. -/
theorem first_match_guard (level : Value) (frame : Reb_Frame) (prior : List Reb_Frame)
    (pos number : Nat) (first : Bool) (hg : frame.mode = CALL_MODE_GUARD_ARRAY_ONLY) :
    first_match level (frame :: prior) pos number first
      = first_match level prior (pos + 1) number first := by
  simp only [first_match, lookup_candidates, if_pos hg]

/-- The first match at a frame that is not guard-only: that frame when it
matches, else the first match further down. -/
theorem first_match_cons (level : Value) (frame : Reb_Frame) (prior : List Reb_Frame)
    (pos number : Nat) (first : Bool) (hg : ¬ frame.mode = CALL_MODE_GUARD_ARRAY_ONLY) :
    first_match level (frame :: prior) pos number first
      = if lookup_matches level frame (listing_number frame number first) then some pos
        else first_match level prior (pos + 1) (listing_number frame number first) false := by
  simp only [first_match, lookup_candidates, if_neg hg, List.map_cons, listing_numbers,
    List.zip_cons_cons, List.find?_cons]
  cases hm : lookup_matches level frame (listing_number frame number first) <;> simp

/-- In direct-lookup mode, for a selector in its domain, the second loop
returns the first candidate that matches the selector, and is left at its
end with `index` and `backtrace` as they were when none does. -/
theorem backtrace_loop_first_match (level : Value) (brief : Bool) (max_rows : Nat)
    (hdomain : level.IS_INTEGER = true → 0 ≤ level.VAL_INT32) :
    ∀ (frames : List Reb_Frame) (pos row number : Nat) (first : Bool) (index : Nat)
      (backtrace : List Value),
      backtrace_loop level true brief max_rows frames pos row number first index backtrace
        = match first_match level frames pos number first with
          | some p => Backtrace_Exit.returned p
          | none => Backtrace_Exit.left index backtrace := by
  intro frames
  induction frames with
  | nil => intro pos row number first index backtrace; rw [backtrace_loop]; rfl
  | cons frame prior ih =>
    intro pos row number first index backtrace
    by_cases hg : frame.mode = CALL_MODE_GUARD_ARRAY_ONLY
    · rw [backtrace_loop, if_pos hg, ih, first_match_guard level frame prior pos number first hg]
    · rw [backtrace_loop_lookup level brief max_rows frame prior pos row number first index
        backtrace hg]
      have hmatch : (if level.IS_INTEGER then
            decide ((listing_number frame number first : Int) ≠ level.VAL_INT32 % 2 ^ 32)
          else decide (some frame.func ≠ level.VAL_FUNC))
          = !lookup_matches level frame (listing_number frame number first) := by
        unfold lookup_matches
        by_cases hint : level.IS_INTEGER = true
        · have h0 := hdomain hint
          have hrange := VAL_INT32_range level
          have hmod : level.VAL_INT32 % 2 ^ 32 = level.VAL_INT32 := by omega
          simp only [hint, if_true, hmod, ne_eq, decide_not]
        · simp only [hint, Bool.false_eq_true, if_false, ne_eq, decide_not]
      rw [hmatch, first_match_cons level frame prior pos number first hg]
      cases hm : lookup_matches level frame (listing_number frame number first)
      · simp only [Bool.not_false, if_true, Bool.false_eq_true, if_false]
        exact ih _ _ _ _ _ _
      · simp only [Bool.not_true, Bool.false_eq_true, if_false, if_true]

/-- In direct-lookup mode with a callable that none of the frames runs, no
candidate matches. -/
theorem first_match_no_function (line : Bool) (func : REBFUN) :
    ∀ (frames : List Reb_Frame), (∀ frame ∈ frames, frame.func ≠ func) →
      ∀ (pos number : Nat) (first : Bool),
        first_match (Value.function line func) frames pos number first = none := by
  intro frames
  induction frames with
  | nil => intro _ pos number first; rfl
  | cons frame prior ih =>
    intro hno pos number first
    have hrest := ih (fun f hf => hno f (by simp [hf]))
    have hne : frame.func ≠ func := hno frame (by simp)
    by_cases hg : frame.mode = CALL_MODE_GUARD_ARRAY_ONLY
    · rw [first_match_guard _ frame prior pos number first hg]
      exact hrest _ _ _
    · rw [first_match_cons _ frame prior pos number first hg, hrest]
      simp [lookup_matches, Value.IS_INTEGER, Value.VAL_FUNC, hne]

/-- In direct-lookup mode with an integer whose 32-bit value is above the
number the loop has reached plus the number of frames still to walk, no
candidate matches. -/
theorem first_match_no_level (level : Value) (hint : level.IS_INTEGER = true) :
    ∀ (frames : List Reb_Frame) (pos number : Nat) (first : Bool),
      ((number + frames.length : Nat) : Int) < level.VAL_INT32 →
        first_match level frames pos number first = none := by
  intro frames
  induction frames with
  | nil => intro pos number first _; rfl
  | cons frame prior ih =>
    intro pos number first hn
    rw [List.length_cons] at hn
    by_cases hg : frame.mode = CALL_MODE_GUARD_ARRAY_ONLY
    · rw [first_match_guard _ frame prior pos number first hg]
      exact ih _ _ _ (by omega)
    · have hle : listing_number frame number first ≤ number + 1 := by
        unfold listing_number
        split
        · split <;> omega
        · omega
      have hne : ¬ ((listing_number frame number first : Int) = level.VAL_INT32) := by omega
      rw [first_match_cons _ frame prior pos number first hg,
        ih (pos + 1) (listing_number frame number first) false (by omega)]
      simp [lookup_matches, hint, hne]

/-- What the first match is: a frame beneath the position the walk starts at,
not guard-only; it runs the callable when the selector is one. -/
theorem first_match_is_candidate (level : Value) :
    ∀ (frames : List Reb_Frame) (pos number : Nat) (first : Bool) (p : Nat),
      first_match level frames pos number first = some p →
      ∃ k frame, p = pos + k ∧ frames[k]? = some frame
        ∧ frame.mode ≠ CALL_MODE_GUARD_ARRAY_ONLY
        ∧ (level.IS_INTEGER = false → some frame.func = level.VAL_FUNC) := by
  intro frames
  induction frames with
  | nil => intro pos number first p h; simp [first_match, lookup_candidates] at h
  | cons frame prior ih =>
    intro pos number first p h
    by_cases hg : frame.mode = CALL_MODE_GUARD_ARRAY_ONLY
    · rw [first_match_guard _ frame prior pos number first hg] at h
      obtain ⟨k, f, hp, hk, hrest⟩ := ih (pos + 1) number first p h
      exact ⟨k + 1, f, by omega, by simpa using hk, hrest⟩
    · rw [first_match_cons _ frame prior pos number first hg] at h
      cases hm : lookup_matches level frame (listing_number frame number first)
      · rw [hm] at h
        simp only [Bool.false_eq_true, if_false] at h
        obtain ⟨k, f, hp, hk, hrest⟩ :=
          ih (pos + 1) (listing_number frame number first) false p h
        exact ⟨k + 1, f, by omega, by simpa using hk, hrest⟩
      · rw [hm] at h
        simp only [if_true, Option.some.injEq] at h
        refine ⟨0, frame, by omega, by simp, hg, ?_⟩
        intro hint
        simpa [lookup_matches, hint] using hm

/-- C18, counterexample: beneath the asking native run two ordinary calls; the
selector 5 matches no frame, nor does the callable `example_func 9`, and the
native returns blank for both: it does not fail. -/
theorem C18_no_match_returns_blank :
    N_backtrace example_stack_two (Value.integer false 5) false Value.void false false
        = Backtrace_Result.R_BLANK
      ∧ N_backtrace example_stack_two (Value.function false (example_func 9)) false Value.void
          false false = Backtrace_Result.R_BLANK
      ∧ (∀ error, N_backtrace example_stack_two (Value.integer false 5) false Value.void false
          false ≠ Backtrace_Result.fail error) := by
  have h : N_backtrace example_stack_two (Value.integer false 5) false Value.void false false
      = Backtrace_Result.R_BLANK := rfl
  refine ⟨h, rfl, ?_⟩
  intro error
  rw [h]
  exact fun hcontra => Backtrace_Result.noConfusion hcontra

/-- The native in direct-lookup mode, without /limit and /brief, for a
selector in its domain: what it returns follows from how the second loop ends. -/
theorem N_backtrace_lookup (stack : List Reb_Frame) (level : Value) (frames : Value)
    (only : Bool) (hlevel : level.is_lookup_selector = true) :
    N_backtrace stack level false frames false only
      = match backtrace_loop level true false 20 (stack.drop 1) 1 0 0 true 0 [] with
        | Backtrace_Exit.returned frame => Backtrace_Result.R_OUT_FRAME frame
        | Backtrace_Exit.left _ _ => Backtrace_Result.R_BLANK := by
  cases level with
  | integer line n =>
    have hn : ¬ (Value.integer line n).VAL_INT32 < 0 := by
      simp only [Value.is_lookup_selector, decide_eq_true_eq] at hlevel
      omega
    simp only [N_backtrace, N_backtrace_walk, Value.IS_VOID, Value.IS_BLANK, Bool.or_self,
      Bool.not_false, Bool.and_false, Bool.false_eq_true, if_false, backtrace_max_rows,
      Value.IS_INTEGER, Bool.and_self, Bool.true_and, hn, decide_False,
      if_true, List.replicate_zero]
    split <;> simp_all
  | function line func =>
    simp only [N_backtrace, N_backtrace_walk, Value.IS_VOID, Value.IS_BLANK, Bool.or_self,
      Bool.not_false, Bool.and_false, Bool.false_eq_true, if_false, backtrace_max_rows,
      Value.IS_INTEGER, Bool.and_self, Bool.false_and, Bool.and_false, if_true,
      List.replicate_zero]
    split <;> simp_all
  | _ => simp [Value.is_lookup_selector] at hlevel

/-- C18, amended: a direct lookup for which no frame matches returns blank.
For every call stack and every selector that is a callable or an integer
whose 32-bit value is not negative, the native (without /limit and /brief)
does not fail: it returns the FRAME! of the first frame beneath the caller,
not guard-only, that matches the selector (a frame that runs the callable, or
a frame at which the level count of the listing is the 32-bit value of the
integer), and blank when no frame matches; so it returns blank for a callable
that no frame beneath the caller runs and for an integer whose 32-bit value
is above the number of frames beneath the caller. -/
theorem C18_direct_lookup_returns_first_match_or_blank (stack : List Reb_Frame)
    (level frames : Value) (only : Bool) (hlevel : level.is_lookup_selector = true) :
    N_backtrace stack level false frames false only
        = (match first_match level (stack.drop 1) 1 0 true with
          | some p => Backtrace_Result.R_OUT_FRAME p
          | none => Backtrace_Result.R_BLANK)
      ∧ (∀ error, N_backtrace stack level false frames false only
          ≠ Backtrace_Result.fail error)
      ∧ (∀ p, first_match level (stack.drop 1) 1 0 true = some p →
          ∃ frame, 1 ≤ p ∧ stack[p]? = some frame
            ∧ frame.mode ≠ CALL_MODE_GUARD_ARRAY_ONLY
            ∧ (level.IS_INTEGER = false → some frame.func = level.VAL_FUNC))
      ∧ (∀ line func, level = Value.function line func →
          (∀ frame ∈ stack.drop 1, frame.func ≠ func) →
          N_backtrace stack level false frames false only = Backtrace_Result.R_BLANK)
      ∧ (level.IS_INTEGER = true → ((stack.drop 1).length : Int) < level.VAL_INT32 →
          N_backtrace stack level false frames false only = Backtrace_Result.R_BLANK) := by
  have hdomain : level.IS_INTEGER = true → 0 ≤ level.VAL_INT32 := by
    intro hint
    cases level with
    | integer line n => simpa [Value.is_lookup_selector] using hlevel
    | _ => simp [Value.IS_INTEGER] at hint
  have hmain : N_backtrace stack level false frames false only
      = (match first_match level (stack.drop 1) 1 0 true with
        | some p => Backtrace_Result.R_OUT_FRAME p
        | none => Backtrace_Result.R_BLANK) := by
    rw [N_backtrace_lookup stack level frames only hlevel,
      backtrace_loop_first_match level false 20 hdomain (stack.drop 1) 1 0 0 true 0 []]
    cases first_match level (stack.drop 1) 1 0 true <;> rfl
  refine ⟨hmain, ?_, ?_, ?_, ?_⟩
  · intro error
    rw [hmain]
    cases first_match level (stack.drop 1) 1 0 true <;>
      exact fun hcontra => Backtrace_Result.noConfusion hcontra
  · intro p hp
    obtain ⟨k, frame, hpk, hk, hmode, hfunc⟩ :=
      first_match_is_candidate level (stack.drop 1) 1 0 true p hp
    refine ⟨frame, by omega, ?_, hmode, hfunc⟩
    rw [List.getElem?_drop] at hk
    rw [hpk]; exact hk
  · intro line func hl hno
    subst hl
    rw [hmain, first_match_no_function line func (stack.drop 1) hno]
  · intro hint hn
    rw [hmain, first_match_no_level level hint (stack.drop 1) 1 0 true (by omega)]

/-- C18, amended, at concrete calls with two ordinary calls beneath the
caller: the selector 2 gives the frame of the second call, the selector 5
gives blank, and the selector 4294967297, whose 32-bit value is 1, gives the
frame of the first call. -/
theorem C18_direct_lookup_returns_first_match_or_blank_witness :
    (Value.integer false 5).is_lookup_selector = true
    ∧ (Value.integer false 5).IS_INTEGER = true
    ∧ ((example_stack_two.drop 1).length : Int) < (Value.integer false 5).VAL_INT32
    ∧ N_backtrace example_stack_two (Value.integer false 5) false Value.void false false
        = Backtrace_Result.R_BLANK
    ∧ (Value.integer false 2).is_lookup_selector = true
    ∧ N_backtrace example_stack_two (Value.integer false 2) false Value.void false false
        = Backtrace_Result.R_OUT_FRAME 2
    ∧ N_backtrace example_stack_two (Value.integer false 4294967297) false Value.void false
        false = Backtrace_Result.R_OUT_FRAME 1
    ∧ N_backtrace example_stack_two (Value.integer false 2) false Value.void false false
        = (match first_match (Value.integer false 2) (example_stack_two.drop 1) 1 0 true with
          | some p => Backtrace_Result.R_OUT_FRAME p
          | none => Backtrace_Result.R_BLANK) :=
  ⟨by decide, rfl, by decide,
    (C18_direct_lookup_returns_first_match_or_blank example_stack_two (Value.integer false 5)
      Value.void false (by decide)).2.2.2.2 rfl (by decide),
    by decide, rfl, rfl,
    (C18_direct_lookup_returns_first_match_or_blank example_stack_two (Value.integer false 2)
      Value.void false (by decide)).1⟩

/-- C19, at the failing input: beneath the asking native run two nested
ordinary calls, of `example_func 1` (position 1) and `example_func 2`
(position 2).  The listing writes level 2 for the frame of `example_func 2`,
and BACKTRACE-INDEX of `example_func 2` finds that frame but returns 1. -/
theorem C19_backtrace_index_of_second_frame_is_one :
    N_backtrace example_stack_two Value.void false Value.void false true
        = Backtrace_Result.R_OUT (Val_Init_Block
            [Value.integer true 2, Val_Init_Block [Value.word false (REBSYM.other 2)],
             Value.integer true 1, Val_Init_Block [Value.word false (REBSYM.other 1)]])
      ∧ (example_stack_two[2]?).map (fun frame => (frame.func, FRM_LABEL frame, frame.mode))
          = some (example_func 2, REBSYM.other 2, CALL_MODE_FUNCTION)
      ∧ Frame_For_Stack_Level example_stack_two (Value.function false (example_func 2)) true
          = some (2, 1)
      ∧ N_backtrace_index example_stack_two (Value.function false (example_func 2))
          = Backtrace_Result.R_OUT (Value.integer false 1) := by
  refine ⟨rfl, rfl, rfl, rfl⟩

/-! ### Did_Inert_Optimization -/

/-- C20: when the lookahead of the feed is of an inert kind, the default
evaluator hook is installed, and the value that follows is neither a word
bound to an enfixed variable nor a path, Did_Inert_Optimization returns true,
the output cell holds the inert value, the flags are as they were, and the
feed has advanced by exactly that value: it is the feed after one fetch, with
the no-lookahead flag clear and, when the following value is a word, with
`gotten` the variable of that word. -/
theorem C20_inert_fast_path (ANY_INERT : Value → Bool)
    (Try_Get_Opt_Var : Value → Option Reb_Gotten) (out : Value) (feed : Reb_Feed)
    (flags : REBFLGS)
    (hinert : ANY_INERT feed.value = true)
    (hword : (Fetch_Next_Forget_Lookback feed).value.KIND_BYTE = REB_KIND.REB_WORD →
      ∀ gotten, Try_Get_Opt_Var (Fetch_Next_Forget_Lookback feed).value = some gotten →
        gotten.enfixed = false)
    (hpath : (Fetch_Next_Forget_Lookback feed).value.KIND_BYTE
      ≠ REB_KIND.array REB_ARRAY_KIND.REB_PATH) :
    (Did_Inert_Optimization ANY_INERT Try_Get_Opt_Var true out feed flags).result = true
      ∧ (Did_Inert_Optimization ANY_INERT Try_Get_Opt_Var true out feed flags).out = feed.value
      ∧ (Did_Inert_Optimization ANY_INERT Try_Get_Opt_Var true out feed flags).flags = flags
      ∧ (Did_Inert_Optimization ANY_INERT Try_Get_Opt_Var true out feed flags).feed
          = { Fetch_Next_Forget_Lookback feed with
              no_lookahead := false
              gotten :=
                if (Fetch_Next_Forget_Lookback feed).value.KIND_BYTE = REB_KIND.REB_WORD then
                  Try_Get_Opt_Var (Fetch_Next_Forget_Lookback feed).value
                else (Fetch_Next_Forget_Lookback feed).gotten } := by
  generalize hnext : Fetch_Next_Forget_Lookback feed = next at hword hpath
  by_cases hw : next.value.KIND_BYTE = REB_KIND.REB_WORD
  · cases hg : Try_Get_Opt_Var next.value with
    | none =>
      simp [Did_Inert_Optimization, Literal_Next_In_Feed, hinert, hnext, hw, hg]
    | some gotten =>
      have he := hword hw gotten hg
      simp [Did_Inert_Optimization, Literal_Next_In_Feed, hinert, hnext, hw, hg, he]
  · by_cases hno : next.no_lookahead = true
    · simp [Did_Inert_Optimization, Literal_Next_In_Feed, hinert, hnext, hw, hno]
    · have hno2 : next.no_lookahead = false := by simpa using hno
      simp [Did_Inert_Optimization, Literal_Next_In_Feed, hinert, hnext, hw, hno2, hpath]
      rw [← hno2]

/-- C20 at a concrete feed: the integer 1 followed by a word that is bound to
no variable. -/
theorem C20_inert_fast_path_witness :
    example_ANY_INERT example_inert_feed.value = true
    ∧ ((Fetch_Next_Forget_Lookback example_inert_feed).value.KIND_BYTE = REB_KIND.REB_WORD →
      ∀ gotten, (fun _ => (none : Option Reb_Gotten))
          (Fetch_Next_Forget_Lookback example_inert_feed).value = some gotten →
        gotten.enfixed = false)
    ∧ (Fetch_Next_Forget_Lookback example_inert_feed).value.KIND_BYTE
        ≠ REB_KIND.array REB_ARRAY_KIND.REB_PATH
    ∧ (Did_Inert_Optimization example_ANY_INERT (fun _ => none) true Value.END
          example_inert_feed example_flags).feed.value
        = Value.word false (REBSYM.other 10)
    ∧ ((Did_Inert_Optimization example_ANY_INERT (fun _ => none) true Value.END
          example_inert_feed example_flags).result = true
      ∧ (Did_Inert_Optimization example_ANY_INERT (fun _ => none) true Value.END
          example_inert_feed example_flags).out = example_inert_feed.value
      ∧ (Did_Inert_Optimization example_ANY_INERT (fun _ => none) true Value.END
          example_inert_feed example_flags).flags = example_flags
      ∧ (Did_Inert_Optimization example_ANY_INERT (fun _ => none) true Value.END
          example_inert_feed example_flags).feed
          = { Fetch_Next_Forget_Lookback example_inert_feed with
              no_lookahead := false
              gotten :=
                if (Fetch_Next_Forget_Lookback example_inert_feed).value.KIND_BYTE
                    = REB_KIND.REB_WORD then
                  (fun _ => (none : Option Reb_Gotten))
                    (Fetch_Next_Forget_Lookback example_inert_feed).value
                else (Fetch_Next_Forget_Lookback example_inert_feed).gotten }) :=
  ⟨by decide, (by intro _ gotten h; cases h), by decide, rfl,
    C20_inert_fast_path example_ANY_INERT (fun _ => none) Value.END example_inert_feed
      example_flags (by decide) (by intro _ gotten h; cases h) (by decide)⟩


/-- A fetch leaves the no-lookahead flag of the feed as it was. -/
theorem Fetch_Next_Forget_Lookback_no_lookahead (feed : Reb_Feed) :
    (Fetch_Next_Forget_Lookback feed).no_lookahead = feed.no_lookahead := by
  unfold Fetch_Next_Forget_Lookback
  split <;> rfl

/-- C28, the claim fails: with the no-lookahead flag set on entry, an inert
lookahead followed by a word bound to a soft-quoting enfixed action is
yielded at once (true, flags untouched); with the flag clear on entry the
function returns false and requests post-switch. -/
theorem C28_soft_quote_yields_under_suppression :
    (example_enfix_feed true).no_lookahead = true
      ∧ (Did_Inert_Optimization example_ANY_INERT
          (example_enfix_lookup true false Reb_Param_Class.REB_P_SOFT_QUOTE []) true Value.END
          (example_enfix_feed true) example_flags).result = true
      ∧ (Did_Inert_Optimization example_ANY_INERT
          (example_enfix_lookup true false Reb_Param_Class.REB_P_SOFT_QUOTE []) true Value.END
          (example_enfix_feed true) example_flags).flags = example_flags
      ∧ (Did_Inert_Optimization example_ANY_INERT
          (example_enfix_lookup true false Reb_Param_Class.REB_P_SOFT_QUOTE []) true Value.END
          (example_enfix_feed false) example_flags).result = false
      ∧ (Did_Inert_Optimization example_ANY_INERT
          (example_enfix_lookup true false Reb_Param_Class.REB_P_SOFT_QUOTE []) true Value.END
          (example_enfix_feed false) example_flags).flags.post_switch = true := by
  refine ⟨rfl, rfl, rfl, rfl, rfl⟩

/-- C28, amended: when the lookahead is inert, the default hook is installed
and the value that follows is a word bound to an enfixed action that quotes
its first argument with a soft quote, Did_Inert_Optimization returns true
with the flags untouched exactly when the no-lookahead flag was set on
entry; when it was clear, the function returns false with post-switch
requested. -/
theorem C28_soft_quote_yields_iff_suppressed (ANY_INERT : Value → Bool)
    (Try_Get_Opt_Var : Value → Option Reb_Gotten) (out : Value) (feed : Reb_Feed)
    (flags : REBFLGS) (gotten : Reb_Gotten)
    (hinert : ANY_INERT feed.value = true)
    (hword : (Fetch_Next_Forget_Lookback feed).value.KIND_BYTE = REB_KIND.REB_WORD)
    (hgotten : Try_Get_Opt_Var (Fetch_Next_Forget_Lookback feed).value = some gotten)
    (henfix : gotten.enfixed = true) (hquotes : gotten.action.quotes_first = true)
    (hsoft : gotten.action.first_param_class = Reb_Param_Class.REB_P_SOFT_QUOTE) :
    (feed.no_lookahead = true →
        (Did_Inert_Optimization ANY_INERT Try_Get_Opt_Var true out feed flags).result = true
        ∧ (Did_Inert_Optimization ANY_INERT Try_Get_Opt_Var true out feed flags).flags = flags
        ∧ (Did_Inert_Optimization ANY_INERT Try_Get_Opt_Var true out feed flags).out
            = feed.value)
      ∧ (feed.no_lookahead = false →
        (Did_Inert_Optimization ANY_INERT Try_Get_Opt_Var true out feed flags).result = false
        ∧ (Did_Inert_Optimization ANY_INERT Try_Get_Opt_Var true out feed flags).flags
            = flags.with_post_switch) := by
  have hno := Fetch_Next_Forget_Lookback_no_lookahead feed
  generalize hnext : Fetch_Next_Forget_Lookback feed = next at hword hgotten hno
  constructor
  · intro h
    rw [h] at hno
    simp [Did_Inert_Optimization, Literal_Next_In_Feed, hinert, hnext, hword, hgotten, henfix,
      hquotes, hsoft, hno]
  · intro h
    rw [h] at hno
    simp [Did_Inert_Optimization, Literal_Next_In_Feed, hinert, hnext, hword, hgotten, henfix,
      hquotes, hno, REBFLGS.with_post_switch]

/-- C28, amended, at a concrete feed: the integer 1 followed by a word bound
to a soft-quoting enfixed action. -/
theorem C28_soft_quote_yields_iff_suppressed_witness :
    example_ANY_INERT (example_enfix_feed true).value = true
    ∧ (example_enfix_feed true).no_lookahead = true
    ∧ (Did_Inert_Optimization example_ANY_INERT
        (example_enfix_lookup true false Reb_Param_Class.REB_P_SOFT_QUOTE []) true Value.END
        (example_enfix_feed true) example_flags).result = true :=
  ⟨by decide, rfl,
    ((C28_soft_quote_yields_iff_suppressed example_ANY_INERT
      (example_enfix_lookup true false Reb_Param_Class.REB_P_SOFT_QUOTE []) Value.END
      (example_enfix_feed true) example_flags
      { enfixed := true,
        action := { id := 1, quotes_first := true, skippable_first := false,
                    first_param_class := Reb_Param_Class.REB_P_SOFT_QUOTE,
                    first_param_types := [] } }
      (by decide) (by decide) rfl rfl rfl rfl).1 rfl).1⟩


/-- C29, the claim fails: with the no-lookahead flag set on entry and the
default hook installed, an inert lookahead followed by a word bound to an
enfixed action that quotes its first argument by a hard quote is not
yielded: the function returns false and sets the post-switch flag. -/
theorem C29_hard_quote_defeats_suppression :
    example_ANY_INERT (example_enfix_feed true).value = true
      ∧ (example_enfix_feed true).no_lookahead = true
      ∧ (Did_Inert_Optimization example_ANY_INERT
          (example_enfix_lookup true false Reb_Param_Class.REB_P_HARD_QUOTE []) true Value.END
          (example_enfix_feed true) example_flags).result = false
      ∧ (Did_Inert_Optimization example_ANY_INERT
          (example_enfix_lookup true false Reb_Param_Class.REB_P_HARD_QUOTE []) true Value.END
          (example_enfix_feed true) example_flags).flags.post_switch = true := by
  refine ⟨by decide, rfl, rfl, rfl⟩

/-- C29, amended: for every inert lookahead with the default hook installed
and the no-lookahead flag set on entry, Did_Inert_Optimization returns true
with the flags untouched, whatever value follows, unless that value is a
word bound to an enfixed action that quotes its first argument other than
by a soft quote; then it returns false with post-switch requested.  In both
cases the output cell holds the inert value and the no-lookahead flag is
clear afterwards. -/
theorem C29_suppressed_lookahead_yields_unless_hard_quote (ANY_INERT : Value → Bool)
    (Try_Get_Opt_Var : Value → Option Reb_Gotten) (out : Value) (feed : Reb_Feed)
    (flags : REBFLGS)
    (hinert : ANY_INERT feed.value = true) (hsuppressed : feed.no_lookahead = true) :
    (¬ followed_by_hard_quoting_enfix Try_Get_Opt_Var feed →
        (Did_Inert_Optimization ANY_INERT Try_Get_Opt_Var true out feed flags).result = true
        ∧ (Did_Inert_Optimization ANY_INERT Try_Get_Opt_Var true out feed flags).flags = flags)
      ∧ (followed_by_hard_quoting_enfix Try_Get_Opt_Var feed →
        (Did_Inert_Optimization ANY_INERT Try_Get_Opt_Var true out feed flags).result = false
        ∧ (Did_Inert_Optimization ANY_INERT Try_Get_Opt_Var true out feed flags).flags
            = flags.with_post_switch)
      ∧ (Did_Inert_Optimization ANY_INERT Try_Get_Opt_Var true out feed flags).out = feed.value
      ∧ (Did_Inert_Optimization ANY_INERT Try_Get_Opt_Var true out feed flags).feed.no_lookahead
          = false := by
  have hno := Fetch_Next_Forget_Lookback_no_lookahead feed
  rw [hsuppressed] at hno
  unfold followed_by_hard_quoting_enfix
  generalize hnext : Fetch_Next_Forget_Lookback feed = next at hno
  by_cases hw : next.value.KIND_BYTE = REB_KIND.REB_WORD
  · cases hg : Try_Get_Opt_Var next.value with
    | none =>
      simp [Did_Inert_Optimization, Literal_Next_In_Feed, hinert, hnext, hw, hg]
    | some gotten =>
      by_cases he : gotten.enfixed = true
      · by_cases hq : gotten.action.quotes_first = true
        · by_cases hs : gotten.action.first_param_class = Reb_Param_Class.REB_P_SOFT_QUOTE
          · simp [Did_Inert_Optimization, Literal_Next_In_Feed, hinert, hnext, hw, hg, he, hq, hs,
              hno]
          · simp [Did_Inert_Optimization, Literal_Next_In_Feed, hinert, hnext, hw, hg, he, hq, hs,
              hno, REBFLGS.with_post_switch]
        · simp [Did_Inert_Optimization, Literal_Next_In_Feed, hinert, hnext, hw, hg, he, hq, hno]
      · simp [Did_Inert_Optimization, Literal_Next_In_Feed, hinert, hnext, hw, hg, he]
  · simp [Did_Inert_Optimization, Literal_Next_In_Feed, hinert, hnext, hw, hno]

/-- C29, amended, at a concrete feed: the integer 1 followed by a word bound
to an enfixed action that does not quote, with the no-lookahead flag set. -/
theorem C29_suppressed_lookahead_yields_unless_hard_quote_witness :
    example_ANY_INERT (example_enfix_feed true).value = true
    ∧ (example_enfix_feed true).no_lookahead = true
    ∧ (Did_Inert_Optimization example_ANY_INERT
        (example_enfix_lookup false false Reb_Param_Class.REB_P_NORMAL []) true Value.END
        (example_enfix_feed true) example_flags).out = Value.integer false 1 :=
  ⟨by decide, rfl,
    (C29_suppressed_lookahead_yields_unless_hard_quote example_ANY_INERT
      (example_enfix_lookup false false Reb_Param_Class.REB_P_NORMAL []) Value.END
      (example_enfix_feed true) example_flags (by decide) rfl).2.2.1⟩

/-- C30: when the lookahead is inert, the default hook is installed, and the
value that follows is a word bound to an enfixed action that does not quote
its first argument, whose first parameter is skippable and does not accept
the kind of the inert value, Did_Inert_Optimization returns true, the output
cell holds the inert value, and the flags are as they were (post-switch is
not set), whether the no-lookahead flag was set on entry or not. -/
theorem C30_skippable_first_parameter_rejects (ANY_INERT : Value → Bool)
    (Try_Get_Opt_Var : Value → Option Reb_Gotten) (out : Value) (feed : Reb_Feed)
    (flags : REBFLGS) (gotten : Reb_Gotten)
    (hinert : ANY_INERT feed.value = true)
    (hword : (Fetch_Next_Forget_Lookback feed).value.KIND_BYTE = REB_KIND.REB_WORD)
    (hgotten : Try_Get_Opt_Var (Fetch_Next_Forget_Lookback feed).value = some gotten)
    (henfix : gotten.enfixed = true) (hquotes : gotten.action.quotes_first = false)
    (hskip : gotten.action.skippable_first = true)
    (htype : gotten.action.first_param_types.contains feed.value.KIND_BYTE = false) :
    (Did_Inert_Optimization ANY_INERT Try_Get_Opt_Var true out feed flags).result = true
      ∧ (Did_Inert_Optimization ANY_INERT Try_Get_Opt_Var true out feed flags).out = feed.value
      ∧ (Did_Inert_Optimization ANY_INERT Try_Get_Opt_Var true out feed flags).flags = flags := by
  generalize hnext : Fetch_Next_Forget_Lookback feed = next at hword hgotten
  by_cases hno : next.no_lookahead = true
  · simp [Did_Inert_Optimization, Literal_Next_In_Feed, hinert, hnext, hword, hgotten, henfix,
      hquotes, hno]
  · have hno2 : next.no_lookahead = false := by simpa using hno
    have htype2 : feed.value.KIND_BYTE ∉ gotten.action.first_param_types := by
      simpa using htype
    simp [Did_Inert_Optimization, Literal_Next_In_Feed, hinert, hnext, hword, hgotten, henfix,
      hquotes, hno2, hskip, htype2]

/-- C30 at a concrete feed: the integer 1 followed by a word bound to an
enfixed action whose skippable first parameter accepts only words, with the
no-lookahead flag clear. -/
theorem C30_skippable_first_parameter_rejects_witness :
    example_ANY_INERT (example_enfix_feed false).value = true
    ∧ (example_enfix_feed false).no_lookahead = false
    ∧ ((Did_Inert_Optimization example_ANY_INERT
        (example_enfix_lookup false true Reb_Param_Class.REB_P_NORMAL [REB_KIND.REB_WORD])
        true Value.END (example_enfix_feed false) example_flags).result = true
      ∧ (Did_Inert_Optimization example_ANY_INERT
        (example_enfix_lookup false true Reb_Param_Class.REB_P_NORMAL [REB_KIND.REB_WORD])
        true Value.END (example_enfix_feed false) example_flags).out
          = (example_enfix_feed false).value
      ∧ (Did_Inert_Optimization example_ANY_INERT
        (example_enfix_lookup false true Reb_Param_Class.REB_P_NORMAL [REB_KIND.REB_WORD])
        true Value.END (example_enfix_feed false) example_flags).flags = example_flags) :=
  ⟨by decide, rfl,
    C30_skippable_first_parameter_rejects example_ANY_INERT
      (example_enfix_lookup false true Reb_Param_Class.REB_P_NORMAL [REB_KIND.REB_WORD])
      Value.END (example_enfix_feed false) example_flags
      { enfixed := true,
        action := { id := 1, quotes_first := false, skippable_first := true,
                    first_param_class := Reb_Param_Class.REB_P_NORMAL,
                    first_param_types := [REB_KIND.REB_WORD] } }
      (by decide) (by decide) rfl rfl rfl rfl (by decide)⟩


/-- Over cells none of which is a terminator, the loop of Collapsify_Array maps
each cell on its own. -/
theorem Collapsify_Array_loop_map (recur : List Value → List Value) (limit : Nat) :
    ∀ (array : List Value), (∀ v ∈ array, v.NOT_END = true) →
      Collapsify_Array_loop recur limit array
        = array.map (fun item =>
            if item.ANY_ARRAY && decide (item.VAL_LEN_AT > limit) then
              Val_Init_Array_Index item.VAL_TYPE
                (recur ((Copy_Array_At_Max_Shallow item.VAL_ARRAY item.VAL_INDEX
                  (limit + 1)).set limit (Val_Init_Word REBSYM.SYM_ELLIPSIS))) 0
            else item) := by
  intro array
  induction array with
  | nil => intro _; rfl
  | cons item rest ih =>
    intro h
    have h1 : item.NOT_END = true := h item (by simp)
    rw [Collapsify_Array_loop, if_pos h1, ih (fun v hv => h v (by simp [hv]))]
    rfl

/-- A trailing word is left alone by the loop of Collapsify_Array. -/
theorem Collapsify_Array_loop_append_word (recur : List Value → List Value) (limit : Nat)
    (line : Bool) (sym : REBSYM) :
    ∀ (array : List Value),
      Collapsify_Array_loop recur limit (array ++ [Value.word line sym])
        = Collapsify_Array_loop recur limit array ++ [Value.word line sym] := by
  intro array
  induction array with
  | nil => simp [Collapsify_Array_loop, Value.NOT_END, Value.ANY_ARRAY]
  | cons item rest ih =>
    rw [List.cons_append, Collapsify_Array_loop, Collapsify_Array_loop]
    by_cases h1 : item.NOT_END = true
    · rw [if_pos h1, if_pos h1, ih]; rfl
    · rw [if_neg h1, if_neg h1]; rfl

/-- A trailing word is left alone by Collapsify_Array. -/
theorem Collapsify_Array_append_word (array : List Value) (limit : Nat) (line : Bool)
    (sym : REBSYM) :
    Collapsify_Array (array ++ [Value.word line sym]) limit
      = Collapsify_Array array limit ++ [Value.word line sym] := by
  rw [Collapsify_Array_unfold, Collapsify_Array_loop_append_word, ← Collapsify_Array_unfold]

/-- Overwriting the last cell of a copy of `limit + 1` cells. -/
theorem take_succ_set (cells : List Value) (limit : Nat) (x : Value) (h : limit < cells.length) :
    (cells.take (limit + 1)).set limit x = cells.take limit ++ [x] := by
  induction cells generalizing limit with
  | nil => simp at h
  | cons c rest ih =>
    cases limit with
    | zero => simp
    | succ n =>
      have h2 : n < rest.length := by simpa using h
      simp [ih n h2]

/-- C27: for an array S none of whose cells is a terminator, Collapsify_Array
keeps the length of S; an item that is not a sequence, or a sequence with at
most L cells from its index, is left as it was; an item that is a sequence
with more than L cells from its index is replaced by a fresh cell of the same
kind at index 0 over a new array of exactly L + 1 cells: the first L cells of
the original from its index, themselves collapsed at L, then the ellipsis
word. -/
theorem C27_collapsify_array_described (S : List Value) (L : Nat)
    (hS : ∀ v ∈ S, v.NOT_END = true) :
    (Collapsify_Array S L).length = S.length
      ∧ ∀ (i : Nat) (item : Value), S[i]? = some item →
        (item.is_long L = false → (Collapsify_Array S L)[i]? = some item)
        ∧ (item.is_long L = true →
            (Collapsify_Array S L)[i]?
                = some (Value.array false item.VAL_TYPE
                    (Collapsify_Array (item.first_cells L) L
                      ++ [Value.word false REBSYM.SYM_ELLIPSIS]) 0)
            ∧ (Collapsify_Array (item.first_cells L) L
                ++ [Value.word false REBSYM.SYM_ELLIPSIS]).length = L + 1) := by
  refine ⟨Collapsify_Array_length S L, ?_⟩
  intro i item hi
  rw [Collapsify_Array_unfold, Collapsify_Array_loop_map _ _ _ hS, List.getElem?_map, hi]
  constructor
  · intro h
    simp only [Value.is_long] at h
    simp only [Option.map_some', h]
    rfl
  · intro h
    simp only [Value.is_long] at h
    have hlen : L < (item.VAL_ARRAY.drop item.VAL_INDEX).length := by
      have h2 := h
      simp only [Bool.and_eq_true, decide_eq_true_eq, Value.VAL_LEN_AT] at h2
      rw [List.length_drop]
      exact h2.2
    constructor
    · simp only [Option.map_some', h, if_true, Copy_Array_At_Max_Shallow]
      rw [take_succ_set _ _ _ hlen]
      simp only [Val_Init_Word]
      rw [Collapsify_Array_append_word]
      rfl
    · rw [List.length_append, Collapsify_Array_length, Value.first_cells, List.length_take,
        List.length_singleton, Nat.min_eq_left (Nat.le_of_lt hlen)]

/-- C27 at a concrete array: a word, a block of five words and a group of two
words, collapsed at limit 3. -/
theorem C27_collapsify_array_described_witness :
    (∀ v ∈ example_mixed_array, v.NOT_END = true)
    ∧ example_mixed_array[1]? = some example_long_block
    ∧ example_long_block.is_long 3 = true
    ∧ (Collapsify_Array example_mixed_array 3)[1]?
        = some (Value.array false example_long_block.VAL_TYPE
            (Collapsify_Array (example_long_block.first_cells 3) 3
              ++ [Value.word false REBSYM.SYM_ELLIPSIS]) 0)
    ∧ Collapsify_Array example_mixed_array 3
        = [Value.word true (REBSYM.other 10),
           Value.array false REB_ARRAY_KIND.REB_BLOCK
             [Value.word false (REBSYM.other 1), Value.word false (REBSYM.other 2),
              Value.word false (REBSYM.other 3), Value.word false REBSYM.SYM_ELLIPSIS] 0,
           Value.array true REB_ARRAY_KIND.REB_GROUP
             [Value.word false (REBSYM.other 1), Value.word false (REBSYM.other 2)] 0] :=
  ⟨(by intro v hv
       simp only [example_mixed_array, List.mem_cons, List.mem_singleton, List.not_mem_nil,
         or_false] at hv
       rcases hv with rfl | rfl | rfl <;> rfl),
    rfl, rfl,
    (((C27_collapsify_array_described example_mixed_array 3
      (by intro v hv
          simp only [example_mixed_array, List.mem_cons, List.mem_singleton, List.not_mem_nil,
            or_false] at hv
          rcases hv with rfl | rfl | rfl <;> rfl)).2 1 example_long_block rfl).2 rfl).1,
    rfl⟩


/-! ### The listing: level numbers and guard-only frames -/

/-- The level number of the listing at the `i`-th non-guard frame: the count
of function-executing frames up to it, less one after a leading pause. -/
theorem listing_numbers_closed :
    ∀ (frames : List Reb_Frame) (number : Nat) (first : Bool) (i : Nat), i < frames.length →
      (listing_numbers frames number first)[i]?
        = some (number + active_count frames i
            - (if first && leading_pause frames then 1 else 0)) := by
  intro frames
  induction frames with
  | nil => intro number first i h; simp at h
  | cons g rest ih =>
    intro number first i hi
    cases i with
    | zero =>
      simp only [listing_numbers, List.getElem?_cons_zero, listing_number, active_count,
        leading_pause, List.take_succ_cons, List.take_zero, List.filter_cons, List.filter_nil]
      by_cases hm : g.mode = CALL_MODE_FUNCTION
      · by_cases hp : Is_Pause_Or_Breakpoint g = true <;> cases first <;> simp [hm, hp]
      · simp [hm]
    | succ i =>
      have hi2 : i < rest.length := by simpa using hi
      have h := ih (listing_number g number first) false i hi2
      simp only [listing_numbers, List.getElem?_cons_succ, h, Bool.false_and,
        Bool.false_eq_true, if_false, Nat.sub_zero, Option.some.injEq]
      have hac : active_count (g :: rest) (i + 1)
          = (if g.mode = CALL_MODE_FUNCTION then 1 else 0) + active_count rest i := by
        simp only [active_count, List.take_succ_cons, List.filter_cons]
        by_cases hm : g.mode = CALL_MODE_FUNCTION
        · simp [hm]; omega
        · simp [hm]
      rw [hac]
      simp only [listing_number, leading_pause]
      by_cases hm : g.mode = CALL_MODE_FUNCTION
      · by_cases hp : Is_Pause_Or_Breakpoint g = true <;> cases first <;> simp [hm, hp] <;> omega
      · simp [hm]

/-- C25: in a non-brief listing, whatever the row limit `k`, the record of
the `i`-th non-guard frame beneath the caller (`i` below `k`, counted from the
most recently pushed) is its level cell, on a new line, followed by its where
block; the level cell of a pending frame is the asterisk word, and the level
cell of the `n`-th function-executing frame is the integer `n`, or `n - 1`
when the most recent non-guard frame is a function-executing pause or
breakpoint frame (which so carries 0). -/
theorem C25_listing_level_numbers (stack : List Reb_Frame) (level : Value)
    (hlevel : (level.IS_VOID || level.IS_BLANK) = true) (limit : Bool) (frames : Value)
    (k : Nat) (hmax : backtrace_max_rows limit frames = Except.ok (k + 1)) :
    ∃ backtrace : List Value,
      N_backtrace_walk stack level limit frames false
          = Except.ok (Backtrace_Exit.left 0 backtrace)
      ∧ ∀ (i : Nat) (frame : Reb_Frame), i < k →
          (non_guard (stack.drop 1))[i]? = some frame →
          (backtrace.drop (backtrace.length - 2 * (i + 1))).take 2
            = [if frame.mode ≠ CALL_MODE_FUNCTION then Value.word true REBSYM.SYM_ASTERISK
               else Value.integer true
                 ((active_count (non_guard (stack.drop 1)) i
                    - (if leading_pause (non_guard (stack.drop 1)) then 1 else 0) : Nat) : Int),
               Val_Init_Block (Make_Where_For_Frame frame)] := by
  obtain ⟨hwalk, _⟩ := N_backtrace_walk_listing stack level hlevel limit frames false k hmax
  refine ⟨_, hwalk, ?_⟩
  intro i frame hi hframe
  obtain ⟨n, hn, hrow⟩ := listing_rows_get false (non_guard (stack.drop 1)) k i 0 true frame
    hi hframe
  have hlt : i < (non_guard (stack.drop 1)).length := by
    rcases List.getElem?_eq_some_iff.mp hframe with ⟨h, _⟩
    exact h
  have hclosed := listing_numbers_closed (non_guard (stack.drop 1)) 0 true i hlt
  rw [hn, Nat.zero_add, Bool.true_and] at hclosed
  have hn2 := Option.some.inj hclosed
  have hslice := uniform_flatten_slice (record_size false) _
    (listing_rows_uniform false _ 0 true)
    (if k < (non_guard (stack.drop 1)).length then elided_marker false else []) i _ hrow
  have hsize : record_size false = 2 := rfl
  rw [hsize] at hslice
  rw [hslice, hn2]
  by_cases hm : frame.mode = CALL_MODE_FUNCTION
  · simp [listing_row, hm, SET_INTEGER, Value.SET_LINE]
  · simp [listing_row, hm, Val_Init_Word, Value.SET_LINE]

/-- C25 at a concrete stack without a limit: a pause frame (level 0), a
pending frame (asterisk), an ordinary call (level 1), a guard-only frame (no
record) and another ordinary call (level 2). -/
theorem C25_listing_level_numbers_witness :
    (Value.void.IS_VOID || Value.void.IS_BLANK) = true
    ∧ backtrace_max_rows false Value.void = Except.ok (19 + 1)
    ∧ N_backtrace_walk example_stack_paused Value.void false Value.void false
        = Except.ok (Backtrace_Exit.left 0
            [Value.integer true 2, Val_Init_Block [Value.word false (REBSYM.other 1)],
             Value.integer true 1, Val_Init_Block [Value.word false (REBSYM.other 2)],
             Value.word true REBSYM.SYM_ASTERISK,
             Val_Init_Block [Value.word false (REBSYM.other 3), Value.END,
               Value.word false REBSYM.SYM_ELLIPSIS],
             Value.integer true 0, Val_Init_Block [Value.word false (REBSYM.other 9)]])
    ∧ ∃ backtrace : List Value,
      N_backtrace_walk example_stack_paused Value.void false Value.void false
          = Except.ok (Backtrace_Exit.left 0 backtrace)
      ∧ ∀ (i : Nat) (frame : Reb_Frame), i < 19 →
          (non_guard (example_stack_paused.drop 1))[i]? = some frame →
          (backtrace.drop (backtrace.length - 2 * (i + 1))).take 2
            = [if frame.mode ≠ CALL_MODE_FUNCTION then Value.word true REBSYM.SYM_ASTERISK
               else Value.integer true
                 ((active_count (non_guard (example_stack_paused.drop 1)) i
                    - (if leading_pause (non_guard (example_stack_paused.drop 1)) then 1
                       else 0) : Nat) : Int),
               Val_Init_Block (Make_Where_For_Frame frame)] :=
  ⟨rfl, rfl, rfl,
    C25_listing_level_numbers example_stack_paused Value.void rfl false Value.void 19 rfl⟩


/-- The loop of Frame_For_Stack_Level is the iteration of its step. -/
theorem Frame_For_Stack_Level_loop_cons (level : Value) (frame : Reb_Frame)
    (prior : List Reb_Frame) (pos : Nat) (first : Bool) (num : Int) :
    Frame_For_Stack_Level_loop level (frame :: prior) pos first num
      = match Frame_For_Stack_Level_step level frame first num with
        | Level_Step.found n => some (pos, n)
        | Level_Step.next f n => Frame_For_Stack_Level_loop level prior (pos + 1) f n := by
  rw [Frame_For_Stack_Level_loop]
  unfold Frame_For_Stack_Level_step
  by_cases hm : frame.mode ≠ CALL_MODE_FUNCTION
  · simp only [if_pos hm]
  · simp only [if_neg hm]
    by_cases hp : (first && Is_Pause_Or_Breakpoint frame) = true
    · simp only [if_pos hp]
      by_cases h1 : (level.IS_INTEGER && num == level.VAL_INT32) = true
      · simp only [if_pos h1]
      · simp only [if_neg h1]
    · simp only [if_neg hp]
      generalize (if first = true then num + 1 else num) = num1
      by_cases h1 : (level.IS_INTEGER && num1 == level.VAL_INT32) = true
      · simp only [if_pos h1]
      · simp only [if_neg h1]
        by_cases h2 : (level.IS_VOID || level.IS_BLANK) = true
        · simp only [if_pos h2]
        · simp only [if_neg h2]
          by_cases h3 : level.IS_INTEGER = true
          · simp only [if_pos h3]
            by_cases h4 : (num1 + 1 == level.VAL_INT32) = true
            · simp only [if_pos h4]
            · simp only [if_neg h4]
          · simp only [if_neg h3]
            by_cases h5 : level.IS_FRAME = true
            · simp only [if_pos h5]
              cases level with
              | frame line context =>
                dsimp only
                by_cases h6 : (frame.frame_context && frame.context == context) = true
                · simp only [if_pos h6]
                · simp only [if_neg h6]
              | _ => rfl
            · simp only [if_neg h5]
              cases level with
              | function line func =>
                dsimp only
                by_cases h6 : (func == frame.func) = true
                · simp only [if_pos h6]
                · simp only [if_neg h6]
              | _ => rfl

/-- A frame that is not guard-only is found, after the removal, at the
position `position_after` gives. -/
theorem remove_guards_get :
    ∀ (frames : List Reb_Frame) (mask : List Bool) (p : Nat) (frame : Reb_Frame),
      frames[p]? = some frame → frame.mode ≠ CALL_MODE_GUARD_ARRAY_ONLY →
      (remove_guards frames mask)[position_after frames mask p]? = some frame := by
  intro frames
  induction frames with
  | nil => intro mask p frame h; simp at h
  | cons g rest ih =>
    intro mask p frame h hmode
    cases p with
    | zero =>
      simp only [List.getElem?_cons_zero, Option.some.injEq] at h
      subst h
      simp [remove_guards, position_after, hmode]
    | succ p =>
      simp only [List.getElem?_cons_succ] at h
      have hrec := ih mask.tail p frame h hmode
      by_cases hr : (mask.headD false && decide (g.mode = CALL_MODE_GUARD_ARRAY_ONLY)) = true
      · simp only [remove_guards, position_after, if_pos hr]
        exact hrec
      · simp only [remove_guards, position_after, if_neg hr, List.getElem?_cons_succ]
        exact hrec

/-- The removal leaves the non-guard frames as they were. -/
theorem non_guard_remove_guards :
    ∀ (frames : List Reb_Frame) (mask : List Bool),
      non_guard (remove_guards frames mask) = non_guard frames := by
  intro frames
  induction frames with
  | nil => intro mask; rfl
  | cons g rest ih =>
    intro mask
    by_cases hr : (mask.headD false && decide (g.mode = CALL_MODE_GUARD_ARRAY_ONLY)) = true
    · have hg : g.mode = CALL_MODE_GUARD_ARRAY_ONLY := by
        simp only [Bool.and_eq_true, decide_eq_true_eq] at hr
        exact hr.2
      simp only [remove_guards, if_pos hr]
      rw [ih, non_guard_cons_guard g rest hg]
    · simp only [remove_guards, if_neg hr]
      simp only [non_guard, List.filter_cons] at ih ⊢
      rw [ih]

/-- The loop of Frame_For_Stack_Level returns the same frame and number with
the guard-only frames removed. -/
theorem Frame_For_Stack_Level_loop_remove_guards (level : Value) :
    ∀ (frames : List Reb_Frame) (mask : List Bool) (pos pos1 : Nat) (first : Bool) (num : Int),
      Frame_For_Stack_Level_loop level (remove_guards frames mask) pos1 first num
        = (Frame_For_Stack_Level_loop level frames pos first num).map
            (fun r => (pos1 + position_after frames mask (r.1 - pos), r.2)) := by
  intro frames
  induction frames with
  | nil => intro mask pos pos1 first num; rfl
  | cons g rest ih =>
    intro mask pos pos1 first num
    by_cases hr : (mask.headD false && decide (g.mode = CALL_MODE_GUARD_ARRAY_ONLY)) = true
    · have hg : g.mode = CALL_MODE_GUARD_ARRAY_ONLY := by
        simp only [Bool.and_eq_true, decide_eq_true_eq] at hr
        exact hr.2
      have hstep : Frame_For_Stack_Level_step level g first num = Level_Step.next first num := by
        simp [Frame_For_Stack_Level_step, hg]
      rw [Frame_For_Stack_Level_loop_cons, hstep]
      simp only [remove_guards, if_pos hr]
      rw [ih mask.tail (pos + 1) pos1 first num]
      cases hres : Frame_For_Stack_Level_loop level rest (pos + 1) first num with
      | none => rfl
      | some r =>
        obtain ⟨p, n⟩ := r
        obtain ⟨k, _, hp, _⟩ :=
          Frame_For_Stack_Level_loop_returns_function level rest (pos + 1) first num p n hres
        have h1 : p - (pos + 1) = k := by omega
        have h2 : p - pos = k + 1 := by omega
        simp only [Option.map_some', h1, h2, position_after, if_pos hr]
    · simp only [remove_guards, if_neg hr]
      rw [Frame_For_Stack_Level_loop_cons, Frame_For_Stack_Level_loop_cons]
      cases Frame_For_Stack_Level_step level g first num with
      | found n =>
        simp only [Option.map_some', Nat.sub_self, position_after, Nat.add_zero]
      | next f n =>
        simp only []
        rw [ih mask.tail (pos + 1) (pos1 + 1) f n]
        cases hres : Frame_For_Stack_Level_loop level rest (pos + 1) f n with
        | none => rfl
        | some r =>
          obtain ⟨p, n1⟩ := r
          obtain ⟨k, _, hp, _⟩ :=
            Frame_For_Stack_Level_loop_returns_function level rest (pos + 1) f n p n1 hres
          have h1 : p - (pos + 1) = k := by omega
          have h2 : p - pos = k + 1 := by omega
          simp only [Option.map_some', h1, h2, position_after, if_neg hr]
          congr 2
          omega

/-- Removal beneath the top frame commutes with skipping the top frame. -/
theorem remove_guards_drop_one (stack : List Reb_Frame) (mask : List Bool) :
    (remove_guards stack (false :: mask)).drop 1 = remove_guards (stack.drop 1) mask := by
  cases stack with
  | nil => rfl
  | cons top rest => simp [remove_guards]

/-- The listing is the same with the guard-only frames removed. -/
theorem N_backtrace_walk_remove_guards (stack : List Reb_Frame) (mask : List Bool)
    (level : Value) (hlevel : (level.IS_VOID || level.IS_BLANK) = true) (limit : Bool)
    (frames : Value) (brief : Bool) :
    N_backtrace_walk (remove_guards stack (false :: mask)) level limit frames brief
      = N_backtrace_walk stack level limit frames brief := by
  cases hmax : backtrace_max_rows limit frames with
  | error e =>
    simp only [N_backtrace_walk, hlevel, hmax, Bool.not_true, Bool.false_and,
      Bool.false_eq_true, if_false]
  | ok m =>
    obtain ⟨k, rfl⟩ := backtrace_max_rows_pos limit frames m hmax
    rw [(N_backtrace_walk_listing _ level hlevel limit frames brief k hmax).1,
      (N_backtrace_walk_listing stack level hlevel limit frames brief k hmax).1,
      remove_guards_drop_one, non_guard_remove_guards]

/-- The result of Frame_For_Stack_Level with the guard-only frames removed. -/
theorem Frame_For_Stack_Level_remove_guards (stack : List Reb_Frame) (mask : List Bool)
    (level : Value) (skip_current : Bool) :
    Frame_For_Stack_Level (remove_guards stack (false :: mask)) level skip_current
      = (Frame_For_Stack_Level stack level skip_current).map
          (fun r => (position_after stack (false :: mask) r.1, r.2)) := by
  unfold Frame_For_Stack_Level
  by_cases hneg : (level.IS_INTEGER && decide (level.VAL_INT32 < 0)) = true
  · simp only [if_pos hneg, Option.map_none']
  · simp only [if_neg hneg]
    cases skip_current with
    | false =>
      simp only [Bool.false_eq_true, if_false]
      rw [Frame_For_Stack_Level_loop_remove_guards level stack (false :: mask) 0 0 true 0]
      simp only [Nat.zero_add, Nat.sub_zero]
    | true =>
      simp only [if_true]
      rw [remove_guards_drop_one,
        Frame_For_Stack_Level_loop_remove_guards level (stack.drop 1) mask 1 1 true 0]
      cases hres : Frame_For_Stack_Level_loop level (stack.drop 1) 1 true 0 with
      | none => rfl
      | some r =>
        obtain ⟨p, n⟩ := r
        obtain ⟨k, frame, hp, hk, _⟩ :=
          Frame_For_Stack_Level_loop_returns_function level (stack.drop 1) 1 true 0 p n hres
        cases stack with
        | nil => simp at hk
        | cons top rest =>
          have h1 : p - 1 = k := by omega
          have h2 : p = k + 1 := by omega
          simp only [Option.map_some', h1, List.drop_succ_cons, List.drop_zero]
          subst h2
          simp only [position_after, List.headD_cons, Bool.false_and, Bool.false_eq_true,
            if_false, List.tail_cons]
          congr 2
          omega

/-- The frame Frame_For_Stack_Level returns is a function-executing frame of
the stack. -/
theorem Frame_For_Stack_Level_returns_function (stack : List Reb_Frame) (level : Value)
    (skip_current : Bool) (p : Nat) (n : Int)
    (h : Frame_For_Stack_Level stack level skip_current = some (p, n)) :
    ∃ frame, stack[p]? = some frame ∧ frame.mode = CALL_MODE_FUNCTION := by
  unfold Frame_For_Stack_Level at h
  split_ifs at h with h1 h2
  · obtain ⟨k, frame, hp, hk, hm, _⟩ :=
      Frame_For_Stack_Level_loop_returns_function level (stack.drop 1) 1 true 0 p n h
    refine ⟨frame, ?_, hm⟩
    rw [List.getElem?_drop] at hk
    rw [hp]; exact hk
  · obtain ⟨k, frame, hp, hk, hm, _⟩ :=
      Frame_For_Stack_Level_loop_returns_function level stack 0 true 0 p n h
    refine ⟨frame, ?_, hm⟩
    rw [hp, Nat.zero_add]; exact hk

/-- C24: removing from a stack any of the guard-only frames beneath its top
frame (those `mask` marks) changes nothing that stack reflection reports.
For every selector and both settings of `skip_current`, Frame_For_Stack_Level
returns `NULL` on both stacks or returns on both the same number and the same
frame, which sits at `position_after` once the frames above it are gone; and
in listing mode, for every limit and both settings of `/brief` and `/only`,
the BACKTRACE native gives the same array of rows and level numbers. -/
theorem C24_guard_only_frames_are_invisible (stack : List Reb_Frame) (mask : List Bool)
    (level : Value) :
    (∀ skip_current : Bool,
        Frame_For_Stack_Level (remove_guards stack (false :: mask)) level skip_current
          = (Frame_For_Stack_Level stack level skip_current).map
              (fun r => (position_after stack (false :: mask) r.1, r.2)))
      ∧ (∀ (skip_current : Bool) (p : Nat) (n : Int),
          Frame_For_Stack_Level stack level skip_current = some (p, n) →
          ∃ frame, stack[p]? = some frame
            ∧ (remove_guards stack (false :: mask))[position_after stack (false :: mask) p]?
                = some frame)
      ∧ ((level.IS_VOID || level.IS_BLANK) = true →
          ∀ (limit : Bool) (frames : Value) (brief only : Bool),
            N_backtrace_walk (remove_guards stack (false :: mask)) level limit frames brief
                = N_backtrace_walk stack level limit frames brief
              ∧ N_backtrace (remove_guards stack (false :: mask)) level limit frames brief only
                = N_backtrace stack level limit frames brief only) := by
  refine ⟨fun skip_current => Frame_For_Stack_Level_remove_guards stack mask level skip_current,
    ?_, ?_⟩
  · intro skip_current p n h
    obtain ⟨frame, hframe, hmode⟩ :=
      Frame_For_Stack_Level_returns_function stack level skip_current p n h
    refine ⟨frame, hframe, remove_guards_get stack (false :: mask) p frame hframe ?_⟩
    rw [hmode]; decide
  · intro hlevel limit frames brief only
    have hwalk := N_backtrace_walk_remove_guards stack mask level hlevel limit frames brief
    refine ⟨hwalk, ?_⟩
    simp only [N_backtrace, hwalk]

/-- C24 at a concrete stack: two calls with a guard-only frame above each,
the selector being the function of the second call, and the listing. -/
theorem C24_guard_only_frames_are_invisible_witness :
    remove_guards example_stack_guarded [false, true, true, true] = example_stack_two
    ∧ Frame_For_Stack_Level example_stack_guarded (Value.function false (example_func 2)) true
        = some (4, 1)
    ∧ Frame_For_Stack_Level example_stack_two (Value.function false (example_func 2)) true
        = some (2, 1)
    ∧ position_after example_stack_guarded [false, true, true, true] 4 = 2
    ∧ (Value.void.IS_VOID || Value.void.IS_BLANK) = true
    ∧ N_backtrace
        (remove_guards example_stack_guarded [false, true, true, true]) Value.void false
        Value.void false true
        = N_backtrace example_stack_guarded Value.void false Value.void false true
    ∧ Frame_For_Stack_Level (remove_guards example_stack_guarded [false, true, true, true])
          (Value.function false (example_func 2)) true
        = (Frame_For_Stack_Level example_stack_guarded (Value.function false (example_func 2))
            true).map
            (fun r => (position_after example_stack_guarded [false, true, true, true] r.1, r.2)) :=
  ⟨rfl, rfl, rfl, rfl, rfl,
    ((C24_guard_only_frames_are_invisible example_stack_guarded [true, true, true]
      Value.void).2.2 rfl false Value.void false true).2,
    (C24_guard_only_frames_are_invisible example_stack_guarded [true, true, true]
      (Value.function false (example_func 2))).1 true⟩


/-! ### The stepping functions -/

/-- C21, the claim fails: with the default hook installed and the lookahead
the integer 1 followed by a word bound to nothing, Eval_Step_In_Subframe_Throws
returns false with the integer in the output cell and with no push of a frame
recorded; with another hook installed the same call pushes a frame bound to
the parent's feed and drops it. -/
theorem C21_inert_lookahead_pushes_no_frame :
    example_ANY_INERT (example_state.feeds example_parent.feed).value = true
      ∧ (Eval_Step_In_Subframe_Throws (example_evaluator true) example_parent example_flags
          example_state).1 = false
      ∧ (Eval_Step_In_Subframe_Throws (example_evaluator true) example_parent example_flags
          example_state).2.trace = []
      ∧ (Eval_Step_In_Subframe_Throws (example_evaluator true) example_parent example_flags
          example_state).2.out = Value.integer false 1
      ∧ (Eval_Step_In_Subframe_Throws (example_evaluator false) example_parent example_flags
          example_state).2.trace
          = [Eval_Event.pushed { feed := 0, flags := example_flags }, Eval_Event.dropped] := by
  refine ⟨by decide, rfl, rfl, rfl, rfl⟩


/-- C21, amended: Eval_Step_In_Subframe_Throws pushes a frame bound to the
feed of the parent, calls the hook with that frame on top of the stack and
returns what the hook gave after dropping the frame, unless
Did_Inert_Optimization returns true; then it returns false with the frame
stack and the record of pushes as they were, the output cell being the one
Did_Inert_Optimization left.  Reevaluate_In_Subframe_Throws always pushes such
a frame, with the cell to reevaluate and the reevaluate flag, calls the hook
and drops the frame. -/
theorem C21_subframe_step_pushes_unless_inert (E : Evaluator) (f : REBFRM) (reval : Value)
    (flags : REBFLGS) (s : Eval_State) :
    ((subframe_inert_optimization E f flags s).result = true →
        (Eval_Step_In_Subframe_Throws E f flags s).1 = false
        ∧ (Eval_Step_In_Subframe_Throws E f flags s).2.frames = s.frames
        ∧ (Eval_Step_In_Subframe_Throws E f flags s).2.trace = s.trace
        ∧ (Eval_Step_In_Subframe_Throws E f flags s).2.out
            = (subframe_inert_optimization E f flags s).out)
      ∧ ((subframe_inert_optimization E f flags s).result = false →
        ∃ (subframe : REBFRM) (entered : Eval_State),
          subframe.feed = f.feed
          ∧ entered.frames = subframe :: s.frames
          ∧ entered.trace = s.trace ++ [Eval_Event.pushed subframe]
          ∧ Eval_Step_In_Subframe_Throws E f flags s
              = ((E.PG_Eval_Throws entered).1, Drop_Frame (E.PG_Eval_Throws entered).2))
      ∧ (∃ (subframe : REBFRM) (entered : Eval_State),
          subframe.feed = f.feed ∧ subframe.reval = some reval
          ∧ subframe.flags.reevaluate_cell = true
          ∧ entered.frames = subframe :: s.frames
          ∧ entered.trace = s.trace ++ [Eval_Event.pushed subframe]
          ∧ Reevaluate_In_Subframe_Throws E f reval flags s
              = ((E.PG_Eval_Throws entered).1, Drop_Frame (E.PG_Eval_Throws entered).2)) := by
  refine ⟨?_, ?_, ?_⟩
  · intro h
    simp only [subframe_inert_optimization] at h
    simp only [Eval_Step_In_Subframe_Throws, h, if_true, subframe_inert_optimization,
      and_self]
  · intro h
    simp only [subframe_inert_optimization] at h
    refine ⟨{ feed := f.feed, flags := (subframe_inert_optimization E f flags s).flags },
      Push_Frame
        { s with
          out := (subframe_inert_optimization E f flags s).out
          feeds := Function.update s.feeds f.feed (subframe_inert_optimization E f flags s).feed }
        { feed := f.feed, flags := (subframe_inert_optimization E f flags s).flags },
      rfl, rfl, rfl, ?_⟩
    simp only [Eval_Step_In_Subframe_Throws, h, Bool.false_eq_true, if_false,
      subframe_inert_optimization]
  · exact ⟨{ feed := f.feed, flags := { flags with reevaluate_cell := true },
              reval := some reval },
      Push_Frame s { feed := f.feed, flags := { flags with reevaluate_cell := true },
                     reval := some reval },
      rfl, rfl, rfl, rfl, rfl, rfl⟩

/-- C21, amended, at a concrete state: the inert lookahead of `example_state`
with the default hook installed. -/
theorem C21_subframe_step_pushes_unless_inert_witness :
    (subframe_inert_optimization (example_evaluator true) example_parent example_flags
        example_state).result = true
    ∧ (Eval_Step_In_Subframe_Throws (example_evaluator true) example_parent example_flags
        example_state).1 = false
    ∧ (Eval_Step_In_Subframe_Throws (example_evaluator true) example_parent example_flags
        example_state).2.frames = example_state.frames :=
  ⟨rfl,
    ((C21_subframe_step_pushes_unless_inert (example_evaluator true) example_parent
      Value.void example_flags example_state).1 rfl).1,
    ((C21_subframe_step_pushes_unless_inert (example_evaluator true) example_parent
      Value.void example_flags example_state).1 rfl).2.1⟩

/-- The loop of calls leaves the frame stack as it found it when each call
does. -/
theorem Eval_do_while_frames (PG_Eval_Throws : Eval_State → Bool × Eval_State)
    (hstack : ∀ s, (PG_Eval_Throws s).2.frames = s.frames) (feed : Nat) :
    ∀ (fuel : Nat) (s : Eval_State) (r : Bool × Eval_State),
      Eval_do_while PG_Eval_Throws feed fuel s = some r → r.2.frames = s.frames := by
  intro fuel
  induction fuel with
  | zero => intro s r h; simp [Eval_do_while] at h
  | succ fuel ih =>
    intro s r h
    rw [Eval_do_while] at h
    split_ifs at h with hc
    · rw [ih _ r h, hstack]
    · cases h; exact hstack s

/-- The loop of calls ends within `measure s + 1` calls when each call throws,
leaves the feed at its end or lowers `measure`. -/
theorem Eval_do_while_returns (PG_Eval_Throws : Eval_State → Bool × Eval_State) (feed : Nat)
    (measure : Eval_State → Nat)
    (hprogress : ∀ s, (PG_Eval_Throws s).1 = true
      ∨ ((PG_Eval_Throws s).2.feeds feed).value.NOT_END = false
      ∨ measure (PG_Eval_Throws s).2 < measure s) :
    ∀ (fuel : Nat) (s : Eval_State), measure s < fuel →
      ∃ r, Eval_do_while PG_Eval_Throws feed fuel s = some r := by
  intro fuel
  induction fuel with
  | zero => intro s h; omega
  | succ fuel ih =>
    intro s h
    rw [Eval_do_while]
    split_ifs with hc
    · apply ih
      simp only [Bool.and_eq_true, Bool.not_eq_true'] at hc
      rcases hprogress s with h1 | h1 | h1
      · rw [hc.1] at h1; cases h1
      · rw [hc.2] at h1; cases h1
      · omega
    · exact ⟨_, rfl⟩

/-- Push, loop and drop leave the frame stack as it was. -/
theorem push_loop_drop_frames (PG_Eval_Throws : Eval_State → Bool × Eval_State)
    (hstack : ∀ s, (PG_Eval_Throws s).2.frames = s.frames) (feed fuel : Nat) (s : Eval_State)
    (f : REBFRM) (r : Bool × Eval_State)
    (h : Eval_do_while PG_Eval_Throws feed fuel (Push_Frame s f) = some r) :
    (Drop_Frame r.2).frames = s.frames := by
  have h1 := Eval_do_while_frames PG_Eval_Throws hstack feed fuel _ r h
  simp only [Drop_Frame, h1, Push_Frame, List.drop_succ_cons, List.drop_zero]

/-- C22: when every call of the evaluator hook leaves the frame stack as it
found it, each of the six stepping functions that push a frame leaves the
frame stack as it was on entry, whether it returns true or false or raises
its failure: Eval_Step_In_Subframe_Throws, Reevaluate_In_Subframe_Throws and
Eval_Step_In_Va_Throws_Core always, and the three that loop
(Eval_Array_At_Mutable_Throws_Core, Eval_Va_Throws_Core,
Eval_Value_Core_Throws) whenever their loop ends; and their loop does end when
every call of the hook throws, leaves the feed at its end or lowers a measure
of the state. -/
theorem C22_frame_stack_is_restored (E : Evaluator)
    (hstack : ∀ s, (E.PG_Eval_Throws s).2.frames = s.frames) (s : Eval_State) :
    (∀ (f : REBFRM) (flags : REBFLGS),
        (Eval_Step_In_Subframe_Throws E f flags s).2.frames = s.frames)
      ∧ (∀ (f : REBFRM) (reval : Value) (flags : REBFLGS),
        (Reevaluate_In_Subframe_Throws E f reval flags s).2.frames = s.frames)
      ∧ (∀ (fuel feed : Nat) (opt_first : Option Value) (array : List Value) (index : Nat)
          (flags : REBFLGS) (r : Bool × Eval_State),
        Eval_Array_At_Mutable_Throws_Core E fuel feed opt_first array index flags s = some r →
        r.2.frames = s.frames)
      ∧ (∀ (feed : Nat) (opt_first : Option Value) (vaptr : List Value) (flags : REBFLGS),
        (Eval_Step_In_Va_Throws_Core E feed opt_first vaptr flags s).2.frames = s.frames)
      ∧ (∀ (fuel feed : Nat) (opt_first : Option Value) (vaptr : List Value)
          (flags : REBFLGS) (r : Bool × Eval_State),
        Eval_Va_Throws_Core E fuel feed opt_first vaptr flags s = some r →
        r.2.frames = s.frames)
      ∧ (∀ (fuel feed : Nat) (value : Value) (r : Eval_Outcome × Eval_State),
        Eval_Value_Core_Throws E fuel feed value s = some r → r.2.frames = s.frames)
      ∧ (∀ (feed : Nat) (measure : Eval_State → Nat),
        hook_progresses E.PG_Eval_Throws feed measure →
        (∀ (opt_first : Option Value) (array : List Value) (index : Nat) (flags : REBFLGS),
          ∃ fuel r,
            Eval_Array_At_Mutable_Throws_Core E fuel feed opt_first array index flags s = some r)
        ∧ (∀ (opt_first : Option Value) (vaptr : List Value) (flags : REBFLGS),
          ∃ fuel r, Eval_Va_Throws_Core E fuel feed opt_first vaptr flags s = some r)
        ∧ (∀ (value : Value),
          ∃ fuel r, Eval_Value_Core_Throws E fuel feed value s = some r)) := by
  refine ⟨?_, ?_, ?_, ?_, ?_, ?_, ?_⟩
  · intro f flags
    unfold Eval_Step_In_Subframe_Throws
    dsimp only
    split_ifs
    · rfl
    · simp only [Drop_Frame, hstack, Push_Frame, List.drop_succ_cons, List.drop_zero]
  · intro f reval flags
    simp only [Reevaluate_In_Subframe_Throws, Drop_Frame, hstack, Push_Frame,
      List.drop_succ_cons, List.drop_zero]
  · intro fuel feed opt_first array index flags r h
    unfold Eval_Array_At_Mutable_Throws_Core at h
    dsimp only at h
    split_ifs at h
    · cases h; rfl
    · split at h
      · cases h
      · rename_i r1 hloop
        cases h
        have hframes := push_loop_drop_frames E.PG_Eval_Throws hstack feed fuel _ _ r1 hloop
        exact hframes
  · intro feed opt_first vaptr flags
    unfold Eval_Step_In_Va_Throws_Core
    dsimp only
    split_ifs <;>
      first
        | rfl
        | simp only [Drop_Frame, hstack, Push_Frame, List.drop_succ_cons, List.drop_zero]
  · intro fuel feed opt_first vaptr flags r h
    unfold Eval_Va_Throws_Core at h
    dsimp only at h
    split_ifs at h
    · cases h; rfl
    · split at h
      · cases h
      · rename_i r1 hloop
        cases h
        have hframes := push_loop_drop_frames E.PG_Eval_Throws hstack feed fuel _ _ r1 hloop
        exact hframes
  · intro fuel feed value r h
    unfold Eval_Value_Core_Throws at h
    dsimp only at h
    split_ifs at h
    · cases h; rfl
    · split at h
      · cases h
      · rename_i r1 hloop
        have hframes := push_loop_drop_frames E.PG_Eval_Throws hstack feed fuel _ _ r1 hloop
        split_ifs at h <;> cases h <;> exact hframes
  · intro feed measure hprogress
    refine ⟨?_, ?_, ?_⟩
    · intro opt_first array index flags
      unfold Eval_Array_At_Mutable_Throws_Core
      dsimp only
      split_ifs
      · exact ⟨0, _, rfl⟩
      · generalize Push_Frame _ _ = entered
        obtain ⟨r, hr⟩ := Eval_do_while_returns E.PG_Eval_Throws feed measure hprogress
          (measure entered + 1) entered (Nat.lt_succ_self _)
        exact ⟨_, _, by rw [hr]⟩
    · intro opt_first vaptr flags
      unfold Eval_Va_Throws_Core
      dsimp only
      split_ifs
      · exact ⟨0, _, rfl⟩
      · generalize Push_Frame _ _ = entered
        obtain ⟨r, hr⟩ := Eval_do_while_returns E.PG_Eval_Throws feed measure hprogress
          (measure entered + 1) entered (Nat.lt_succ_self _)
        exact ⟨_, _, by rw [hr]⟩
    · intro value
      unfold Eval_Value_Core_Throws
      dsimp only
      split_ifs
      · exact ⟨0, _, rfl⟩
      · generalize Push_Frame _ _ = entered
        obtain ⟨r, hr⟩ := Eval_do_while_returns E.PG_Eval_Throws feed measure hprogress
          (measure entered + 1) entered (Nat.lt_succ_self _)
        by_cases hout : (Drop_Frame r.2).out.IS_END = true
        · exact ⟨_, (Eval_Outcome.failed Eval_Error.empty_evaluation, Drop_Frame r.2),
            by rw [hr]; simp only [hout, if_true]⟩
        · exact ⟨_, (Eval_Outcome.returned r.1, Drop_Frame r.2),
            by rw [hr]; simp only [hout, Bool.false_eq_true, if_false]⟩

/-- C22 at a concrete state, with a hook that takes one value per call: the
subframe step, and Eval_Va_Throws_Core over the integers 1 and 2. -/
theorem C22_frame_stack_is_restored_witness :
    (∀ s, ((example_evaluator false).PG_Eval_Throws s).2.frames = s.frames)
    ∧ (Eval_Step_In_Subframe_Throws (example_evaluator false) example_parent example_flags
        example_state).2.frames = example_state.frames
    ∧ ∃ r, Eval_Va_Throws_Core (example_evaluator false) 5 1 none
          [Value.integer false 1, Value.integer false 2] example_flags example_state = some r
        ∧ r.1 = false ∧ r.2.out = Value.integer false 2
        ∧ r.2.frames = example_state.frames :=
  ⟨(by intro s; simp only [example_evaluator, example_hook]; split <;> rfl),
    (C22_frame_stack_is_restored (example_evaluator false)
      (by intro s; simp only [example_evaluator, example_hook]; split <;> rfl)
      example_state).1 example_parent example_flags,
    _, rfl, rfl, rfl,
    (C22_frame_stack_is_restored (example_evaluator false)
      (by intro s; simp only [example_evaluator, example_hook]; split <;> rfl)
      example_state).2.2.2.2.1 5 1 none [Value.integer false 1, Value.integer false 2]
      example_flags _ rfl⟩

/-- C23: Eval_Step_In_Va_Throws_Core raises `Error_Apply_Too_Many_Raw` exactly
when the feed it declared was not at its end, the single call of the hook did
not throw, `EVAL_FLAG_NO_RESIDUE` was passed and the lookahead of the feed is
not the end after the call; with the declared feed at its end it returns
false and leaves the state with the declared feed, no frame pushed and no
call of the hook made; when the call throws it returns true whatever is left
in the feed; otherwise it returns false. -/
theorem C23_residue_failure (E : Evaluator) (feed : Nat) (opt_first : Option Value)
    (vaptr : List Value) (flags : REBFLGS) (s : Eval_State) :
    ((Eval_Step_In_Va_Throws_Core E feed opt_first vaptr flags s).1
          = Eval_Outcome.failed Eval_Error.Error_Apply_Too_Many_Raw ↔
        (E.DECLARE_VA_FEED opt_first vaptr (FS_TOP_const s)).value.NOT_END = true
        ∧ (va_step E feed opt_first vaptr flags s).1 = false
        ∧ flags.no_residue = true
        ∧ ((Drop_Frame (va_step E feed opt_first vaptr flags s).2).feeds feed).value.NOT_END
            = true)
      ∧ ((E.DECLARE_VA_FEED opt_first vaptr (FS_TOP_const s)).value.NOT_END = false →
        Eval_Step_In_Va_Throws_Core E feed opt_first vaptr flags s
          = (Eval_Outcome.returned false, va_feed_declared E feed opt_first vaptr s))
      ∧ ((E.DECLARE_VA_FEED opt_first vaptr (FS_TOP_const s)).value.NOT_END = true →
        (va_step E feed opt_first vaptr flags s).1 = true →
        Eval_Step_In_Va_Throws_Core E feed opt_first vaptr flags s
          = (Eval_Outcome.returned true,
              Drop_Frame (va_step E feed opt_first vaptr flags s).2))
      ∧ ((E.DECLARE_VA_FEED opt_first vaptr (FS_TOP_const s)).value.NOT_END = true →
        (va_step E feed opt_first vaptr flags s).1 = false →
        ¬ (flags.no_residue = true
          ∧ ((Drop_Frame (va_step E feed opt_first vaptr flags s).2).feeds feed).value.NOT_END
              = true) →
        Eval_Step_In_Va_Throws_Core E feed opt_first vaptr flags s
          = (Eval_Outcome.returned false,
              Drop_Frame (va_step E feed opt_first vaptr flags s).2)) := by
  have hfeed : (Function.update s.feeds feed
      (E.DECLARE_VA_FEED opt_first vaptr (FS_TOP_const s))) feed
        = E.DECLARE_VA_FEED opt_first vaptr (FS_TOP_const s) := Function.update_same _ _ _
  generalize hd : E.DECLARE_VA_FEED opt_first vaptr (FS_TOP_const s) = declared at hfeed
  have hunfold : Eval_Step_In_Va_Throws_Core E feed opt_first vaptr flags s
      = if declared.value.IS_END then
          (Eval_Outcome.returned false, va_feed_declared E feed opt_first vaptr s)
        else if (va_step E feed opt_first vaptr flags s).1 then
          (Eval_Outcome.returned true, Drop_Frame (va_step E feed opt_first vaptr flags s).2)
        else if flags.no_residue
            && ((Drop_Frame (va_step E feed opt_first vaptr flags s).2).feeds feed).value.NOT_END
          then
          (Eval_Outcome.failed Eval_Error.Error_Apply_Too_Many_Raw,
            Drop_Frame (va_step E feed opt_first vaptr flags s).2)
        else
          (Eval_Outcome.returned false, Drop_Frame (va_step E feed opt_first vaptr flags s).2) := by
    simp only [Eval_Step_In_Va_Throws_Core, va_step, va_feed_declared, hd, hfeed]
  rw [hunfold]
  generalize va_step E feed opt_first vaptr flags s = step
  by_cases hend : declared.value.NOT_END = true
  · have hnot : declared.value.IS_END = false := by simp [Value.IS_END, hend]
    simp only [hnot, Bool.false_eq_true, if_false, hend, true_and]
    by_cases hthrew : step.1 = true
    · simp [hthrew]
    · have hthrew2 : step.1 = false := by simpa using hthrew
      by_cases hres : (flags.no_residue
          && ((Drop_Frame step.2).feeds feed).value.NOT_END) = true
      · have hres2 := hres
        simp only [Bool.and_eq_true] at hres2
        simp [hthrew2, hres, hres2.1, hres2.2]
      · have hres2 := hres
        simp only [Bool.and_eq_true] at hres2
        simp [hthrew2, hres, hres2]
  · have hend2 : declared.value.NOT_END = false := by simpa using hend
    have hnot : declared.value.IS_END = true := by simp [Value.IS_END, hend2]
    simp [hnot, hend2]

/-- C23 at a concrete call: the integers 1 and 2 with a hook that takes one
value; with the no-residue flag the call fails, without it it returns false. -/
theorem C23_residue_failure_witness :
    (example_DECLARE_VA_FEED none [Value.integer false 1, Value.integer false 2]
        (FS_TOP_const example_state)).value.NOT_END = true
    ∧ (va_step (example_evaluator false) 1 none [Value.integer false 1, Value.integer false 2]
        example_flags_no_residue example_state).1 = false
    ∧ example_flags_no_residue.no_residue = true
    ∧ ((Drop_Frame (va_step (example_evaluator false) 1 none
        [Value.integer false 1, Value.integer false 2] example_flags_no_residue
        example_state).2).feeds 1).value = Value.integer false 2
    ∧ (Eval_Step_In_Va_Throws_Core (example_evaluator false) 1 none
        [Value.integer false 1, Value.integer false 2] example_flags_no_residue
        example_state).1 = Eval_Outcome.failed Eval_Error.Error_Apply_Too_Many_Raw
    ∧ (Eval_Step_In_Va_Throws_Core (example_evaluator false) 1 none
        [Value.integer false 1, Value.integer false 2] example_flags example_state).1
        = Eval_Outcome.returned false :=
  ⟨rfl, rfl, rfl, rfl,
    (C23_residue_failure (example_evaluator false) 1 none
      [Value.integer false 1, Value.integer false 2] example_flags_no_residue
      example_state).1.mpr ⟨rfl, rfl, rfl, rfl⟩,
    rfl⟩


/-! ### Did_Inert_Optimization: what a call leaves -/

/-- With an inert lookahead and the default hook installed, a call of
Did_Inert_Optimization leaves the lookahead in the output cell and the feed
as after one fetch, with the no-lookahead flag clear and `gotten` as the call
set it; it returns true with the flags untouched, or false with post-switch
and inert-optimization set. -/
theorem Did_Inert_Optimization_cases (ANY_INERT : Value → Bool)
    (Try_Get_Opt_Var : Value → Option Reb_Gotten) (out : Value) (feed : Reb_Feed)
    (flags : REBFLGS) (hinert : ANY_INERT feed.value = true) :
    (Did_Inert_Optimization ANY_INERT Try_Get_Opt_Var true out feed flags).out = feed.value
      ∧ (Did_Inert_Optimization ANY_INERT Try_Get_Opt_Var true out feed flags).feed.no_lookahead
          = false
      ∧ (Did_Inert_Optimization ANY_INERT Try_Get_Opt_Var true out feed flags).feed
          = { Fetch_Next_Forget_Lookback feed with
              no_lookahead := false
              gotten := (Did_Inert_Optimization ANY_INERT Try_Get_Opt_Var true out feed
                flags).feed.gotten }
      ∧ (((Did_Inert_Optimization ANY_INERT Try_Get_Opt_Var true out feed flags).result = true
          ∧ (Did_Inert_Optimization ANY_INERT Try_Get_Opt_Var true out feed flags).flags = flags)
        ∨ ((Did_Inert_Optimization ANY_INERT Try_Get_Opt_Var true out feed flags).result = false
          ∧ (Did_Inert_Optimization ANY_INERT Try_Get_Opt_Var true out feed flags).flags
              = flags.with_post_switch)) := by
  generalize hnext : Fetch_Next_Forget_Lookback feed = next
  by_cases hno : next.no_lookahead = true
  · by_cases hw : next.value.KIND_BYTE = REB_KIND.REB_WORD
    · cases hg : Try_Get_Opt_Var next.value with
      | none =>
        simp [Did_Inert_Optimization, Literal_Next_In_Feed, hinert, hnext, hw, hg]
      | some gotten =>
        by_cases he : gotten.enfixed = true
        · by_cases hq : gotten.action.quotes_first = true
          · by_cases hs : gotten.action.first_param_class = Reb_Param_Class.REB_P_SOFT_QUOTE
            · simp [Did_Inert_Optimization, Literal_Next_In_Feed, hinert, hnext, hw, hg, he, hq,
                hs, hno]
            · simp [Did_Inert_Optimization, Literal_Next_In_Feed, hinert, hnext, hw, hg, he, hq,
                hs, hno, REBFLGS.with_post_switch]
          · simp [Did_Inert_Optimization, Literal_Next_In_Feed, hinert, hnext, hw, hg, he, hq,
              hno]
        · simp [Did_Inert_Optimization, Literal_Next_In_Feed, hinert, hnext, hw, hg, he]
    · simp [Did_Inert_Optimization, Literal_Next_In_Feed, hinert, hnext, hw, hno]
  · have hno2 : next.no_lookahead = false := by simpa using hno
    by_cases hw : next.value.KIND_BYTE = REB_KIND.REB_WORD
    · cases hg : Try_Get_Opt_Var next.value with
      | none =>
        simp [Did_Inert_Optimization, Literal_Next_In_Feed, hinert, hnext, hw, hg]
      | some gotten =>
        by_cases he : gotten.enfixed = true
        · by_cases hq : gotten.action.quotes_first = true
          · simp [Did_Inert_Optimization, Literal_Next_In_Feed, hinert, hnext, hw, hg, he, hq,
              hno2, REBFLGS.with_post_switch]
          · by_cases hk : (gotten.action.skippable_first
                && !(gotten.action.first_param_types.contains feed.value.KIND_BYTE)) = true
            · simp only [Did_Inert_Optimization, Literal_Next_In_Feed, hinert, hnext, hw, hg, he,
                hq, hno2, hk]
              simp
            · simp only [Did_Inert_Optimization, Literal_Next_In_Feed, hinert, hnext, hw, hg, he,
                hq, hno2, hk]
              simp [REBFLGS.with_post_switch]
        · simp [Did_Inert_Optimization, Literal_Next_In_Feed, hinert, hnext, hw, hg, he]
    · by_cases hp : next.value.KIND_BYTE = REB_KIND.array REB_ARRAY_KIND.REB_PATH
      · by_cases hb : (ARR_AT next.value.VAL_ARRAY 0).KIND_BYTE = REB_KIND.REB_BLANK
            ∧ (ARR_AT next.value.VAL_ARRAY 1).KIND_BYTE = REB_KIND.REB_BLANK
        · simp [Did_Inert_Optimization, Literal_Next_In_Feed, hinert, hnext, hw, hno2, hp, hb,
            REBFLGS.with_post_switch]
          rw [← hno2]
        · simp [Did_Inert_Optimization, Literal_Next_In_Feed, hinert, hnext, hw, hno2, hp, hb]
          rw [← hno2]
      · simp [Did_Inert_Optimization, Literal_Next_In_Feed, hinert, hnext, hw, hno2, hp]
        rw [← hno2]

/-- C31: after every call of Did_Inert_Optimization that consumes the
lookahead (the lookahead is inert and the default hook is installed, so the
output cell holds it), the no-lookahead flag of the feed is clear, whether
the call returns true or false and whatever the flag was on entry. -/
theorem C31_no_lookahead_is_one_shot (ANY_INERT : Value → Bool)
    (Try_Get_Opt_Var : Value → Option Reb_Gotten) (out : Value) (feed : Reb_Feed)
    (flags : REBFLGS) (hinert : ANY_INERT feed.value = true) :
    (Did_Inert_Optimization ANY_INERT Try_Get_Opt_Var true out feed flags).out = feed.value
      ∧ (Did_Inert_Optimization ANY_INERT Try_Get_Opt_Var true out feed flags).feed.no_lookahead
          = false :=
  ⟨(Did_Inert_Optimization_cases ANY_INERT Try_Get_Opt_Var out feed flags hinert).1,
    (Did_Inert_Optimization_cases ANY_INERT Try_Get_Opt_Var out feed flags hinert).2.1⟩

/-- C31 at a concrete feed: the flag set on entry, the integer 1 followed by
a word bound to a hard-quoting enfixed action; the call returns false. -/
theorem C31_no_lookahead_is_one_shot_witness :
    example_ANY_INERT (example_enfix_feed true).value = true
    ∧ (example_enfix_feed true).no_lookahead = true
    ∧ (Did_Inert_Optimization example_ANY_INERT
        (example_enfix_lookup true false Reb_Param_Class.REB_P_HARD_QUOTE []) true Value.END
        (example_enfix_feed true) example_flags).result = false
    ∧ ((Did_Inert_Optimization example_ANY_INERT
        (example_enfix_lookup true false Reb_Param_Class.REB_P_HARD_QUOTE []) true Value.END
        (example_enfix_feed true) example_flags).out = (example_enfix_feed true).value
      ∧ (Did_Inert_Optimization example_ANY_INERT
        (example_enfix_lookup true false Reb_Param_Class.REB_P_HARD_QUOTE []) true Value.END
        (example_enfix_feed true) example_flags).feed.no_lookahead = false) :=
  ⟨by decide, rfl, rfl,
    C31_no_lookahead_is_one_shot example_ANY_INERT
      (example_enfix_lookup true false Reb_Param_Class.REB_P_HARD_QUOTE []) Value.END
      (example_enfix_feed true) example_flags (by decide)⟩

/-- C32: Did_Inert_Optimization returns false in two ways only.  Either the
lookahead is not inert or the hook is not the default one, and then the
output cell, the feed and the flags are as they were (and this is what
happens whenever the lookahead is not inert or the hook is not the default
one); or the lookahead is inert and the hook is the default one, the output
cell holds the lookahead, the feed is as after one fetch (with the
no-lookahead flag clear and `gotten` as the call set it), and the flags are
those on entry with post-switch and inert-optimization set.  Whenever it
returns true the flags are as they were. -/
theorem C32_two_ways_of_returning_false (ANY_INERT : Value → Bool)
    (Try_Get_Opt_Var : Value → Option Reb_Gotten) (default_hook : Bool) (out : Value)
    (feed : Reb_Feed) (flags : REBFLGS) :
    ((Did_Inert_Optimization ANY_INERT Try_Get_Opt_Var default_hook out feed flags).result
          = false →
        ((ANY_INERT feed.value = false ∨ default_hook = false)
          ∧ (Did_Inert_Optimization ANY_INERT Try_Get_Opt_Var default_hook out feed flags).out
              = out
          ∧ (Did_Inert_Optimization ANY_INERT Try_Get_Opt_Var default_hook out feed flags).feed
              = feed
          ∧ (Did_Inert_Optimization ANY_INERT Try_Get_Opt_Var default_hook out feed flags).flags
              = flags)
        ∨ (ANY_INERT feed.value = true ∧ default_hook = true
          ∧ (Did_Inert_Optimization ANY_INERT Try_Get_Opt_Var default_hook out feed flags).out
              = feed.value
          ∧ (Did_Inert_Optimization ANY_INERT Try_Get_Opt_Var default_hook out feed flags).feed
              = { Fetch_Next_Forget_Lookback feed with
                  no_lookahead := false
                  gotten := (Did_Inert_Optimization ANY_INERT Try_Get_Opt_Var default_hook out
                    feed flags).feed.gotten }
          ∧ (Did_Inert_Optimization ANY_INERT Try_Get_Opt_Var default_hook out feed flags).flags
              = flags.with_post_switch))
      ∧ ((ANY_INERT feed.value = false ∨ default_hook = false) →
        (Did_Inert_Optimization ANY_INERT Try_Get_Opt_Var default_hook out feed flags).result
            = false
        ∧ (Did_Inert_Optimization ANY_INERT Try_Get_Opt_Var default_hook out feed flags).out
            = out
        ∧ (Did_Inert_Optimization ANY_INERT Try_Get_Opt_Var default_hook out feed flags).feed
            = feed
        ∧ (Did_Inert_Optimization ANY_INERT Try_Get_Opt_Var default_hook out feed flags).flags
            = flags)
      ∧ ((Did_Inert_Optimization ANY_INERT Try_Get_Opt_Var default_hook out feed flags).result
          = true →
        (Did_Inert_Optimization ANY_INERT Try_Get_Opt_Var default_hook out feed flags).flags
          = flags) := by
  have hearly : (ANY_INERT feed.value = false ∨ default_hook = false) →
      Did_Inert_Optimization ANY_INERT Try_Get_Opt_Var default_hook out feed flags
        = { result := false, out := out, feed := feed, flags := flags } := by
    intro h
    rcases h with h | h
    · simp [Did_Inert_Optimization, h]
    · by_cases hi : ANY_INERT feed.value = true
      · simp [Did_Inert_Optimization, h, hi]
      · simp [Did_Inert_Optimization, hi]
  by_cases hfast : ANY_INERT feed.value = true ∧ default_hook = true
  · obtain ⟨hinert, hhook⟩ := hfast
    subst hhook
    obtain ⟨hout, _, hfeed, hres⟩ :=
      Did_Inert_Optimization_cases ANY_INERT Try_Get_Opt_Var out feed flags hinert
    refine ⟨?_, ?_, ?_⟩
    · intro hfalse
      right
      rcases hres with ⟨ht, _⟩ | ⟨_, hflags⟩
      · rw [ht] at hfalse; cases hfalse
      · exact ⟨hinert, rfl, hout, hfeed, hflags⟩
    · intro h
      rcases h with h | h
      · rw [hinert] at h; cases h
      · cases h
    · intro htrue
      rcases hres with ⟨_, hflags⟩ | ⟨hf, _⟩
      · exact hflags
      · rw [hf] at htrue; cases htrue
  · have hslow : ANY_INERT feed.value = false ∨ default_hook = false := by
      by_cases hi : ANY_INERT feed.value = true
      · right
        by_cases hh : default_hook = true
        · exact absurd ⟨hi, hh⟩ hfast
        · simpa using hh
      · left; simpa using hi
    have h := hearly hslow
    refine ⟨?_, ?_, ?_⟩
    · intro _
      left
      rw [h]
      exact ⟨hslow, rfl, rfl, rfl⟩
    · intro _
      rw [h]
      exact ⟨rfl, rfl, rfl, rfl⟩
    · intro htrue
      rw [h] at htrue
      cases htrue

/-- C32 at a concrete feed: the integer 1 followed by a word bound to an
enfixed action that does not quote; the call returns false in the second
way. -/
theorem C32_two_ways_of_returning_false_witness :
    (Did_Inert_Optimization example_ANY_INERT
        (example_enfix_lookup false false Reb_Param_Class.REB_P_NORMAL []) true Value.END
        (example_enfix_feed false) example_flags).result = false
    ∧ (Did_Inert_Optimization example_ANY_INERT
        (example_enfix_lookup false false Reb_Param_Class.REB_P_NORMAL []) true Value.END
        (example_enfix_feed false) example_flags).flags
        = { example_flags with post_switch := true, inert_optimization := true }
    ∧ (Did_Inert_Optimization example_ANY_INERT
        (example_enfix_lookup false false Reb_Param_Class.REB_P_NORMAL []) true Value.END
        (example_enfix_feed false) example_flags).feed.index = 2
    ∧ (((example_ANY_INERT (example_enfix_feed false).value = false ∨ true = false)
          ∧ (Did_Inert_Optimization example_ANY_INERT
              (example_enfix_lookup false false Reb_Param_Class.REB_P_NORMAL []) true Value.END
              (example_enfix_feed false) example_flags).out = Value.END
          ∧ (Did_Inert_Optimization example_ANY_INERT
              (example_enfix_lookup false false Reb_Param_Class.REB_P_NORMAL []) true Value.END
              (example_enfix_feed false) example_flags).feed = example_enfix_feed false
          ∧ (Did_Inert_Optimization example_ANY_INERT
              (example_enfix_lookup false false Reb_Param_Class.REB_P_NORMAL []) true Value.END
              (example_enfix_feed false) example_flags).flags = example_flags)
        ∨ (example_ANY_INERT (example_enfix_feed false).value = true ∧ true = true
          ∧ (Did_Inert_Optimization example_ANY_INERT
              (example_enfix_lookup false false Reb_Param_Class.REB_P_NORMAL []) true Value.END
              (example_enfix_feed false) example_flags).out = (example_enfix_feed false).value
          ∧ (Did_Inert_Optimization example_ANY_INERT
              (example_enfix_lookup false false Reb_Param_Class.REB_P_NORMAL []) true Value.END
              (example_enfix_feed false) example_flags).feed
              = { Fetch_Next_Forget_Lookback (example_enfix_feed false) with
                  no_lookahead := false
                  gotten := (Did_Inert_Optimization example_ANY_INERT
                    (example_enfix_lookup false false Reb_Param_Class.REB_P_NORMAL []) true
                    Value.END (example_enfix_feed false) example_flags).feed.gotten }
          ∧ (Did_Inert_Optimization example_ANY_INERT
              (example_enfix_lookup false false Reb_Param_Class.REB_P_NORMAL []) true Value.END
              (example_enfix_feed false) example_flags).flags
              = example_flags.with_post_switch)) :=
  ⟨rfl, rfl, rfl,
    (C32_two_ways_of_returning_false example_ANY_INERT
      (example_enfix_lookup false false Reb_Param_Class.REB_P_NORMAL []) true Value.END
      (example_enfix_feed false) example_flags).1 rfl⟩

/-! ### Collapsify_Array: idempotence -/

/-- The first cells of a sequence nest less deep than the sequence. -/
theorem depth_of_first_cells_lt (item : Value) (limit : Nat) (h : item.ANY_ARRAY = true) :
    depth_of_cells (item.first_cells limit) < item.depth := by
  cases item with
  | array line kind items index =>
    simp only [Value.first_cells, Value.VAL_ARRAY, Value.VAL_INDEX, Value.depth]
    apply Nat.lt_succ_of_le
    apply depth_of_cells_le
    intro v hv
    exact depth_le_of_mem items v (List.mem_of_mem_drop (List.mem_of_mem_take hv))
  | _ => simp [Value.ANY_ARRAY] at h

/-- One more pass of the loop of Collapsify_Array changes nothing, when that
holds for the first cells of every sequence among the items. -/
theorem Collapsify_Array_loop_idempotent (L : Nat) :
    ∀ (S : List Value),
      (∀ item ∈ S, item.ANY_ARRAY = true →
        Collapsify_Array (Collapsify_Array (item.first_cells L) L) L
          = Collapsify_Array (item.first_cells L) L) →
      Collapsify_Array_loop (fun copy => Collapsify_Array copy L) L
          (Collapsify_Array_loop (fun copy => Collapsify_Array copy L) L S)
        = Collapsify_Array_loop (fun copy => Collapsify_Array copy L) L S := by
  intro S
  induction S with
  | nil => intro _; rfl
  | cons item rest ih =>
    intro h
    have hrest := ih (fun v hv => h v (by simp [hv]))
    by_cases h1 : item.NOT_END = true
    · by_cases hlong : (item.ANY_ARRAY && decide (item.VAL_LEN_AT > L)) = true
      · have harr : item.ANY_ARRAY = true := by
          simp only [Bool.and_eq_true] at hlong
          exact hlong.1
        have hlen : L < (item.VAL_ARRAY.drop item.VAL_INDEX).length := by
          have h2 := hlong
          simp only [Bool.and_eq_true, decide_eq_true_eq, Value.VAL_LEN_AT] at h2
          rw [List.length_drop]
          exact h2.2
        have hidem := h item (by simp) harr
        have hfc : (item.first_cells L).length = L := by
          rw [Value.first_cells, List.length_take, Nat.min_eq_left (Nat.le_of_lt hlen)]
        have hclen : (Collapsify_Array (item.first_cells L) L).length = L := by
          rw [Collapsify_Array_length, hfc]
        have hstep : Collapsify_Array_loop (fun copy => Collapsify_Array copy L) L (item :: rest)
            = Value.array false item.VAL_TYPE
                (Collapsify_Array (item.first_cells L) L
                  ++ [Value.word false REBSYM.SYM_ELLIPSIS]) 0
              :: Collapsify_Array_loop (fun copy => Collapsify_Array copy L) L rest := by
          rw [Collapsify_Array_loop, if_pos h1, if_pos hlong]
          simp only [Copy_Array_At_Max_Shallow]
          rw [take_succ_set _ _ _ hlen]
          simp only [Val_Init_Word]
          rw [Collapsify_Array_append_word]
          rfl
        rw [hstep, Collapsify_Array_loop]
        have hlong2 : ((Value.array false item.VAL_TYPE
            (Collapsify_Array (item.first_cells L) L
              ++ [Value.word false REBSYM.SYM_ELLIPSIS]) 0).ANY_ARRAY
            && decide ((Value.array false item.VAL_TYPE
              (Collapsify_Array (item.first_cells L) L
                ++ [Value.word false REBSYM.SYM_ELLIPSIS]) 0).VAL_LEN_AT > L)) = true := by
          simp [Value.ANY_ARRAY, Value.VAL_LEN_AT, Value.VAL_ARRAY, Value.VAL_INDEX, hclen]
        have hne : (Value.array false item.VAL_TYPE
            (Collapsify_Array (item.first_cells L) L
              ++ [Value.word false REBSYM.SYM_ELLIPSIS]) 0).NOT_END = true := rfl
        rw [if_pos hne, if_pos hlong2, hrest]
        simp only [Copy_Array_At_Max_Shallow, Value.VAL_ARRAY, Value.VAL_INDEX, Value.VAL_TYPE,
          List.drop_zero, Val_Init_Word, Val_Init_Array_Index]
        have htake : (Collapsify_Array (item.first_cells L) L
              ++ [Value.word false REBSYM.SYM_ELLIPSIS]).take (L + 1)
            = Collapsify_Array (item.first_cells L) L
              ++ [Value.word false REBSYM.SYM_ELLIPSIS] := by
          apply List.take_of_length_le
          simp [hclen]
        have hset : (Collapsify_Array (item.first_cells L) L
              ++ [Value.word false REBSYM.SYM_ELLIPSIS]).set L
              (Value.word false REBSYM.SYM_ELLIPSIS)
            = Collapsify_Array (item.first_cells L) L
              ++ [Value.word false REBSYM.SYM_ELLIPSIS] := by
          have := set_at_length (Collapsify_Array (item.first_cells L) L)
            (Value.word false REBSYM.SYM_ELLIPSIS) (Value.word false REBSYM.SYM_ELLIPSIS) []
          rw [hclen] at this
          exact this
        rw [htake, hset, Collapsify_Array_append_word, hidem]
      · rw [Collapsify_Array_loop, if_pos h1, if_neg hlong, Collapsify_Array_loop, if_pos h1,
          if_neg hlong, hrest]
    · rw [Collapsify_Array_loop, if_neg h1, Collapsify_Array_loop, if_neg h1]

/-- C33: for every array S (a finite tree of cells) and every limit L,
applying Collapsify_Array at L to the result of Collapsify_Array at L gives
that result again, cell for cell. -/
theorem C33_collapsing_is_idempotent (S : List Value) (L : Nat) :
    Collapsify_Array (Collapsify_Array S L) L = Collapsify_Array S L := by
  have key : ∀ (n : Nat) (S : List Value), depth_of_cells S ≤ n →
      Collapsify_Array (Collapsify_Array S L) L = Collapsify_Array S L := by
    intro n
    induction n using Nat.strong_induction_on with
    | _ n ih =>
      intro S hS
      rw [Collapsify_Array_unfold (Collapsify_Array S L), Collapsify_Array_unfold S]
      apply Collapsify_Array_loop_idempotent
      intro item hmem harr
      have h1 := depth_of_first_cells_lt item L harr
      have h2 := depth_le_of_mem S item hmem
      exact ih (depth_of_cells (item.first_cells L)) (by omega) _ (Nat.le_refl _)
  exact key (depth_of_cells S) S (Nat.le_refl _)

end RenC
